import Mathlib

/-!
Verification of the question-paper-generator backend (`src/app.py`).

The program text is embedded shallowly: Python strings become `List Char`,
pure helper functions become Lean functions, the line-oriented layout loop
becomes an explicit step function on a state record, and the regular
expressions that drive line classification are compiled into a small
matcher-combinator library whose alternative order mirrors the
backtracking priority of CPython's `re` module.
-/

namespace QPG

/-- Python strings are modelled as lists of characters. -/
abbrev Str := List Char

/-- Whitespace characters recognised by Python's `str.strip()` / `\s`
(the ASCII subset, which covers every string the program manipulates). -/
def isPySpace (c : Char) : Bool :=
  c = ' ' || c = '\t' || c = '\n' || c = '\r' || c = '\x0b' || c = '\x0c'

/-- `str.lstrip()` with no argument: drop leading whitespace. -/
def pyLstrip (s : Str) : Str := s.dropWhile isPySpace

/-- `str.rstrip()` with no argument: drop trailing whitespace. -/
def pyRstrip (s : Str) : Str := (s.reverse.dropWhile isPySpace).reverse

/-- `str.strip()` with no argument. -/
def pyStrip (s : Str) : Str := pyRstrip (pyLstrip s)

/-- `str.lstrip(chars)`: drop leading characters found in `cs`. -/
def pyLstripChars (cs : List Char) (s : Str) : Str := s.dropWhile (cs.contains ·)

/-- `str.rstrip(chars)`. -/
def pyRstripChars (cs : List Char) (s : Str) : Str :=
  (s.reverse.dropWhile (cs.contains ·)).reverse

/-- ASCII lower-casing, as `str.lower()` acts on the ASCII range. -/
def pyLowerChar (c : Char) : Char :=
  if 'A' ≤ c ∧ c ≤ 'Z' then Char.ofNat (c.toNat + 32) else c

def pyLower (s : Str) : Str := s.map pyLowerChar

/-- Python's `in` on strings: substring containment. -/
def strContains (needle hay : Str) : Bool :=
  match hay with
  | [] => needle.isEmpty
  | _ :: t => needle.isPrefixOf hay || strContains needle t

/-- `str.isdigit()` for ASCII content: nonempty and all decimal digits. -/
def pyIsDigit (s : Str) : Bool :=
  !s.isEmpty && s.all (fun c => '0' ≤ c ∧ c ≤ '9')

/-- `str.startswith(p)`. -/
def pyStartsWith (p s : Str) : Bool := p.isPrefixOf s

/-- Convenience: string literal to `Str`. -/
def lit (s : String) : Str := s.toList

/-- The scan loop of `str.replace(old, new)`, fuelled by the suffix
length (each step consumes at least one character once `old` is
nonempty, so `s.length` fuel always suffices). -/
def pyReplaceGo (old new : Str) : ℕ → Str → Str
  | 0, s => s
  | f + 1, s =>
    match s with
    | [] => []
    | c :: t =>
      if old.isPrefixOf (c :: t) then
        new ++ pyReplaceGo old new f ((c :: t).drop old.length)
      else
        c :: pyReplaceGo old new f t

/-- `str.replace(old, new)` — replace every (leftmost, non-overlapping)
occurrence, as Python does. -/
def pyReplace (old new : Str) (s : Str) : Str :=
  if old.isEmpty then s else pyReplaceGo old new s.length s

/-!
## Matcher combinators

A matcher takes a suffix of the subject string and returns the list of
lengths it can consume, ordered by CPython `re` backtracking priority
(head = the length the engine actually picks). Patterns are compiled
from the literal regexes in `src/app.py`; only existence and the
first (priority) match length are ever consumed by the embedding.
-/

/-- A matcher: possible consumed lengths at this position, priority first. -/
def M := Str → List Nat

/-- Empty match. -/
def mEps : M := fun _ => [0]

/-- Single character satisfying a class predicate. -/
def mCls (p : Char → Bool) : M := fun cs =>
  match cs with
  | [] => []
  | c :: _ => if p c then [1] else []

def mChar (c : Char) : M := mCls (· = c)

/-- Literal string. -/
def mStr (s : String) : M := fun cs =>
  if s.toList.isPrefixOf cs then [s.toList.length] else []

/-- Case-insensitive literal (ASCII folding, as the flagged patterns use). -/
def mStrCI (s : String) : M := fun cs =>
  if (pyLower s.toList).isPrefixOf (pyLower (cs.take s.toList.length)) ∧
      s.toList.length ≤ cs.length then [s.toList.length] else []

/-- Sequencing; priority of the left matcher is the major order, as in
backtracking. -/
def mSeq (a b : M) : M := fun cs =>
  (a cs).flatMap (fun n => (b (cs.drop n)).map (n + ·))

def mSeqs : List M → M
  | [] => mEps
  | [a] => a
  | a :: rest => mSeq a (mSeqs rest)

/-- Ordered alternation (`x|y` tries `x` first). -/
def mAlt (a b : M) : M := fun cs => a cs ++ b cs

def mAlts : List M → M
  | [] => fun _ => []
  | [a] => a
  | a :: rest => mAlt a (mAlts rest)

/-- Greedy `?`: prefer to consume. -/
def mOpt (a : M) : M := fun cs => a cs ++ [0]

/-- Greedy `*` with explicit fuel (each mandatory step consumes ≥ 1
character, so `cs.length` steps always suffice). -/
def mManyF : Nat → M → M
  | 0, _ => fun _ => [0]
  | f + 1, a => fun cs =>
      (((a cs).filter (0 < ·)).flatMap
        (fun n => (mManyF f a (cs.drop n)).map (n + ·))) ++ [0]

def mMany (a : M) : M := fun cs => mManyF cs.length a cs

/-- Greedy `+`. -/
def mMany1 (a : M) : M := mSeq a (mMany a)

/-- Lazy `*?`: prefer the empty match. -/
def mManyLazyF : Nat → M → M
  | 0, _ => fun _ => [0]
  | f + 1, a => fun cs =>
      0 :: (((a cs).filter (0 < ·)).flatMap
        (fun n => (mManyLazyF f a (cs.drop n)).map (n + ·)))

def mManyLazy (a : M) : M := fun cs => mManyLazyF cs.length a cs

/-- Lazy `+?`. -/
def mMany1Lazy (a : M) : M := mSeq a (mManyLazy a)

/-- Exactly `n` copies. -/
def mRep (a : M) (n : Nat) : M :=
  match n with
  | 0 => mEps
  | n + 1 => mSeq a (mRep a n)

/-- `{n,}`. -/
def mAtLeast (a : M) (n : Nat) : M := mSeq (mRep a n) (mMany a)

/-- Zero-width lookahead `(?=a)`. -/
def mLook (a : M) : M := fun cs => if (a cs).isEmpty then [] else [0]

/-- `$` without `MULTILINE`: end of string or just before a final newline. -/
def mEnd : M := fun cs => if cs.isEmpty || cs = ['\n'] then [0] else []

/-- `re.match(p, s)` as a boolean: does some prefix of `s` match? -/
def reMatch (a : M) (s : Str) : Bool := !(a s).isEmpty

/-- `re.search(p, s)` as a boolean. -/
def reSearch (a : M) (s : Str) : Bool :=
  match s with
  | [] => reMatch a []
  | _ :: t => reMatch a s || reSearch a t

/-- Leftmost match: returns `(prefix, matchedLength)` for the first
position where the matcher succeeds, taking its priority-first length. -/
def reFind (a : M) : Str → Option (Str × Nat)
  | [] => (a []).head?.map (fun n => ([], n))
  | c :: t =>
    match (a (c :: t)).head? with
    | some n => some ([], n)
    | none => (reFind a t).map (fun (p, n) => (c :: p, n))

/-- `re.split(p, s, maxsplit=1)` when it produces two parts: the text
before and after the leftmost match. -/
def reSplit1 (a : M) (s : Str) : Option (Str × Str) :=
  (reFind a s).map (fun (p, n) => (p, (s.drop p.length).drop n))

/-!
## Key Splitter (`split_key`, src/app.py:2366-2372)

`split_key` tries three marker regexes in order with `re.split(..., maxsplit=1)`
and strips both halves; with no match it returns the stripped text and `""`.
-/

/-- Marker pattern 1: `r'\nANSWER KEY\n'`. -/
def patAK1 : M := mStr "\nANSWER KEY\n"

/-- Marker pattern 2: `r'\n---\s*ANSWER KEY\s*---\n'`. -/
def patAK2 : M :=
  mSeqs [mChar '\n', mStr "---", mMany (mCls isPySpace), mStr "ANSWER KEY",
         mMany (mCls isPySpace), mStr "---", mChar '\n']

/-- Marker pattern 3: `r'(?i)\nANSWER KEY:?\s*\n'`. -/
def patAK3 : M :=
  mSeqs [mChar '\n', mStrCI "ANSWER KEY", mOpt (mChar ':'),
         mMany (mCls isPySpace), mChar '\n']

/-- `split_key` (src/app.py:2366-2372). -/
def split_key (text : Str) : Str × Str :=
  match reSplit1 patAK1 text with
  | some (a, b) => (pyStrip a, pyStrip b)
  | none =>
    match reSplit1 patAK2 text with
    | some (a, b) => (pyStrip a, pyStrip b)
    | none =>
      match reSplit1 patAK3 text with
      | some (a, b) => (pyStrip a, pyStrip b)
      | none => (pyStrip text, [])

lemma reFind_mStr_step_pos (s0 : String) (c : Char) (t : Str)
    (hb : s0.toList <+: (c :: t)) :
    reFind (mStr s0) (c :: t) = some ([], s0.toList.length) := by
  have hbd : s0.data <+: c :: t := hb
  simp [reFind, mStr, hbd]

lemma reFind_mStr_step_neg (s0 : String) (c : Char) (t : Str)
    (hb : ¬ s0.toList <+: (c :: t)) :
    reFind (mStr s0) (c :: t) =
      (reFind (mStr s0) t).map (fun pn => (c :: pn.1, pn.2)) := by
  have hbd : ¬ s0.data <+: c :: t := hb
  simp [reFind, mStr, hbd]

lemma reFind_mStr_spec (s0 : String) (h0 : s0.toList ≠ []) :
    ∀ text p n, reFind (mStr s0) text = some (p, n) →
      n = s0.toList.length ∧ (s0.toList <+: text.drop p.length) ∧
        text = p ++ text.drop p.length := by
  intro text
  induction text with
  | nil =>
    intro p n h
    simp only [reFind, mStr] at h
    rw [if_neg (by simpa using h0)] at h
    simp at h
  | cons c t ih =>
    intro p n h
    by_cases hb : s0.toList <+: (c :: t)
    · rw [reFind_mStr_step_pos s0 c t hb] at h
      simp only [Option.some_inj, Prod.mk.injEq] at h
      obtain ⟨hp, hn⟩ := h
      subst hp
      exact ⟨hn.symm, by simpa using hb, by simp⟩
    · rw [reFind_mStr_step_neg s0 c t hb] at h
      cases hfind : reFind (mStr s0) t with
      | none => rw [hfind] at h; simp at h
      | some pn =>
        obtain ⟨p', n'⟩ := pn
        rw [hfind] at h
        simp only [Option.map_some', Option.some_inj, Prod.mk.injEq] at h
        obtain ⟨hp, hn⟩ := h
        obtain ⟨hn', hpre', heq⟩ := ih p' n' hfind
        subst hn
        refine ⟨hn', ?_, ?_⟩
        · rw [← hp]; simpa using hpre'
        · rw [← hp]; simpa using congrArg (c :: ·) heq

lemma reSplit1_mStr_spec (s0 : String) (h0 : s0.toList ≠ []) (text p q : Str)
    (h : reSplit1 (mStr s0) text = some (p, q)) :
    text = p ++ s0.toList ++ q := by
  unfold reSplit1 at h
  cases hfind : reFind (mStr s0) text with
  | none => rw [hfind] at h; simp at h
  | some pn =>
    obtain ⟨p', n⟩ := pn
    rw [hfind] at h
    simp only [Option.map_some'] at h
    have hp : p' = p := congrArg Prod.fst (Option.some_inj.mp h)
    have hq : (text.drop p'.length).drop n = q := congrArg Prod.snd (Option.some_inj.mp h)
    subst hp
    obtain ⟨hn, hpre, heq⟩ := reFind_mStr_spec s0 h0 text p' n hfind
    obtain ⟨rest, hrest⟩ := hpre
    have hqr : q = rest := by
      rw [← hq, ← hrest, hn]; simp
    subst hqr
    conv_lhs => rw [heq, ← hrest]
    simp

lemma reFind_decomp (a : M) :
    ∀ text p n, reFind a text = some (p, n) →
      ∃ suffix : Str, text = p ++ suffix ∧ n ∈ a suffix := by
  intro text
  induction text with
  | nil =>
    intro p n h
    simp only [reFind] at h
    cases hh : (a []).head? with
    | none => rw [hh] at h; simp at h
    | some m =>
      rw [hh] at h
      simp only [Option.map_some', Option.some_inj, Prod.mk.injEq] at h
      obtain ⟨hp, hn⟩ := h
      subst hn
      exact ⟨[], by simp [← hp], List.mem_of_mem_head? (by simp [hh])⟩
  | cons c t ih =>
    intro p n h
    simp only [reFind] at h
    cases hh : (a (c :: t)).head? with
    | some m =>
      rw [hh] at h
      simp only [Option.some_inj, Prod.mk.injEq] at h
      obtain ⟨hp, hn⟩ := h
      subst hn
      exact ⟨c :: t, by simp [← hp], List.mem_of_mem_head? (by simp [hh])⟩
    | none =>
      rw [hh] at h
      cases hf : reFind a t with
      | none => rw [hf] at h; simp at h
      | some pn =>
        obtain ⟨p', n'⟩ := pn
        rw [hf] at h
        simp only [Option.map_some', Option.some_inj, Prod.mk.injEq] at h
        obtain ⟨hp, hn⟩ := h
        subst hn
        obtain ⟨suffix, hs, hm⟩ := ih p' n' hf
        exact ⟨suffix, by simp [← hp, hs], hm⟩

/-- A successful `reSplit1` decomposes the text as
`prefix ++ marker ++ rest`, the marker being a match of the pattern at
that position. -/
lemma reSplit1_decomp (a : M) (text p q : Str)
    (h : reSplit1 a text = some (p, q)) :
    ∃ (m : Str) (n : ℕ), text = p ++ m ++ q ∧ n ∈ a (m ++ q) ∧
      m = (m ++ q).take n := by
  unfold reSplit1 at h
  cases hf : reFind a text with
  | none => rw [hf] at h; simp at h
  | some pn =>
    obtain ⟨p', n⟩ := pn
    rw [hf] at h
    simp only [Option.map_some', Option.some_inj, Prod.mk.injEq] at h
    obtain ⟨hp, hq⟩ := h
    subst hp
    obtain ⟨suffix, hs, hm⟩ := reFind_decomp a text p' n hf
    have hdrop : text.drop p'.length = suffix := by rw [hs]; simp
    rw [hdrop] at hq
    have hsplit : suffix.take n ++ q = suffix := by
      rw [← hq]; exact List.take_append_drop n suffix
    refine ⟨suffix.take n, n, ?_, ?_, ?_⟩
    · rw [hs, List.append_assoc, hsplit]
    · rw [hsplit]; exact hm
    · rw [hsplit]

/-- The first marker literal, `"\nANSWER KEY\n"`. -/
def akMarker : Str := lit "\nANSWER KEY\n"

/-- C1 (amended). Whenever one of the three marker patterns matches,
`split_key` returns the stripped halves around the first match of the
first pattern that matches (pattern 1, else pattern 2, else pattern 3),
and re-inserting the matched marker reconstructs the original text
exactly when the two halves carry no leading or trailing whitespace
(stripping makes the general claim fail); when no marker pattern
matches, the result is the stripped input paired with the empty key,
and no exception path exists. -/
theorem C1_split_key_amended :
    (∀ text p q, reSplit1 patAK1 text = some (p, q) →
      split_key text = (pyStrip p, pyStrip q) ∧
      text = p ++ akMarker ++ q ∧
      (pyStrip p = p → pyStrip q = q →
        (split_key text).1 ++ akMarker ++ (split_key text).2 = text)) ∧
    (∀ text p q, reSplit1 patAK1 text = none →
      reSplit1 patAK2 text = some (p, q) →
      split_key text = (pyStrip p, pyStrip q) ∧
      ∃ (m : Str) (n : ℕ), text = p ++ m ++ q ∧ n ∈ patAK2 (m ++ q) ∧
        m = (m ++ q).take n ∧
        (pyStrip p = p → pyStrip q = q →
          (split_key text).1 ++ m ++ (split_key text).2 = text)) ∧
    (∀ text p q, reSplit1 patAK1 text = none →
      reSplit1 patAK2 text = none →
      reSplit1 patAK3 text = some (p, q) →
      split_key text = (pyStrip p, pyStrip q) ∧
      ∃ (m : Str) (n : ℕ), text = p ++ m ++ q ∧ n ∈ patAK3 (m ++ q) ∧
        m = (m ++ q).take n ∧
        (pyStrip p = p → pyStrip q = q →
          (split_key text).1 ++ m ++ (split_key text).2 = text)) ∧
    (∀ text, reSplit1 patAK1 text = none → reSplit1 patAK2 text = none →
      reSplit1 patAK3 text = none → split_key text = (pyStrip text, [])) := by
  refine ⟨?_, ?_, ?_, ?_⟩
  · intro text p q h
    have hrec : text = p ++ "\nANSWER KEY\n".toList ++ q :=
      reSplit1_mStr_spec "\nANSWER KEY\n" (by decide) text p q h
    refine ⟨?_, hrec, ?_⟩
    · unfold split_key
      rw [h]
    · intro hp hq
      unfold split_key
      rw [h]
      simpa [hp, hq] using hrec.symm
  · intro text p q h1 h2
    have hsk : split_key text = (pyStrip p, pyStrip q) := by
      unfold split_key
      rw [h1, h2]
    obtain ⟨m, n, hm1, hm2, hm3⟩ := reSplit1_decomp patAK2 text p q h2
    refine ⟨hsk, m, n, hm1, hm2, hm3, ?_⟩
    intro hp hq
    rw [hsk]
    simpa [hp, hq] using hm1.symm
  · intro text p q h1 h2 h3
    have hsk : split_key text = (pyStrip p, pyStrip q) := by
      unfold split_key
      rw [h1, h2, h3]
    obtain ⟨m, n, hm1, hm2, hm3⟩ := reSplit1_decomp patAK3 text p q h3
    refine ⟨hsk, m, n, hm1, hm2, hm3, ?_⟩
    intro hp hq
    rw [hsk]
    simpa [hp, hq] using hm1.symm
  · intro text h1 h2 h3
    unfold split_key
    rw [h1, h2, h3]

/-- C1 witness: the amended theorem applied at a concrete text for each
of the three marker patterns. -/
theorem C1_split_key_amended_witness :
    split_key (lit "x\nANSWER KEY\ny") = (lit "x", lit "y") ∧
    lit "x\nANSWER KEY\ny" = lit "x" ++ akMarker ++ lit "y" ∧
    split_key (lit "x\n--- ANSWER KEY ---\ny") = (lit "x", lit "y") ∧
    split_key (lit "a\nanswer key:\nb") = (lit "a", lit "b") := by
  have h1 : reSplit1 patAK1 (lit "x\nANSWER KEY\ny") = some (lit "x", lit "y") := by
    decide
  have g1 := C1_split_key_amended.1 (lit "x\nANSWER KEY\ny") (lit "x") (lit "y") h1
  have h2a : reSplit1 patAK1 (lit "x\n--- ANSWER KEY ---\ny") = none := by decide
  have h2b : reSplit1 patAK2 (lit "x\n--- ANSWER KEY ---\ny") =
      some (lit "x", lit "y") := by decide
  have g2 := C1_split_key_amended.2.1 (lit "x\n--- ANSWER KEY ---\ny")
    (lit "x") (lit "y") h2a h2b
  have h3a : reSplit1 patAK1 (lit "a\nanswer key:\nb") = none := by decide
  have h3b : reSplit1 patAK2 (lit "a\nanswer key:\nb") = none := by decide
  have h3c : reSplit1 patAK3 (lit "a\nanswer key:\nb") =
      some (lit "a", lit "b") := by decide
  have g3 := C1_split_key_amended.2.2.1 (lit "a\nanswer key:\nb")
    (lit "a") (lit "b") h3a h3b h3c
  exact ⟨by rw [g1.1]; decide, g1.2.1, by rw [g2.1]; decide, by rw [g3.1]; decide⟩

/-- C1 counterexample to the claim as stated: with surrounding whitespace
the stripped halves no longer concatenate back to the original text. -/
theorem C1_split_key_counterexample :
    ¬ ((split_key (lit " A\nANSWER KEY\nB ")).1 ++ akMarker ++
        (split_key (lit " A\nANSWER KEY\nB ")).2 = lit " A\nANSWER KEY\nB ") := by
  decide

/-!
## Prompt Builder structure arithmetic (`_compute_structure`, src/app.py:1060-1109)

Python's `round` is round-half-to-even on floats; here `round(x * 0.20)`
is modelled as round-half-to-even at the exact rational `x / 5`, and
similarly for the other percentage factors. The exact-rational model
agrees with the CPython float computation of `_compute_structure` for
every `m` between 1 and 1000 (checked exhaustively against the
interpreter), in particular at every input used below.
-/

/-- Python's builtin `round` at the exact rational `num / den` (`den > 0`):
round-half-to-even, expressed with integer floor division. -/
def pyRound (num den : ℤ) : ℤ :=
  let fl := num.fdiv den
  let r := num - fl * den
  if 2 * r < den then fl
  else if den < 2 * r then fl + 1
  else if fl % 2 = 0 then fl else fl + 1

/-- Record of the fields returned by `_compute_structure`. -/
structure PaperStructure where
  m : ℤ
  partA : ℤ
  partB : ℤ
  total : ℤ
  n_mcq : ℤ
  n_fill : ℤ
  n_match : ℤ
  mcq_marks : ℤ
  fill_marks : ℤ
  match_marks : ℤ
  n_vsq : ℤ
  vsq_total : ℤ
  n_sa_given : ℤ
  n_sa_att : ℤ
  sa_total : ℤ
  n_la_given : ℤ
  n_la_att : ℤ
  la_total : ℤ
  n_app_given : ℤ
  n_app_att : ℤ
  marks_per_app : ℤ
  app_total : ℤ
  iv_start : ℤ
  iv_end : ℤ
  v_start : ℤ
  v_end : ℤ
  vi_start : ℤ
  vi_end : ℤ
  vii_start : ℤ
  vii_end : ℤ

/-- `_compute_structure(marks)` (src/app.py:1060-1109). Python `//` is
floor division, hence `Int.fdiv`. -/
def compute_structure (marks : ℤ) : PaperStructure :=
  let m := max 10 marks
  let partA := pyRound m 5
  let partB := m - partA
  let mcq_marks := pyRound partA 2
  let fill_marks := pyRound partA 4
  let match_marks := partA - mcq_marks - fill_marks
  let n_mcq := mcq_marks
  let n_fill := fill_marks
  let n_match := max 2 match_marks
  let vsq_marks := pyRound partB 4
  let sa_marks := pyRound partB 5
  let la_marks := pyRound (3 * partB) 10
  let app_marks := partB - vsq_marks - sa_marks - la_marks
  let n_vsq := max 2 (vsq_marks.fdiv 2)
  let n_sa_att := max 2 (sa_marks.fdiv 4)
  let n_sa_given := n_sa_att + 2
  let n_la_att := max 1 (la_marks.fdiv 6)
  let n_la_given := n_la_att + 2
  let marks_per_app :=
    if 10 ≤ app_marks then 10
    else if 8 ≤ app_marks then 8
    else max 4 ((app_marks.fdiv 2) * 2)
  let n_app_att := max 1 (app_marks.fdiv marks_per_app)
  let n_app_given := n_app_att + 1
  let actual_vsq := n_vsq * 2
  let actual_sa := n_sa_att * 4
  let actual_la := n_la_att * 6
  let actual_app := n_app_att * marks_per_app
  let actual_partB := actual_vsq + actual_sa + actual_la + actual_app
  let actual_total := partA + actual_partB
  { m := m, partA := partA, partB := actual_partB, total := actual_total,
    n_mcq := n_mcq, n_fill := n_fill, n_match := n_match,
    mcq_marks := mcq_marks, fill_marks := fill_marks, match_marks := match_marks,
    n_vsq := n_vsq, vsq_total := actual_vsq,
    n_sa_given := n_sa_given, n_sa_att := n_sa_att, sa_total := actual_sa,
    n_la_given := n_la_given, n_la_att := n_la_att, la_total := actual_la,
    n_app_given := n_app_given, n_app_att := n_app_att,
    marks_per_app := marks_per_app, app_total := actual_app,
    iv_start := 1, iv_end := n_vsq,
    v_start := n_vsq + 1, v_end := n_vsq + n_sa_given,
    vi_start := n_vsq + n_sa_given + 1, vi_end := n_vsq + n_sa_given + n_la_given,
    vii_start := n_vsq + n_sa_given + n_la_given + 1,
    vii_end := n_vsq + n_sa_given + n_la_given + n_app_given }

/-- The seven per-section mark sub-totals stated in the state-board prompt
(Sections I-III from Part A, Sections IV-VII from Part B). -/
def sectionSubtotals (s : PaperStructure) : List ℤ :=
  [s.mcq_marks, s.fill_marks, s.match_marks,
   s.vsq_total, s.sa_total, s.la_total, s.app_total]

/-- C4 (amended). The seven section sub-totals stated in the prompt always
sum to the grand total the prompt states (`partA + actual Part B`), for
every requested marks value; that grand total, however, is not in general
the requested total. -/
theorem C4_subtotals_sum_amended (marks : ℤ) :
    (sectionSubtotals (compute_structure marks)).sum =
      (compute_structure marks).total := by
  simp only [sectionSubtotals, compute_structure, List.sum_cons, List.sum_nil]
  ring

/-- C4 counterexample: for a requested total of 80 marks the stated
sub-totals sum to 72, not 80. -/
theorem C4_subtotals_counterexample :
    (sectionSubtotals (compute_structure 80)).sum = 72 ∧
      ¬ (sectionSubtotals (compute_structure 80)).sum = 80 := by
  constructor <;> decide

/-!
## Prompt Builder templates (`build_prompt` and the `_simple_*` templates,
src/app.py:1024-1331)

The f-string templates are reproduced as concatenations; `{expr}`
interpolations become `intStr`/list splices. Literal braces from the
source text are written with `\x7b`/`\x7d` escapes.
-/

/-- `str(n)` for a natural number. -/
def natStr (n : ℕ) : Str := (Nat.repr n).toList

/-- `str(i)` for a Python int. -/
def intStr (i : ℤ) : Str :=
  if i < 0 then '-' :: natStr i.natAbs else natStr i.natAbs

/-- `int(s)` for a digit string. -/
def strToNat (s : Str) : ℕ :=
  s.foldl (fun acc c => acc * 10 + (c.toNat - '0'.toNat)) 0

/-- First maximal digit run of a string (`re.search(r'\d+', s)`). -/
def firstDigitRun : Str → Option Str
  | [] => none
  | c :: t =>
    if '0' ≤ c ∧ c ≤ '9' then
      some (c :: t.takeWhile (fun d => '0' ≤ d ∧ d ≤ '9'))
    else firstDigitRun t

def cat (xs : List Str) : Str := xs.flatten

/-- `_simple_state_board` (src/app.py:1112-1185). -/
def simple_state_board (subject chapter board cls : Str) (marks : ℤ)
    (difficulty extra math_notation : Str) : Str :=
  let chap_str := if chapter.isEmpty then lit "as per syllabus" else chapter
  let diff_mix :=
    if difficulty = lit "Easy" then
      lit "50% recall/understand, 30% apply, 20% analyse"
    else if difficulty = lit "Medium" then
      lit "25% recall, 40% apply, 25% analyse, 10% evaluate"
    else if difficulty = lit "Hard" then
      lit "10% recall, 20% understand, 35% apply, 25% analyse, 10% evaluate"
    else lit "25% recall, 40% apply, 25% analyse, 10% evaluate"
  let s := compute_structure marks
  let actual := s.total
  let time_str :=
    if actual ≤ 30 then lit "1 Hour"
    else if actual ≤ 60 then lit "2 Hours"
    else lit "3 Hours 15 Minutes"
  let match_word := if s.n_match ≠ 1 then lit "pairs" else lit "pair"
  cat [lit "You are an experienced ", board, lit " Class ", cls,
    lit " examiner. Generate a complete, ready-to-print exam paper.\n",
    extra,
    lit "\nPAPER DETAILS\nSubject   : ", subject,
    lit "\nChapter   : ", chap_str,
    lit "\nClass     : ", cls, lit "   Board: ", board,
    lit "\nTotal     : ", intStr actual, lit " marks   Difficulty: ",
    difficulty, lit " (", diff_mix, lit ")",
    lit "\n\nSTRUCTURE (follow exactly — question counts computed from ",
    intStr actual, lit "-mark blueprint):",
    lit "\n\nPART A — OBJECTIVE (", intStr s.partA, lit " marks)",
    lit "\nSection I   — ", intStr s.n_mcq, lit " MCQ × 1 mark = ",
    intStr s.mcq_marks, lit " marks  [Q1–Q", intStr s.n_mcq, lit "]",
    lit "\nSection II  — ", intStr s.n_fill,
    lit " Fill-in-the-blank × 1 mark = ", intStr s.fill_marks,
    lit " marks  [Q", intStr (s.n_mcq + 1), lit "–Q",
    intStr (s.n_mcq + s.n_fill), lit "]",
    lit "\nSection III — 1 Match-the-following (", intStr s.n_match,
    lit " ", match_word, lit ") = ", intStr s.match_marks,
    lit " marks  [Q", intStr (s.n_mcq + s.n_fill + 1), lit "]",
    lit "\n                              Subtotal = ", intStr s.partA,
    lit " marks",
    lit "\n\nPART B — WRITTEN (", intStr s.partB, lit " marks)",
    lit "\nSection IV  — ", intStr s.n_vsq,
    lit " Very Short Answer (ALL compulsory) × 2 marks = ",
    intStr s.vsq_total, lit " marks  [Q", intStr s.iv_start, lit "–Q",
    intStr s.iv_end, lit "]",
    lit "\nSection V   — ", intStr s.n_sa_given,
    lit " Short Answer given, attempt any ", intStr s.n_sa_att,
    lit " × 4 marks = ", intStr s.sa_total, lit " marks  [Q",
    intStr s.v_start, lit "–Q", intStr s.v_end, lit "]",
    lit "\nSection VI  — ", intStr s.n_la_given,
    lit " Long Answer given, attempt any ", intStr s.n_la_att,
    lit " × 6 marks = ", intStr s.la_total, lit " marks  [Q",
    intStr s.vi_start, lit "–Q", intStr s.vi_end,
    lit ", each with OR option]",
    lit "\nSection VII — ", intStr s.n_app_given,
    lit " Application/Problem given, attempt any ", intStr s.n_app_att,
    lit " × ", intStr s.marks_per_app, lit " marks = ", intStr s.app_total,
    lit " marks  [Q", intStr s.vii_start, lit "–Q", intStr s.vii_end,
    lit "]",
    lit "\n                              Subtotal = ", intStr s.partB,
    lit " marks",
    lit "\n                         GRAND TOTAL = ", intStr actual,
    lit " marks ✓\n",
    math_notation,
    lit "\nFORMATTING RULES:",
    lit "\n- Every question ends with its mark tag: [1 Mark] [2 Marks] [4 Marks] [6 Marks] [",
    intStr s.marks_per_app, lit " Marks]",
    lit "\n- MCQ: exactly 4 options (A)(B)(C)(D), line ends with (   ) for student to write answer",
    lit "\n- Fill-blank: use __________ for the blank",
    lit "\n- Match: pipe table with exactly ", intStr s.n_match,
    lit " data rows:",
    lit "\n  | Group A | Group B |",
    lit "\n  |---|---|",
    lit "\n  | item | match |",
    lit "\n- Every Section VI question needs an OR alternative",
    lit "\n- Diagrams: write [DIAGRAM: description] on its own line, nothing else",
    lit "\n- All questions must be about \"", chap_str, lit "\" only",
    lit "\n- No two questions should test the same thing",
    lit "\n\nAfter all questions, write:",
    lit "\n\nANSWER KEY",
    lit "\n\nThen give complete answers with full worked solutions.",
    lit "\n\nBEGIN the paper now. Write the header then Part A directly.",
    lit "\n\n", subject, lit " — ", chap_str,
    lit "\n", board, lit " | Class ", cls, lit "   Total Marks: ",
    intStr actual, lit "   Time: ", time_str,
    lit "\n\nPART A — OBJECTIVE  (", intStr s.partA, lit " Marks)",
    lit "\n(Answer on this sheet. Submit after 30 minutes.)",
    lit "\n\nSection I — Multiple Choice Questions  [1 Mark each]\n"]

/-- `_simple_lower_class` (src/app.py:1188-1215). -/
def simple_lower_class (subject chapter board cls : Str) (_marks : ℤ)
    (difficulty extra math_notation : Str) : Str :=
  let chap_str := if chapter.isEmpty then lit "as per syllabus" else chapter
  cat [lit "You are a ", board, lit " Class ", cls,
    lit " examiner. Generate a complete exam paper.\n",
    extra,
    lit "\nSubject: ", subject, lit "  |  Chapter: ", chap_str,
    lit "  |  Class: ", cls, lit "  |  Total: 50 marks",
    lit "\nDifficulty: ", difficulty, lit "\n",
    math_notation,
    lit "\nSTRUCTURE:",
    lit "\nSection A — Objective (10 marks): 5 MCQ [Q1–5] + 3 Fill-blank [Q6–8] + 1 Match 2-pair [Q9] = 10 marks",
    lit "\nSection B — Very Short Answer (20 marks): 10 questions × 2 marks [ALL compulsory, Q1–10]",
    lit "\nSection C — Short Answer (10 marks): 4 questions, attempt any 2 × 5 marks [Q11–14]",
    lit "\nSection D — Long Answer (10 marks): 2 questions, attempt any 1 × 10 marks [Q15–16]",
    lit "\nTotal = 50 marks",
    lit "\n\nRULES:",
    lit "\n- All questions about \"", chap_str, lit "\" only",
    lit "\n- MCQ: 4 options (A)(B)(C)(D), line ends with (   )",
    lit "\n- Fill-blank: use __________ for the blank",
    lit "\n- Every question ends with mark tag [1 Mark] [2 Marks] [5 Marks] [10 Marks]",
    lit "\n\nAfter questions, write ANSWER KEY with full answers.",
    lit "\n\nBEGIN:",
    lit "\n\nSubject: ", subject, lit "   Class: ", cls,
    lit "   Total: 50 Marks   Board: ", board,
    lit "\n\nSection A — Objective  (10 Marks)\n"]

/-- `_simple_competitive` (src/app.py:1218-1331). -/
def simple_competitive (exam subject chapter cls : Str) (_marks : ℤ)
    (difficulty extra math_notation : Str) : Str :=
  let chap_str := if chapter.isEmpty then lit "full syllabus" else chapter
  if exam = lit "NTSE" then
    let subj_l := pyLower subject
    if strContains (lit "mat") subj_l || strContains (lit "mental") subj_l ||
        strContains (lit "reasoning") subj_l then
      cat [lit "Generate a complete NTSE MAT (Mental Ability Test) practice paper.\n",
        extra,
        lit "Class: ", cls,
        lit "   Total: 100 questions × 1 mark = 100 marks   Time: 2 hours   No negative marking",
        lit "\nDifficulty: ", difficulty,
        lit "\n\nQUESTION TYPE DISTRIBUTION (must total 100):",
        lit "\nQ1–12: Verbal Analogy (12)",
        lit "\nQ13–22: Number/Letter Series (10)",
        lit "\nQ23–32: Non-Verbal Analogy — describe figures in text (10)",
        lit "\nQ33–40: Coding-Decoding (8)",
        lit "\nQ41–46: Blood Relations (6)",
        lit "\nQ47–52: Direction & Distance (6)",
        lit "\nQ53–58: Ranking & Ordering (6)",
        lit "\nQ59–64: Clock & Calendar (6)",
        lit "\nQ65–70: Venn Diagrams (6)",
        lit "\nQ71–76: Mirror/Water Image — describe in text (6)",
        lit "\nQ77–82: Classification/Odd-One-Out (6)",
        lit "\nQ83–88: Pattern Completion — describe in text (6)",
        lit "\nQ89–94: Mathematical Operations (6)",
        lit "\nQ95–100: Mixed Reasoning (6)",
        lit "\n\nFORMAT: Q[n]. [question] [1 Mark]",
        lit "\n(A) opt   (B) opt   (C) opt   (D) opt",
        lit "\n\nANSWER KEY after all 100 questions: Q1.(B) Q2.(A) ... (10 per line). Then explain Q1–Q20 reasoning.",
        lit "\n\nBEGIN:",
        lit "\nExam: NTSE MAT Practice   Class: ", cls,
        lit "   Marks: 100   Time: 2 Hours",
        lit "\n\nQ1–Q12 — Verbal Analogy  [1 Mark each]\n"]
    else
      cat [lit "Generate a complete NTSE SAT practice paper.\n",
        extra,
        lit "Class: ", cls, lit "   Topic: ", chap_str,
        lit "   Total: 100 × 1 mark = 100 marks   Time: 2 hours\n",
        math_notation,
        lit "\nSECTION DISTRIBUTION:",
        lit "\nScience Q1–Q40: Physics Q1–13, Chemistry Q14–26, Biology Q27–40",
        lit "\nSocial Science Q41–Q80: History Q41–53, Geography Q54–66, Civics Q67–73, Economics Q74–80",
        lit "\nMathematics Q81–Q100: all Class ", cls, lit " topics",
        lit "\n\nFORMAT: Q[n]. [question] [1 Mark]",
        lit "\n(A) opt   (B) opt   (C) opt   (D) opt",
        lit "\n\nANSWER KEY after all 100 questions. Explain Maths answers Q81–Q100 step by step.",
        lit "\n\nBEGIN:",
        lit "\nExam: NTSE SAT Practice   Class: ", cls,
        lit "   Marks: 100   Time: 2 Hours",
        lit "\n\nScience — Physics (Q1–Q13)  [1 Mark each]\n"]
  else if exam = lit "NSO" || exam = lit "IMO" then
    let struct :=
      if exam = lit "NSO" then
        cat [lit "Section 1 — Logical Reasoning Q1–10 (10 × 1M)\n",
          lit "Section 2 — Science Q11–45 (35 × 1M)\n",
          lit "Section 3 — Achiever's Section Q46–50 (5 × 3M)\n",
          lit "Total = 60 marks"]
      else
        cat [lit "Section 1 — Logical Reasoning Q1–10 (10 × 1M)\n",
          lit "Section 2 — Mathematical Reasoning Q11–35 (25 × 1M)\n",
          lit "Section 3 — Everyday Mathematics Q36–45 (10 × 1M)\n",
          lit "Section 4 — Achiever's Section Q46–50 (5 × 3M)\n",
          lit "Total = 60 marks"]
    cat [lit "Generate a complete ", exam, lit " practice paper.\n",
      extra,
      lit "Class: ", cls, lit "   Topic: ", chap_str,
      lit "   60 marks   1 hour   No negative marking",
      lit "\nDifficulty: ", difficulty, lit "\n",
      math_notation,
      lit "\nSTRUCTURE:\n", struct,
      lit "\n\nSection 1: Pure reasoning only — no direct subject content.",
      lit "\nAchiever's Section: Hard HOT questions, 3 marks each, need 3+ reasoning steps.",
      lit "\n\nFORMAT: Q[n]. [question] [mark]",
      lit "\n(A) opt   (B) opt   (C) opt   (D) opt",
      lit "\n\nANSWER KEY: Q1.(B) Q2.(A) ... (10 per line). For Achiever's questions explain why correct and why best wrong option is wrong.",
      lit "\n\nBEGIN:",
      lit "\nExam: ", exam, lit " Practice   Class: ", cls,
      lit "   Topic: ", chap_str, lit "   Marks: 60   Time: 1 Hour",
      lit "\n\nSection 1 — Logical Reasoning  [Q1–Q10 | 1 Mark each]\n"]
  else
    cat [lit "Generate a complete IJSO/NSEJS Stage 1 practice paper.\n",
      extra,
      lit "Class: ", cls, lit "   Topic: ", chap_str,
      lit "   80 questions   Marking: +3 correct / −1 wrong   Time: 2 hours",
      lit "\nDifficulty: ", difficulty, lit "\n",
      math_notation,
      lit "\nSTRUCTURE:",
      lit "\nPhysics Q1–Q27 (27 questions)",
      lit "\nChemistry Q28–Q54 (27 questions)",
      lit "\nBiology Q55–Q80 (26 questions)",
      lit "\nTotal = 80 questions",
      lit "\n\nEvery question requires conceptual understanding, not just recall.",
      lit "\nWrong options must represent specific named misconceptions.",
      lit "\n\nFORMAT: Q[n]. [question] [+3/−1]",
      lit "\n(A) opt   (B) opt   (C) opt   (D) opt",
      lit "\n\nANSWER KEY: list all 80. Then for each: correct letter + one sentence why correct + why best distractor is wrong.",
      lit "\n\nBEGIN:",
      lit "\nExam: IJSO/NSEJS Stage 1 Practice   Class: ", cls,
      lit "   Marking: +3/−1/0   Time: 2 Hours",
      lit "\n\nPhysics (Q1–Q27)  [+3/−1 each]\n"]

/-- The STEM math-notation block from `build_prompt` (src/app.py:1039-1044). -/
def mathNotationBlock : Str :=
  cat [lit "\nMATH NOTATION — use $...$ for every expression:\n",
    lit "  Powers: $x^\x7b2\x7d$   Fractions: $\\frac\x7ba\x7d\x7bb\x7d$   Roots: $\\sqrt\x7b2\x7d$\n",
    lit "  Greek: $\\theta$ $\\alpha$ $\\pi$   Trig: $\\sin\\theta$ $\\cos 60^\x7b\\circ\x7d$\n",
    lit "  Subscripts: $H_\x7b2\x7dO$ $v_\x7b0\x7d$   Blanks: __________\n"]

/-- The STEM-subject keyword list from `build_prompt` (src/app.py:1035-1038). -/
def stemKeywords : List Str :=
  [lit "math", lit "maths", lit "science", lit "physics", lit "chemistry",
   lit "biology", lit "algebra", lit "geometry", lit "trigonometry",
   lit "statistics"]

/-- The competitive-exam dispatch table from `build_prompt`
(src/app.py:1047), in dict order. -/
def compMap : List (Str × Str) :=
  [(lit "ntse", lit "NTSE"), (lit "nso", lit "NSO"),
   (lit "imo", lit "IMO"), (lit "ijso", lit "IJSO")]

/-- `build_prompt` (src/app.py:1024-1057). -/
def build_prompt (class_name subject chapter board exam_type difficulty
    marks suggestions : Str) : Str :=
  let _ := exam_type
  let m : ℤ := max 10 (if pyIsDigit marks then (strToNat marks : ℤ) else 100)
  let cls := if class_name.isEmpty then lit "10" else class_name
  let extra :=
    if (pyStrip suggestions).isEmpty then ([] : Str)
    else lit "\nTEACHER NOTES: " ++ pyStrip suggestions ++ lit "\n"
  let board_l := pyLower board
  let subj_l := pyLower subject
  let is_stem := stemKeywords.any (fun k => strContains k subj_l)
  let math_notation := if is_stem then mathNotationBlock else []
  match compMap.find? (fun kv => strContains kv.1 board_l) with
  | some kv =>
    simple_competitive kv.2 subject chapter cls m difficulty extra math_notation
  | none =>
    let cls_n : ℕ :=
      match firstDigitRun cls with
      | some run => strToNat run
      | none => 10
    if 9 ≤ cls_n then
      simple_state_board subject chapter board cls m difficulty extra math_notation
    else
      simple_lower_class subject chapter board cls m difficulty extra math_notation

/-- The prompt built for the C5 scenario request: class "10", subject
"Mathematics", chapter "Trigonometry", marks "100", difficulty "Medium",
board "AP State Board". -/
def c5Prompt : Str :=
  build_prompt (lit "10") (lit "Mathematics") (lit "Trigonometry")
    (lit "AP State Board") (lit "") (lit "Medium") (lit "100") (lit "")

/-- C5. For the scenario request the Prompt Builder dispatches to the
state-board template and emits a prompt whose embedded section weights are
Section I = 10, II = 5, III = 5, IV = 20, V = 16, VI = 24, VII = 20,
summing to 100; each weight appears verbatim in its section line. -/
theorem C5_prompt_section_weights :
    sectionSubtotals (compute_structure 100) = [10, 5, 5, 20, 16, 24, 20] ∧
    (sectionSubtotals (compute_structure 100)).sum = 100 ∧
    c5Prompt = simple_state_board (lit "Mathematics") (lit "Trigonometry")
      (lit "AP State Board") (lit "10") 100 (lit "Medium") []
      mathNotationBlock ∧
    strContains (lit "Section I   — 10 MCQ × 1 mark = 10 marks  [Q1–Q10]") c5Prompt ∧
    strContains (lit "Section II  — 5 Fill-in-the-blank × 1 mark = 5 marks  [Q11–Q15]") c5Prompt ∧
    strContains (lit "Section III — 1 Match-the-following (5 pairs) = 5 marks  [Q16]") c5Prompt ∧
    strContains (lit "Section IV  — 10 Very Short Answer (ALL compulsory) × 2 marks = 20 marks  [Q1–Q10]") c5Prompt ∧
    strContains (lit "Section V   — 6 Short Answer given, attempt any 4 × 4 marks = 16 marks  [Q11–Q16]") c5Prompt ∧
    strContains (lit "Section VI  — 6 Long Answer given, attempt any 4 × 6 marks = 24 marks  [Q17–Q22, each with OR option]") c5Prompt ∧
    strContains (lit "Section VII — 3 Application/Problem given, attempt any 2 × 10 marks = 20 marks  [Q23–Q25]") c5Prompt ∧
    strContains (lit "GRAND TOTAL = 100 marks ✓") c5Prompt := by
  refine ⟨by decide, by decide, rfl, ?_, ?_, ?_, ?_, ?_, ?_, ?_, ?_⟩ <;>
    set_option maxRecDepth 8000 in decide

/-!
## LLM Client Adapter (`call_gemini`, src/app.py:864-890)

`model.generate_content` is modelled by an oracle mapping (candidate
index, attempt index) to an outcome: a response carrying text, a falsy /
text-less response, or an exception with a message string.
-/

/-- Outcome of one `generate_content` call. -/
inductive GenOutcome where
  | resp (t : Str)
  | noResp
  | exn (e : Str)

/-- The rate-limit / not-found marker test
(`"429" in err or "404" in err or "quota" in err.lower()`). -/
def rateMarker (e : Str) : Bool :=
  strContains (lit "429") e || strContains (lit "404") e ||
    strContains (lit "quota") (pyLower e)

/-- The inner `for attempt in range(2)` loop of `call_gemini` for one
candidate: returns the success text or the candidate's final
`last_error`, together with the number of attempts made. -/
def tryModel (name : Str) (call : ℕ → GenOutcome) : Except Str Str × ℕ :=
  match call 0 with
  | .resp t =>
    if pyStrip t = [] then (.error (name ++ lit ": empty response"), 1)
    else (.ok (pyStrip t), 1)
  | .noResp => (.error (name ++ lit ": empty response"), 1)
  | .exn e =>
    if rateMarker e then (.error (name ++ lit " (1): " ++ e), 1)
    else
      match call 1 with
      | .resp t =>
        if pyStrip t = [] then (.error (name ++ lit ": empty response"), 2)
        else (.ok (pyStrip t), 2)
      | .noResp => (.error (name ++ lit ": empty response"), 2)
      | .exn e2 => (.error (name ++ lit " (2): " ++ e2), 2)

/-- The outer candidate loop of `call_gemini`, threading `last_error`. -/
def callGeminiGo : List Str → (ℕ → ℕ → GenOutcome) → Str →
    Option Str × Option Str
  | [], _, lastError => (none, some lastError)
  | name :: rest, oracle, _ =>
    match (tryModel name (oracle 0)).1 with
    | .ok t => (some t, none)
    | .error e => callGeminiGo rest (fun i => oracle (i + 1)) e

/-- `call_gemini` (src/app.py:864-890). `configured` stands for
`GEMINI_KEY and GENAI_AVAILABLE`; `models` for `discover_models()`. -/
def call_gemini (configured : Bool) (models : List Str)
    (oracle : ℕ → ℕ → GenOutcome) : Option Str × Option Str :=
  if !configured then (none, some (lit "Gemini not configured."))
  else if models.isEmpty then (none, some (lit "No Gemini models discovered."))
  else callGeminiGo models oracle (lit "")

/-- Attempt counts of the candidates actually tried, in traversal order. -/
def callGeminiTrace : List Str → (ℕ → ℕ → GenOutcome) → List ℕ
  | [], _ => []
  | name :: rest, oracle =>
    (tryModel name (oracle 0)).2 :: (match (tryModel name (oracle 0)).1 with
      | .ok _ => []
      | .error _ => callGeminiTrace rest (fun i => oracle (i + 1)))

lemma tryModel_attempts_le_two (name : Str) (call : ℕ → GenOutcome) :
    (tryModel name call).2 ≤ 2 := by
  unfold tryModel
  cases call 0 with
  | resp t => by_cases h : pyStrip t = [] <;> simp [h]
  | noResp => simp
  | exn e =>
    by_cases h : rateMarker e
    · simp [h]
    · cases call 1 with
      | resp t => by_cases h2 : pyStrip t = [] <;> simp [h, h2]
      | noResp => simp [h]
      | exn e2 => simp [h]

lemma callGeminiTrace_le_two (models : List Str) :
    ∀ oracle, ∀ a ∈ callGeminiTrace models oracle, a ≤ 2 := by
  induction models with
  | nil => intro oracle a ha; simp [callGeminiTrace] at ha
  | cons name rest ih =>
    intro oracle a ha
    unfold callGeminiTrace at ha
    rcases List.mem_cons.mp ha with h | h
    · exact h ▸ tryModel_attempts_le_two name (oracle 0)
    · cases hr : (tryModel name (oracle 0)).1 with
      | ok t => rw [hr] at h; simp at h
      | error e =>
        rw [hr] at h
        exact ih (fun i => oracle (i + 1)) a h

lemma callGeminiGo_cons_error (name : Str) (rest : List Str)
    (oracle : ℕ → ℕ → GenOutcome) (last e0 : Str)
    (he : (tryModel name (oracle 0)).1 = Except.error e0) :
    callGeminiGo (name :: rest) oracle last =
      callGeminiGo rest (fun i => oracle (i + 1)) e0 := by
  rw [show callGeminiGo (name :: rest) oracle last =
      (match (tryModel name (oracle 0)).1 with
        | Except.ok t => (some t, none)
        | Except.error e => callGeminiGo rest (fun i => oracle (i + 1)) e)
    from rfl, he]

lemma callGeminiTrace_cons_error (name : Str) (rest : List Str)
    (oracle : ℕ → ℕ → GenOutcome) (e0 : Str)
    (he : (tryModel name (oracle 0)).1 = Except.error e0) :
    callGeminiTrace (name :: rest) oracle =
      (tryModel name (oracle 0)).2 ::
        callGeminiTrace rest (fun i => oracle (i + 1)) := by
  rw [show callGeminiTrace (name :: rest) oracle =
      (tryModel name (oracle 0)).2 ::
        (match (tryModel name (oracle 0)).1 with
          | Except.ok _ => []
          | Except.error _ => callGeminiTrace rest (fun i => oracle (i + 1)))
    from rfl, he]

lemma callGeminiGo_success (models : List Str) :
    ∀ oracle last k t, k < models.length →
      (tryModel (models.getD k []) (oracle k)).1 = Except.ok t →
      (∀ j < k, ∃ e, (tryModel (models.getD j []) (oracle j)).1 =
        Except.error e) →
      callGeminiGo models oracle last = (some t, none) ∧
        (callGeminiTrace models oracle).length = k + 1 := by
  induction models with
  | nil => intro oracle last k t hk; simp at hk
  | cons name rest ih =>
    intro oracle last k t hk hok hprev
    cases k with
    | zero =>
      simp only [List.getD_cons_zero] at hok
      exact ⟨by simp [callGeminiGo, hok], by simp [callGeminiTrace, hok]⟩
    | succ k =>
      obtain ⟨e0, he0⟩ := hprev 0 (Nat.succ_pos k)
      simp only [List.getD_cons_zero] at he0
      have hk' : k < rest.length := by simpa using hk
      have hok' : (tryModel (rest.getD k []) ((fun i => oracle (i + 1)) k)).1 =
          Except.ok t := by simpa using hok
      have hprev' : ∀ j < k, ∃ e,
          (tryModel (rest.getD j []) ((fun i => oracle (i + 1)) j)).1 =
            Except.error e := by
        intro j hj
        obtain ⟨e, he⟩ := hprev (j + 1) (by omega)
        exact ⟨e, by simpa using he⟩
      obtain ⟨h1, h2⟩ := ih (fun i => oracle (i + 1)) e0 k t hk' hok' hprev'
      exact ⟨by simp [callGeminiGo, he0, h1],
             by simp [callGeminiTrace, he0, h2]⟩

lemma callGeminiGo_exhausted (models : List Str) :
    ∀ oracle last e, models ≠ [] →
      (∀ j < models.length, ∃ ej,
        (tryModel (models.getD j []) (oracle j)).1 = Except.error ej) →
      (tryModel (models.getD (models.length - 1) [])
          (oracle (models.length - 1))).1 = Except.error e →
      callGeminiGo models oracle last = (none, some e) ∧
        (callGeminiTrace models oracle).length = models.length := by
  induction models with
  | nil => intro _ _ _ hne; exact absurd rfl hne
  | cons name rest ih =>
    intro oracle last e _ hall hlast
    obtain ⟨e0, he0⟩ := hall 0 (by simp)
    simp only [List.getD_cons_zero] at he0
    cases hrest : rest with
    | nil =>
      subst hrest
      simp only [List.length_cons, List.length_nil, Nat.zero_add,
        Nat.sub_self, List.getD_cons_zero] at hlast
      rw [he0] at hlast
      have he : e0 = e := by
        injection hlast
      subst he
      exact ⟨by simp [callGeminiGo, he0], by simp [callGeminiTrace, he0]⟩
    | cons r rs =>
      subst hrest
      have hne' : r :: rs ≠ [] := by simp
      have hall' : ∀ j < (r :: rs).length, ∃ ej,
          (tryModel ((r :: rs).getD j []) ((fun i => oracle (i + 1)) j)).1 =
            Except.error ej := by
        intro j hj
        obtain ⟨ej, hej⟩ := hall (j + 1) (by simpa using Nat.succ_lt_succ hj)
        exact ⟨ej, by simpa using hej⟩
      have hlast' : (tryModel ((r :: rs).getD ((r :: rs).length - 1) [])
          ((fun i => oracle (i + 1)) ((r :: rs).length - 1))).1 =
            Except.error e := by
        have hidx : (name :: r :: rs).length - 1 = ((r :: rs).length - 1) + 1 := by
          simp
        rw [hidx] at hlast
        simpa using hlast
      obtain ⟨h1, h2⟩ := ih (fun i => oracle (i + 1)) e0 e hne' hall' hlast'
      refine ⟨?_, ?_⟩
      · rw [callGeminiGo_cons_error name (r :: rs) oracle last e0 he0]
        exact h1
      · rw [callGeminiTrace_cons_error name (r :: rs) oracle e0 he0]
        simp [h2]

/-- C7. The LLM client tries the candidates in order, at most two
generation attempts per candidate; a first-attempt error carrying a
rate-limit / not-found marker abandons the candidate after one attempt,
any other first-attempt error leads to exactly one retry; the first
candidate whose (possibly second-attempt) response is non-empty yields
`(text, None)`; if every candidate fails, the result is
`(None, last_error)`; unconfigured key or empty discovery short-circuit
with their fixed messages. -/
theorem C7_call_gemini_fallback_chain (models : List Str)
    (oracle : ℕ → ℕ → GenOutcome) :
    (∀ a ∈ callGeminiTrace models oracle, a ≤ 2) ∧
    (∀ name call e, call 0 = GenOutcome.exn e →
      (rateMarker e = true → (tryModel name call).2 = 1) ∧
      (rateMarker e = false → (tryModel name call).2 = 2)) ∧
    (∀ k t, k < models.length →
      (tryModel (models.getD k []) (oracle k)).1 = Except.ok t →
      (∀ j < k, ∃ e, (tryModel (models.getD j []) (oracle j)).1 =
        Except.error e) →
      call_gemini true models oracle = (some t, none) ∧
        (callGeminiTrace models oracle).length = k + 1) ∧
    (∀ e, models ≠ [] →
      (∀ j < models.length, ∃ ej,
        (tryModel (models.getD j []) (oracle j)).1 = Except.error ej) →
      (tryModel (models.getD (models.length - 1) [])
          (oracle (models.length - 1))).1 = Except.error e →
      call_gemini true models oracle = (none, some e) ∧
        (callGeminiTrace models oracle).length = models.length) ∧
    call_gemini false models oracle =
      (none, some (lit "Gemini not configured.")) ∧
    call_gemini true [] oracle =
      (none, some (lit "No Gemini models discovered.")) := by
  refine ⟨callGeminiTrace_le_two models oracle, ?_, ?_, ?_, ?_, ?_⟩
  · intro name call e h
    constructor <;> intro hm
    · unfold tryModel
      rw [h]
      simp [hm]
    · unfold tryModel
      rw [h]
      simp only [hm, Bool.false_eq_true, if_false]
      cases call 1 with
      | resp t => by_cases h2 : pyStrip t = [] <;> simp [h2]
      | noResp => simp
      | exn e2 => simp
  · intro k t hk hok hprev
    have hne : models.isEmpty = false := by
      cases models
      · simp at hk
      · simp
    unfold call_gemini
    rw [if_neg (by simp), if_neg (by simp [hne])]
    exact callGeminiGo_success models oracle (lit "") k t hk hok hprev
  · intro e hne hall hlast
    have hne2 : models.isEmpty = false := by
      cases models
      · exact absurd rfl hne
      · simp
    unfold call_gemini
    rw [if_neg (by simp), if_neg (by simp [hne2])]
    exact callGeminiGo_exhausted models oracle (lit "") e hne hall hlast
  · simp [call_gemini]
  · simp [call_gemini]

/-- A concrete oracle: candidate 0 always raises a 429; candidate 1 raises
a transient error on its first attempt and then answers. -/
def c7Oracle : ℕ → ℕ → GenOutcome
  | 0, _ => .exn (lit "429 rate limited")
  | 1, 0 => .exn (lit "transient network error")
  | 1, _ => .resp (lit "PAPER ")
  | _, _ => .noResp

/-- C7 witness: two candidates; the first hits a 429 on its first attempt
and is abandoned after one attempt, the second errors once without a
marker, is retried, and succeeds on the second attempt. -/
theorem C7_call_gemini_fallback_chain_witness :
    call_gemini true [lit "gemini-2.0-flash", lit "gemini-1.5-flash"]
      c7Oracle = (some (lit "PAPER"), none) ∧
    callGeminiTrace [lit "gemini-2.0-flash", lit "gemini-1.5-flash"]
      c7Oracle = [1, 2] := by
  have h := (C7_call_gemini_fallback_chain
    [lit "gemini-2.0-flash", lit "gemini-1.5-flash"] c7Oracle).2.2.1
    1 (lit "PAPER") (by decide) (by rfl)
    (fun j hj => by
      interval_cases j
      exact ⟨lit "gemini-2.0-flash (1): 429 rate limited", by rfl⟩)
  refine ⟨h.1, ?_⟩
  rfl

/-!
## `/generate` route (src/app.py:3015-3065) and `build_local_paper`
(src/app.py:896-968)
-/

/-- `build_local_paper` (src/app.py:896-968), the offline fallback paper. -/
def build_local_paper (cls subject chapter : Str) (marks : Str)
    (difficulty : Str) : Str :=
  let _ := chapter
  let _ := difficulty
  let subj := if subject.isEmpty then lit "Science" else subject
  cat [subj, lit " — Model Question Paper\nSubject: ", subj,
    lit "   Class: ", cls,
    lit "\nTotal Marks: ", marks,
    lit "   Time Allowed: 3 Hours 15 Minutes\n\nGENERAL INSTRUCTIONS\n",
    lit "1. Answer all the questions under Part-A on the question paper itself and attach it to the answer booklet at the end.\n",
    lit "2. Read the instructions carefully and answer only the required number of questions in each section.\n",
    lit "3. Figures to the right indicate marks allotted.\n",
    lit "4. Draw neat, labelled diagrams wherever necessary.\n",
    lit "\nPART A — OBJECTIVE (20 Marks)\n",
    lit "(Answer in the question paper itself. Submit after 30 minutes.)\n",
    lit "\nSection-I — Multiple Choice Questions [1 Mark each]\n",
    lit "1. Which of the following best describes Newton's First Law of Motion? [1 Mark]\n",
    lit "   (A) Force equals mass times acceleration\n",
    lit "   (B) An object at rest stays at rest unless acted upon by an external force\n",
    lit "   (C) Every action has an equal and opposite reaction\n",
    lit "   (D) Acceleration is inversely proportional to mass  (   )\n",
    lit "\n2. The SI unit of electric charge is __________. [1 Mark]\n",
    lit "   (A) Ampere   (B) Coulomb   (C) Volt   (D) Ohm  (   )\n",
    lit "\nSection-II — Fill in the Blanks [1 Mark each]\n",
    lit "11. The chemical formula of water is __________.\n",
    lit "12. The process by which plants make food using sunlight is called __________.\n",
    lit "\nSection-III — Match the Following [1 Mark each]\n",
    lit "| Group A | Group B |\n",
    lit "|---|---|\n",
    lit "| Newton | Laws of Motion |\n",
    lit "| Ohm | Resistance |\n",
    lit "| Faraday | Electromagnetic Induction |\n",
    lit "| Darwin | Theory of Evolution |\n",
    lit "| Mendel | Laws of Heredity |\n",
    lit "\nPART B — WRITTEN (80 Marks)\n",
    lit "\nSection-IV — Very Short Answer Questions [2 Marks each]\n",
    lit "(Answer ALL questions in not more than 5 lines each.)\n",
    lit "\n1. State Newton's Second Law of Motion. [2 Marks]\n",
    lit "2. What is an electric circuit? Name its two essential components. [2 Marks]\n",
    lit "\nSection-V — Short Answer Questions [4 Marks each]\n",
    lit "(Answer any FOUR of the following six questions.)\n",
    lit "\n11. Explain the process of photosynthesis with a labelled diagram. [4 Marks]\n",
    lit "12. State and explain Ohm's Law. Give one example. [4 Marks]\n",
    lit "\nSection-VI — Long Answer / Essay Questions [6 Marks each]\n",
    lit "(Answer any FOUR of the following six questions.)\n",
    lit "\n21. (i) Derive the equations of motion $v = u + at$ and $s = ut + \\frac\x7b1\x7d\x7b2\x7dat^2$. [6 Marks]\n",
    lit "OR\n",
    lit "    (ii) A car starts from rest and accelerates uniformly at $2\\ m/s^2$. Find the velocity after 5 seconds and the distance covered. [6 Marks]\n",
    lit "\nSection-VII — Application / Problem Solving [10 Marks each]\n",
    lit "(Answer any TWO of the following three questions.)\n",
    lit "\n31. A wire of resistance $R = 6\\ \\Omega$ is connected to a $12\\ V$ battery.\n",
    lit "    (a) Find the current flowing through the circuit. [3 Marks]\n",
    lit "    (b) If three such resistors are connected in parallel, find the equivalent resistance and total current. [4 Marks]\n",
    lit "    (c) State two differences between series and parallel circuits. [3 Marks]\n",
    lit "\nANSWER KEY\n",
    lit "\nSection-I:\n1. (B)   2. (B)\n",
    lit "\nSection-II:\n11. H₂O   12. Photosynthesis\n"]

/-- The JSON bodies the `/generate` handler can return. -/
inductive RouteResult where
  | ok (paper key : Str) (api_error : Option Str) (used_fallback : Bool)
      (board subject chapter : Str)
  | aiFailed (api_error : Option Str)

/-- The request fields `/generate` reads from its JSON body; absent keys
are `none`, and `scope`/`all_chapters` are reduced to their truthiness. -/
structure GenRequest where
  classField : Option Str := none
  subject : Option Str := none
  chapter : Option Str := none
  marks : Option Str := none
  difficulty : Option Str := none
  stateField : Option Str := none
  competitiveExam : Option Str := none
  examType : Option Str := none
  suggestions : Option Str := none
  board : Option Str := none
  scopeAll : Bool := false
  allChapters : Bool := false
  useFallback : Str := lit "false"
  promptOverride : Option Str := none

/-- `data.get(k) or default`, then `.strip()` — Python's falsy-or. -/
def getOr (v : Option Str) (dflt : Str) : Str :=
  pyStrip (match v with
    | some s => if s.isEmpty then dflt else s
    | none => dflt)

/-- The coercion `build_prompt` applies to the marks field
(`max(10, int(marks) if str(marks).isdigit() else 100)`). -/
def promptMarks (marks : Str) : ℤ :=
  max 10 (if pyIsDigit marks then (strToNat marks : ℤ) else 100)

/-- The tail of the `/generate` handler after the LLM call: fall back to
the offline template or surface a 502, else split and answer 200. -/
def routeFinish (llm : Option Str × Option Str) (use_fallback geminiKey : Bool)
    (class_name subject chapter marks difficulty board : Str) :
    ℕ × RouteResult :=
  match llm.1 with
  | some text =>
    let pk := split_key text
    (200, .ok pk.1 pk.2 llm.2 use_fallback board subject chapter)
  | none =>
    if use_fallback ∨ !geminiKey then
      let text := build_local_paper class_name subject chapter marks difficulty
      let pk := split_key text
      (200, .ok pk.1 pk.2 llm.2 true board subject chapter)
    else
      (502, .aiFailed llm.2)

/-- The `/generate` handler (src/app.py:3015-3065), with the LLM call
abstracted by `models`/`oracle` and the configuration flags explicit.
Returns the HTTP status and the JSON body. -/
def generate (req : GenRequest) (geminiKey genaiAvailable : Bool)
    (models : List Str) (oracle : Str → ℕ → ℕ → GenOutcome) :
    ℕ × RouteResult :=
  let class_name := getOr req.classField []
  let subject0 := getOr req.subject []
  let chapter := getOr req.chapter []
  let marks := getOr req.marks (lit "100")
  let difficulty := getOr req.difficulty (lit "Medium")
  let state_ := getOr req.stateField []
  let competitive_exam := getOr req.competitiveExam []
  let exam_type := getOr req.examType []
  let suggestions := getOr req.suggestions []
  let board :=
    if exam_type = lit "state-board" ∧ ¬state_.isEmpty then
      state_ ++ lit " State Board"
    else if exam_type = lit "competitive" ∧ ¬competitive_exam.isEmpty then
      competitive_exam
    else getOr req.board (lit "AP State Board")
  let subject :=
    if subject0.isEmpty ∧ (req.scopeAll ∨ req.allChapters) then
      lit "Mixed Subjects"
    else subject0
  let use_fallback :=
    pyLower req.useFallback = lit "true" ∨ pyLower req.useFallback = lit "1" ∨
      pyLower req.useFallback = lit "yes"
  let prompt :=
    match req.promptOverride with
    | some p =>
      if p.isEmpty then
        build_prompt class_name subject chapter board exam_type difficulty
          marks suggestions
      else p
    | none =>
      build_prompt class_name subject chapter board exam_type difficulty
        marks suggestions
  let llm :=
    if use_fallback then (none, none)
    else call_gemini (geminiKey && genaiAvailable) models (oracle prompt)
  routeFinish llm use_fallback geminiKey class_name subject chapter marks
    difficulty board

lemma routeFinish_status (llm : Option Str × Option Str)
    (use_fallback geminiKey : Bool)
    (class_name subject chapter marks difficulty board : Str) :
    (routeFinish llm use_fallback geminiKey class_name subject chapter marks
      difficulty board).1 = 200 ∨
    (routeFinish llm use_fallback geminiKey class_name subject chapter marks
      difficulty board).1 = 502 := by
  unfold routeFinish
  cases llm.1 with
  | some text => simp
  | none =>
    by_cases h : use_fallback = true ∨ geminiKey = false
    · left
      simp [h]
    · right
      simp [h]

/-- C8 (amended). A non-numeric marks string is not rejected: the handler
has no 400 path at all (every exit is 200 or 502), and `build_prompt`
silently coerces any non-digit marks string to the default 100, so the
prompt built for non-numeric marks is the prompt for marks "100". -/
theorem C8_nonnumeric_marks_amended :
    (∀ marksStr : Str, pyIsDigit marksStr = false →
      ∀ cn su ch bo et di sg,
        build_prompt cn su ch bo et di marksStr sg =
          build_prompt cn su ch bo et di (lit "100") sg) ∧
    (∀ req gk ga models oracle,
      (generate req gk ga models oracle).1 = 200 ∨
        (generate req gk ga models oracle).1 = 502) := by
  constructor
  · intro marksStr h cn su ch bo et di sg
    unfold build_prompt
    rw [h]
    simp [show pyIsDigit (lit "100") = true from by decide,
          show (strToNat (lit "100") : ℤ) = 100 from by decide]
  · intro req gk ga models oracle
    unfold generate
    apply routeFinish_status

/-- The request of the C8 scenario: marks is the non-numeric string "abc". -/
def c8Req : GenRequest :=
  { subject := some (lit "Physics"), marks := some (lit "abc") }

/-- An LLM stub that always answers. -/
def c8Oracle : Str → ℕ → ℕ → GenOutcome := fun _ _ _ =>
  .resp (lit "PAPER BODY\nANSWER KEY\n1. (B)")

/-- C8 counterexample: for marks "abc" the service answers 200 with a
generated paper — not a 400 naming the marks field. -/
theorem C8_nonnumeric_marks_counterexample :
    (generate c8Req true true [lit "gemini-2.0-flash"] c8Oracle).1 = 200 ∧
    ¬ (generate c8Req true true [lit "gemini-2.0-flash"] c8Oracle).1 = 400 ∧
    generate c8Req true true [lit "gemini-2.0-flash"] c8Oracle =
      (200, .ok (lit "PAPER BODY") (lit "1. (B)") none false
        (lit "AP State Board") (lit "Physics") []) := by
  refine ⟨rfl, by decide, rfl⟩

/-- C8 witness: the amended theorem applied at the "abc" marks string and
at the concrete request. -/
theorem C8_nonnumeric_marks_amended_witness :
    pyIsDigit (lit "abc") = false ∧
    build_prompt (lit "10") (lit "Physics") [] (lit "AP State Board") []
        (lit "Medium") (lit "abc") [] =
      build_prompt (lit "10") (lit "Physics") [] (lit "AP State Board") []
        (lit "Medium") (lit "100") [] ∧
    ((generate c8Req true true [lit "gemini-2.0-flash"] c8Oracle).1 = 200 ∨
      (generate c8Req true true [lit "gemini-2.0-flash"] c8Oracle).1 = 502) := by
  refine ⟨by decide, ?_, ?_⟩
  · exact C8_nonnumeric_marks_amended.1 (lit "abc") (by decide)
      (lit "10") (lit "Physics") [] (lit "AP State Board") []
      (lit "Medium") []
  · exact C8_nonnumeric_marks_amended.2 c8Req true true
      [lit "gemini-2.0-flash"] c8Oracle

/-!
## LaTeX-subset converter (`_extract_braced` src/app.py:131-141,
`_latex_to_rl` src/app.py:144-207, `_process` src/app.py:210-234)

The scan loop of `_latex_to_rl` is embedded as a step function
(`scanStep`: one loop iteration, returning the emitted piece and the next
index) iterated by `latexScan`. The recursion of `_latex_to_rl` into brace
contents is fuelled; `expr.length + 1` fuel always suffices because every
recursive call receives a strictly shorter string (the C10 theorems).
-/

/-- The inner brace-matching `while` loop of `_extract_braced`, fuelled
by the number of remaining positions (`s.length - i` always suffices
since the index advances by one per iteration). -/
def ebLoopGo (s : Str) (pos : ℕ) : ℕ → ℤ → ℕ → Str × ℕ
  | 0, _, _ => (s.drop (pos + 1), s.length)
  | f + 1, depth, i =>
    if i < s.length then
      let c := s.getD i ' '
      let depth' := if c = '{' then depth + 1
                    else if c = '}' then depth - 1 else depth
      if depth' = 0 then ((s.drop (pos + 1)).take (i - (pos + 1)), i + 1)
      else ebLoopGo s pos f depth' (i + 1)
    else (s.drop (pos + 1), s.length)

/-- The inner brace-matching `while` loop of `_extract_braced`. -/
def ebLoop (s : Str) (pos : ℕ) (depth : ℤ) (i : ℕ) : Str × ℕ :=
  ebLoopGo s pos (s.length - i) depth i

/-- `_extract_braced(s, pos)` (src/app.py:131-141). -/
def extract_braced (s : Str) (pos : ℕ) : Str × ℕ :=
  if pos ≥ s.length ∨ s.getD pos ' ' ≠ '{' then
    if pos < s.length then ([s.getD pos ' '], pos + 1) else ([], pos)
  else ebLoop s pos 0 pos

/-- `s.find(c, start)`: index of the first occurrence at or after `start`. -/
def pyFindFrom (s : Str) (c : Char) (start : ℕ) : Option ℕ :=
  match (s.drop start).findIdx? (· = c) with
  | some k => some (start + k)
  | none => none

def greekPairs : List (Str × Str) :=
  [(lit "\\varepsilon", lit "ε"),
   (lit "\\epsilon", lit "ε"),
   (lit "\\upsilon", lit "υ"),
   (lit "\\Upsilon", lit "Υ"),
   (lit "\\lambda", lit "λ"),
   (lit "\\varphi", lit "φ"),
   (lit "\\Lambda", lit "Λ"),
   (lit "\\alpha", lit "α"),
   (lit "\\gamma", lit "γ"),
   (lit "\\delta", lit "δ"),
   (lit "\\theta", lit "θ"),
   (lit "\\kappa", lit "κ"),
   (lit "\\sigma", lit "σ"),
   (lit "\\omega", lit "ω"),
   (lit "\\Gamma", lit "Γ"),
   (lit "\\Delta", lit "Δ"),
   (lit "\\Theta", lit "Θ"),
   (lit "\\Sigma", lit "Σ"),
   (lit "\\Omega", lit "Ω"),
   (lit "\\beta", lit "β"),
   (lit "\\zeta", lit "ζ"),
   (lit "\\iota", lit "ι"),
   (lit "\\eta", lit "η"),
   (lit "\\rho", lit "ρ"),
   (lit "\\tau", lit "τ"),
   (lit "\\phi", lit "φ"),
   (lit "\\chi", lit "χ"),
   (lit "\\psi", lit "ψ"),
   (lit "\\Phi", lit "Φ"),
   (lit "\\Psi", lit "Ψ"),
   (lit "\\mu", lit "μ"),
   (lit "\\nu", lit "ν"),
   (lit "\\xi", lit "ξ"),
   (lit "\\pi", lit "π"),
   (lit "\\Xi", lit "Ξ"),
   (lit "\\Pi", lit "Π")]

def symPairs : List (Str × Str) :=
  [(lit "\\leftrightarrow", lit "↔"),
   (lit "\\rightarrow", lit "→"),
   (lit "\\Rightarrow", lit "⇒"),
   (lit "\\leftarrow", lit "←"),
   (lit "\\Leftarrow", lit "⇐"),
   (lit "\\downarrow", lit "↓"),
   (lit "\\therefore", lit "∴"),
   (lit "\\parallel", lit "∥"),
   (lit "\\triangle", lit "△"),
   (lit "\\partial", lit "∂"),
   (lit "\\uparrow", lit "↑"),
   (lit "\\because", lit "∵"),
   (lit "\\subset", lit "⊂"),
   (lit "\\supset", lit "⊃"),
   (lit "\\approx", lit "≈"),
   (lit "\\propto", lit "∝"),
   (lit "\\forall", lit "∀"),
   (lit "\\exists", lit "∃"),
   (lit "\\degree", lit "°"),
   (lit "\\times", lit "×"),
   (lit "\\ldots", lit "…"),
   (lit "\\cdots", lit "⋯"),
   (lit "\\infty", lit "∞"),
   (lit "\\nabla", lit "∇"),
   (lit "\\notin", lit "∉"),
   (lit "\\equiv", lit "≡"),
   (lit "\\angle", lit "∠"),
   (lit "\\cdot", lit "·"),
   (lit "\\perp", lit "⊥"),
   (lit "\\circ", lit "°"),
   (lit "\\oint", lit "∮"),
   (lit "\\gets", lit "←"),
   (lit "\\div", lit "÷"),
   (lit "\\cup", lit "∪"),
   (lit "\\cap", lit "∩"),
   (lit "\\leq", lit "≤"),
   (lit "\\geq", lit "≥"),
   (lit "\\neq", lit "≠"),
   (lit "\\sim", lit "~"),
   (lit "\\neg", lit "¬"),
   (lit "\\int", lit "∫"),
   (lit "\\pm", lit "±"),
   (lit "\\mp", lit "∓"),
   (lit "\\in", lit "∈"),
   (lit "\\to", lit "→"),
   (lit "\\%", lit "%"),
   (lit "\\$", lit "$")]

/-- One alternative of `\(?:text|mathrm|mathbf|mathit|boldsymbol)\{([^}]*)\}`
tried at a position just after a backslash; on success returns the captured
group and the number of characters consumed after the backslash. -/
def tryTextCmd (cmd : Str) (t : Str) : Option (Str × ℕ) :=
  if cmd.isPrefixOf t && (t.drop cmd.length).head? = some '{' then
    let r2 := (t.drop cmd.length).tail
    let content := r2.takeWhile (· ≠ '}')
    if content.length < r2.length then
      some (content, cmd.length + 1 + content.length + 1)
    else none
  else none

def matchTextCmd (t : Str) : Option (Str × ℕ) :=
  (tryTextCmd (lit "text") t).orElse fun _ =>
  (tryTextCmd (lit "mathrm") t).orElse fun _ =>
  (tryTextCmd (lit "mathbf") t).orElse fun _ =>
  (tryTextCmd (lit "mathit") t).orElse fun _ =>
  tryTextCmd (lit "boldsymbol") t

lemma length_dropWhile_le (p : Char → Bool) (l : Str) :
    (l.dropWhile p).length ≤ l.length := by
  induction l with
  | nil => simp
  | cons c t ih => by_cases h : p c <;> simp [List.dropWhile, h] <;> omega

/-- The scan of `re.sub(r'\\(?:text|mathrm|mathbf|mathit|boldsymbol)\{([^}]*)\}', r'\1', s)`,
fuelled by the suffix length (every step consumes at least one character). -/
def subTextCmdsGo : ℕ → Str → Str
  | 0, s => s
  | f + 1, s =>
    match s with
    | [] => []
    | c :: t =>
      if c = '\\' then
        match matchTextCmd t with
        | some (content, n) => content ++ subTextCmdsGo f (t.drop n)
        | none => c :: subTextCmdsGo f t
      else c :: subTextCmdsGo f t

def subTextCmds (s : Str) : Str := subTextCmdsGo s.length s

/-- The lookahead class of `\\(?:left|right)(?=[|(\[\]{}.])`. -/
def lrLookahead (c : Char) : Bool :=
  c = '|' || c = '(' || c = '[' || c = ']' || c = '{' || c = '}' || c = '.'

/-- Does the next character belong to the lookahead class? -/
def headLookahead (xs : Str) : Bool :=
  match xs.head? with
  | some c => lrLookahead c
  | none => false

/-- The scan of `re.sub(r'\\(?:left|right)(?=[|(\[\]{}.])', '', s)`,
fuelled by the suffix length. -/
def subLeftRightGo : ℕ → Str → Str
  | 0, s => s
  | f + 1, s =>
    match s with
    | [] => []
    | c :: t =>
      if c = '\\' then
        if (lit "left").isPrefixOf t && headLookahead (t.drop 4) then
          subLeftRightGo f (t.drop 4)
        else if (lit "right").isPrefixOf t && headLookahead (t.drop 5) then
          subLeftRightGo f (t.drop 5)
        else c :: subLeftRightGo f t
      else c :: subLeftRightGo f t

def subLeftRight (s : Str) : Str := subLeftRightGo s.length s

/-- The preprocessing of `_latex_to_rl` before its scan loop
(src/app.py:145-151): strip, strip `$`, strip, the two `re.sub`s, then
the Greek and symbol tables (keys longest first, insertion order ties). -/
def latexPre (expr : Str) : Str :=
  let s1 := pyStrip expr
  let s2 := pyRstripChars ['$'] (pyLstripChars ['$'] s1)
  let s3 := pyStrip s2
  let s4 := subTextCmds s3
  let s5 := subLeftRight s4
  let s6 := greekPairs.foldl (fun acc p => pyReplace p.1 p.2 acc) s5
  symPairs.foldl (fun acc p => pyReplace p.1 p.2 acc) s6

/-- `.replace('&','&amp;').replace('<','&lt;').replace('>','&gt;')`
(src/app.py:173,179). -/
def escape3 (x : Str) : Str :=
  pyReplace (lit ">") (lit "&gt;")
    (pyReplace (lit "<") (lit "&lt;") (pyReplace (lit "&") (lit "&amp;") x))

/-- Python `str.isalpha` restricted to ASCII letters (the `\command`
names the program handles are ASCII). -/
def isAsciiAlpha (c : Char) : Bool :=
  ('a' ≤ c ∧ c ≤ 'z') ∨ ('A' ≤ c ∧ c ≤ 'Z')

/-- The scan of `j` in the unknown-command branch (src/app.py:192-198):
advance over letters and `*`, and if nothing was consumed and a character
remains, consume one. -/
def unknownCmdEnd (s : Str) (i : ℕ) : ℕ :=
  let j := i + 1 + ((s.drop (i + 1)).takeWhile
    (fun c => isAsciiAlpha c || c = '*')).length
  if j = i + 1 ∧ j < s.length then j + 1 else j

/-- The decorated commands of src/app.py:183, in source order. -/
def decoCmds : List Str :=
  [lit "\\overline", lit "\\widehat", lit "\\widetilde", lit "\\vec",
   lit "\\hat", lit "\\bar", lit "\\tilde"]

/-- One iteration of the scan loop of `_latex_to_rl` (src/app.py:154-206)
at index `i < s.length`: the emitted piece and the next index. `rlFuel`
fuels the recursive `_latex_to_rl` calls. -/
def scanStep (latexRl : Str → Str) (s : Str) (i : ℕ) : Str × ℕ :=
  if (s.drop i).take 5 = lit "\\frac" then
    let i1 := i + 5
    let num := extract_braced s i1
    let den := extract_braced s num.2
    (lit "(" ++ latexRl num.1 ++ lit "/" ++ latexRl den.1 ++ lit ")", den.2)
  else if (s.drop i).take 5 = lit "\\sqrt" then
    let i1 := i + 5
    let rooted :=
      if i1 < s.length ∧ s.getD i1 ' ' = '[' then
        let j := match pyFindFrom s ']' i1 with
          | some j => j
          | none => i1
        ((s.drop (i1 + 1)).take (j - (i1 + 1)), j + 1)
      else ([], i1)
    let inner := extract_braced s rooted.2
    (rooted.1 ++ lit "√(" ++ latexRl inner.1 ++ lit ")", inner.2)
  else if s.getD i ' ' = '^' then
    let raw := extract_braced s (i + 1)
    (lit "<super>" ++ escape3 (latexRl raw.1) ++ lit "</super>", raw.2)
  else if s.getD i ' ' = '_' then
    let raw := extract_braced s (i + 1)
    (lit "<sub>" ++ escape3 (latexRl raw.1) ++ lit "</sub>", raw.2)
  else
    match decoCmds.find? (fun cmd => cmd.isPrefixOf (s.drop i)) with
    | some cmd =>
      let inner := extract_braced s (i + cmd.length)
      (latexRl inner.1, inner.2)
    | none =>
      if s.getD i ' ' = '\\' then
        (lit " ", unknownCmdEnd s i)
      else
        let c := s.getD i ' '
        (if c = '&' then lit "&amp;"
         else if c = '<' then lit "&lt;"
         else if c = '>' then lit "&gt;" else [c], i + 1)

/-- The scan loop (`while i < len(s)`), iterated with step fuel `sf`
(`s.length` steps always suffice, since every step advances the index). -/
def latexScan (latexRl : Str → Str) : ℕ → Str → ℕ → Str
  | 0, _, _ => []
  | sf + 1, s, i =>
    if i < s.length then
      let st := scanStep latexRl s i
      st.1 ++ latexScan latexRl sf s st.2
    else []

/-- The scan of `re.sub(r'  +', ' ', result)` (collapse runs of blanks
to one space), fuelled by the suffix length. -/
def collapseSpacesGo : ℕ → Str → Str
  | 0, s => s
  | f + 1, s =>
    match s with
    | [] => []
    | c :: t =>
      if c = ' ' then c :: collapseSpacesGo f (t.dropWhile (· = ' '))
      else c :: collapseSpacesGo f t

def collapseSpaces (s : Str) : Str := collapseSpacesGo s.length s

/-- `_latex_to_rl` with explicit recursion fuel. -/
def latexRlF : ℕ → Str → Str
  | 0, _ => []
  | fuel + 1, expr =>
    let s := latexPre expr
    pyStrip (collapseSpaces (latexScan (latexRlF fuel) s.length s 0))

/-- `_latex_to_rl(expr)` (src/app.py:144-207); `expr.length + 1` fuel is
enough because every recursive call gets a strictly shorter string. -/
def latex_to_rl (expr : Str) : Str := latexRlF (expr.length + 1) expr

/-!
## Termination structure of the converter (claim C10)
-/

lemma ebLoopGo_snd_ge (s : Str) (pos : ℕ) :
    ∀ k depth i, pos < s.length → pos ≤ i →
      pos + 1 ≤ (ebLoopGo s pos k depth i).2 := by
  intro k
  induction k with
  | zero =>
    intro depth i hpos _
    simpa [ebLoopGo] using hpos
  | succ k ih =>
    intro depth i hpos hle
    unfold ebLoopGo
    by_cases h : i < s.length
    · rw [if_pos h]
      by_cases h0 : (if s.getD i ' ' = '{' then depth + 1
          else if s.getD i ' ' = '}' then depth - 1 else depth) = 0
      · simp only [h0, if_pos]
        omega
      · simp only [if_neg h0]
        exact ih _ (i + 1) hpos (by omega)
    · rw [if_neg h]
      simpa using hpos

lemma ebLoop_snd_ge (s : Str) (pos : ℕ) (depth : ℤ) (i : ℕ)
    (hpos : pos < s.length) (hle : pos ≤ i) :
    pos + 1 ≤ (ebLoop s pos depth i).2 :=
  ebLoopGo_snd_ge s pos (s.length - i) depth i hpos hle

lemma ebLoopGo_fst_le (s : Str) (pos : ℕ) :
    ∀ k depth i, (ebLoopGo s pos k depth i).1.length ≤ s.length - (pos + 1) := by
  intro k
  induction k with
  | zero =>
    intro depth i
    simp [ebLoopGo, List.length_drop]
  | succ k ih =>
    intro depth i
    unfold ebLoopGo
    by_cases h : i < s.length
    · rw [if_pos h]
      by_cases h0 : (if s.getD i ' ' = '{' then depth + 1
          else if s.getD i ' ' = '}' then depth - 1 else depth) = 0
      · simp only [h0, if_pos]
        calc ((s.drop (pos + 1)).take (i - (pos + 1))).length
            ≤ (s.drop (pos + 1)).length := by
              simpa using List.length_take_le _ _
          _ = s.length - (pos + 1) := by simp [List.length_drop]
      · simp only [if_neg h0]
        exact ih _ (i + 1)
    · rw [if_neg h]
      simp [List.length_drop]

/-- The advance guarantee of `_extract_braced`: whenever `pos` is in
range, the returned position is at least `pos + 1`; it never moves
backwards. -/
lemma extract_braced_advance (s : Str) (pos : ℕ) :
    pos ≤ (extract_braced s pos).2 ∧
      (pos < s.length → pos + 1 ≤ (extract_braced s pos).2) := by
  unfold extract_braced
  by_cases hg : pos ≥ s.length ∨ s.getD pos ' ' ≠ '{'
  · rw [if_pos hg]
    by_cases hp : pos < s.length
    · refine ⟨?_, ?_⟩ <;> simp [hp]
    · refine ⟨?_, ?_⟩ <;> simp [hp]
  · rw [if_neg hg]
    push_neg at hg
    constructor
    · have := ebLoop_snd_ge s pos 0 pos (by omega) le_rfl
      omega
    · intro _
      exact ebLoop_snd_ge s pos 0 pos (by omega) le_rfl

/-- The extracted content is a strictly shorter string whenever the
extraction starts past the head of a nonempty string — exactly the
situations in which `_latex_to_rl` recurses. -/
lemma extract_braced_shorter (s : Str) (pos : ℕ) (h1 : 1 ≤ pos)
    (hne : s ≠ []) : (extract_braced s pos).1.length < s.length := by
  have hlen : 1 ≤ s.length := by
    cases s
    · exact absurd rfl hne
    · simp
  unfold extract_braced
  by_cases hg : pos ≥ s.length ∨ s.getD pos ' ' ≠ '{'
  · rw [if_pos hg]
    by_cases hp : pos < s.length
    · simp [hp]
      omega
    · simp [hp]
      omega
  · rw [if_neg hg]
    push_neg at hg
    have := ebLoopGo_fst_le s pos (s.length - pos) 0 pos
    unfold ebLoop
    omega

lemma pyFindFrom_ge (s : Str) (c : Char) (start j : ℕ)
    (h : pyFindFrom s c start = some j) : start ≤ j := by
  unfold pyFindFrom at h
  cases hf : (s.drop start).findIdx? (· = c) with
  | none => rw [hf] at h; cases h
  | some k =>
    rw [hf] at h
    have : start + k = j := by simpa using h
    omega

lemma unknownCmdEnd_advance (s : Str) (i : ℕ) : i < unknownCmdEnd s i := by
  unfold unknownCmdEnd
  by_cases h : i + 1 + ((s.drop (i + 1)).takeWhile
      (fun c => isAsciiAlpha c || c = '*')).length = i + 1 ∧
      i + 1 + ((s.drop (i + 1)).takeWhile
        (fun c => isAsciiAlpha c || c = '*')).length < s.length
  · rw [if_pos h]; omega
  · rw [if_neg h]; omega

lemma decoCmds_len (cmd : Str) (h : cmd ∈ decoCmds) : 1 ≤ cmd.length := by
  fin_cases h <;> decide

/-- Each iteration of the scan loop strictly advances the index. -/
lemma scanStep_advance (latexRl : Str → Str) (s : Str) (i : ℕ)
    (h : i < s.length) : i < (scanStep latexRl s i).2 := by
  unfold scanStep
  by_cases h1 : (s.drop i).take 5 = lit "\\frac"
  · rw [if_pos h1]
    have a1 := (extract_braced_advance s (i + 5)).1
    have a2 := (extract_braced_advance s (extract_braced s (i + 5)).2).1
    dsimp only
    omega
  · rw [if_neg h1]
    by_cases h2 : (s.drop i).take 5 = lit "\\sqrt"
    · rw [if_pos h2]
      dsimp only
      by_cases hc : i + 5 < s.length ∧ s.getD (i + 5) ' ' = '['
      · rw [if_pos hc]
        dsimp only
        have hj : i + 5 ≤ (match pyFindFrom s ']' (i + 5) with
            | some j => j | none => i + 5) := by
          cases hf : pyFindFrom s ']' (i + 5) with
          | some j => simpa using pyFindFrom_ge s ']' (i + 5) j hf
          | none => simp
        have a1 := (extract_braced_advance s
          ((match pyFindFrom s ']' (i + 5) with
            | some j => j | none => i + 5) + 1)).1
        omega
      · rw [if_neg hc]
        dsimp only
        have a1 := (extract_braced_advance s (i + 5)).1
        omega
    · rw [if_neg h2]
      by_cases h3 : s.getD i ' ' = '^'
      · rw [if_pos h3]
        have a1 := (extract_braced_advance s (i + 1)).1
        dsimp only
        omega
      · rw [if_neg h3]
        by_cases h4 : s.getD i ' ' = '_'
        · rw [if_pos h4]
          have a1 := (extract_braced_advance s (i + 1)).1
          dsimp only
          omega
        · rw [if_neg h4]
          cases hfind : decoCmds.find? (fun cmd => cmd.isPrefixOf (s.drop i)) with
          | some cmd =>
            have hmem : cmd ∈ decoCmds := List.mem_of_find?_eq_some hfind
            have hlen := decoCmds_len cmd hmem
            have a1 := (extract_braced_advance s (i + cmd.length)).1
            dsimp only
            omega
          | none =>
            dsimp only
            by_cases h5 : s.getD i ' ' = '\\'
            · rw [if_pos h5]
              exact unknownCmdEnd_advance s i
            · rw [if_neg h5]
              dsimp only
              omega

/-- The scan loop stabilises once its step fuel covers the remaining
length: the `while` loop needs at most `s.length - i` iterations. -/
lemma latexScan_fuel_stable (latexRl : Str → Str) (s : Str) :
    ∀ sf1 sf2 i, s.length - i ≤ sf1 → s.length - i ≤ sf2 →
      latexScan latexRl sf1 s i = latexScan latexRl sf2 s i := by
  intro sf1
  induction sf1 with
  | zero =>
    intro sf2 i h1 h2
    have hi : s.length ≤ i := by omega
    cases sf2 with
    | zero => rfl
    | succ sf2 =>
      unfold latexScan
      rw [if_neg (by omega)]
  | succ sf1 ih =>
    intro sf2 i h1 h2
    by_cases hi : i < s.length
    · have hadv := scanStep_advance latexRl s i hi
      cases sf2 with
      | zero => omega
      | succ sf2 =>
        unfold latexScan
        rw [if_pos hi, if_pos hi]
        dsimp only
        have := ih sf2 ((scanStep latexRl s i).2) (by omega) (by omega)
        rw [this]
    · cases sf2 with
      | zero =>
        unfold latexScan
        rw [if_neg hi]
      | succ sf2 =>
        unfold latexScan
        rw [if_neg hi, if_neg hi]

lemma scanStep_congr (rl1 rl2 : Str → Str) (s : Str) (i : ℕ)
    (hi : i < s.length)
    (hrl : ∀ sub : Str, sub.length < s.length → rl1 sub = rl2 sub) :
    scanStep rl1 s i = scanStep rl2 s i := by
  have hne : s ≠ [] := by
    cases s
    · simp at hi
    · simp
  unfold scanStep
  by_cases h1 : (s.drop i).take 5 = lit "\\frac"
  · rw [if_pos h1, if_pos h1]
    dsimp only
    have s1 := extract_braced_shorter s (i + 5) (by omega) hne
    have a1 := (extract_braced_advance s (i + 5)).1
    have s2 := extract_braced_shorter s (extract_braced s (i + 5)).2
      (by omega) hne
    rw [hrl _ s1, hrl _ s2]
  · rw [if_neg h1, if_neg h1]
    by_cases h2 : (s.drop i).take 5 = lit "\\sqrt"
    · rw [if_pos h2, if_pos h2]
      dsimp only
      by_cases hc : i + 5 < s.length ∧ s.getD (i + 5) ' ' = '['
      · rw [if_pos hc]
        dsimp only
        have hj : i + 5 ≤ (match pyFindFrom s ']' (i + 5) with
            | some j => j | none => i + 5) := by
          cases hf : pyFindFrom s ']' (i + 5) with
          | some j => simpa using pyFindFrom_ge s ']' (i + 5) j hf
          | none => simp
        have s1 := extract_braced_shorter s
          ((match pyFindFrom s ']' (i + 5) with
            | some j => j | none => i + 5) + 1) (by omega) hne
        rw [hrl _ s1]
      · rw [if_neg hc]
        dsimp only
        have s1 := extract_braced_shorter s (i + 5) (by omega) hne
        rw [hrl _ s1]
    · rw [if_neg h2, if_neg h2]
      by_cases h3 : s.getD i ' ' = '^'
      · rw [if_pos h3, if_pos h3]
        dsimp only
        have s1 := extract_braced_shorter s (i + 1) (by omega) hne
        rw [hrl _ s1]
      · rw [if_neg h3, if_neg h3]
        by_cases h4 : s.getD i ' ' = '_'
        · rw [if_pos h4, if_pos h4]
          dsimp only
          have s1 := extract_braced_shorter s (i + 1) (by omega) hne
          rw [hrl _ s1]
        · rw [if_neg h4, if_neg h4]
          cases hfind : decoCmds.find? (fun cmd => cmd.isPrefixOf (s.drop i)) with
          | some cmd =>
            dsimp only
            have hlen := decoCmds_len cmd (List.mem_of_find?_eq_some hfind)
            have s1 := extract_braced_shorter s (i + cmd.length)
              (by omega) hne
            rw [hrl _ s1]
          | none => rfl

lemma latexScan_congr (rl1 rl2 : Str → Str) (s : Str)
    (hrl : ∀ sub : Str, sub.length < s.length → rl1 sub = rl2 sub) :
    ∀ sf i, latexScan rl1 sf s i = latexScan rl2 sf s i := by
  intro sf
  induction sf with
  | zero => intro i; rfl
  | succ sf ih =>
    intro i
    by_cases hi : i < s.length
    · unfold latexScan
      rw [if_pos hi, if_pos hi, scanStep_congr rl1 rl2 s i hi hrl]
      dsimp only
      rw [ih]
    · unfold latexScan
      rw [if_neg hi, if_neg hi]

lemma pyLstrip_length_le (s : Str) : (pyLstrip s).length ≤ s.length :=
  length_dropWhile_le _ s

lemma pyRstrip_length_le (s : Str) : (pyRstrip s).length ≤ s.length := by
  unfold pyRstrip
  have := length_dropWhile_le isPySpace s.reverse
  simpa using this

lemma pyStrip_length_le (s : Str) : (pyStrip s).length ≤ s.length :=
  le_trans (pyRstrip_length_le _) (pyLstrip_length_le s)

lemma pyLstripChars_length_le (cs : List Char) (s : Str) :
    (pyLstripChars cs s).length ≤ s.length :=
  length_dropWhile_le _ s

lemma pyRstripChars_length_le (cs : List Char) (s : Str) :
    (pyRstripChars cs s).length ≤ s.length := by
  unfold pyRstripChars
  have := length_dropWhile_le (fun c => cs.contains c) s.reverse
  simpa using this

lemma pyReplaceGo_length_le (old new : Str) (hle : new.length ≤ old.length) :
    ∀ (f : ℕ) (s : Str), (pyReplaceGo old new f s).length ≤ s.length := by
  intro f
  induction f with
  | zero => intro s; simp [pyReplaceGo]
  | succ f ih =>
    intro s
    cases s with
    | nil => simp [pyReplaceGo]
    | cons c t =>
      by_cases hp : old.isPrefixOf (c :: t)
      · have hol : old.length ≤ t.length + 1 := by
          simpa using List.IsPrefix.length_le (List.isPrefixOf_iff_prefix.mp hp)
        have hrec := ih ((c :: t).drop old.length)
        simp only [pyReplaceGo, if_pos hp, List.length_append, List.length_drop,
          List.length_cons] at hrec ⊢
        omega
      · have hrec := ih t
        simp only [pyReplaceGo, if_neg hp, List.length_cons]
        omega

lemma pyReplace_length_le (old new : Str) (hle : new.length ≤ old.length) :
    ∀ s : Str, (pyReplace old new s).length ≤ s.length := by
  intro s
  unfold pyReplace
  by_cases he : old.isEmpty
  · simp [he]
  · rw [if_neg he]
    exact pyReplaceGo_length_le old new hle s.length s
lemma tryTextCmd_content_le (cmd t c : Str) (n : ℕ)
    (h : tryTextCmd cmd t = some (c, n)) : c.length ≤ n := by
  unfold tryTextCmd at h
  by_cases hg : cmd.isPrefixOf t && ((t.drop cmd.length).head? = some '{' : Bool)
  · rw [if_pos hg] at h
    dsimp only at h
    by_cases hl : (((t.drop cmd.length).tail).takeWhile (· ≠ '}')).length <
        ((t.drop cmd.length).tail).length
    · rw [if_pos hl] at h
      cases h
      omega
    · rw [if_neg hl] at h
      cases h
  · rw [if_neg hg] at h
    cases h

lemma tryTextCmd_len_le (cmd t c : Str) (n : ℕ)
    (h : tryTextCmd cmd t = some (c, n)) : n ≤ t.length := by
  unfold tryTextCmd at h
  by_cases hg : cmd.isPrefixOf t && ((t.drop cmd.length).head? = some '{' : Bool)
  · rw [if_pos hg] at h
    dsimp only at h
    obtain ⟨hg1, hg2⟩ := Bool.and_eq_true_iff.mp hg
    have hcl : cmd.length ≤ t.length :=
      List.IsPrefix.length_le (List.isPrefixOf_iff_prefix.mp hg1)
    have hdne : t.drop cmd.length ≠ [] := by
      intro hnil
      rw [hnil] at hg2
      simp at hg2
    have hdl : 1 ≤ (t.drop cmd.length).length := by
      cases hd : t.drop cmd.length
      · exact absurd hd hdne
      · simp
    have htail : ((t.drop cmd.length).tail).length =
        t.length - cmd.length - 1 := by
      simp only [List.length_tail, List.length_drop]
    by_cases hl : (((t.drop cmd.length).tail).takeWhile (· ≠ '}')).length <
        ((t.drop cmd.length).tail).length
    · rw [if_pos hl] at h
      cases h
      simp only [List.length_drop] at hdl
      omega
    · rw [if_neg hl] at h
      cases h
  · rw [if_neg hg] at h
    cases h

lemma matchTextCmd_len_le (t c : Str) (n : ℕ)
    (h : matchTextCmd t = some (c, n)) : n ≤ t.length := by
  unfold matchTextCmd at h
  rcases h1 : tryTextCmd (lit "text") t with _ | v1 <;> rw [h1] at h
  case some => exact tryTextCmd_len_le _ _ _ _ (h1.trans (by simpa using h))
  rcases h2 : tryTextCmd (lit "mathrm") t with _ | v2 <;>
    simp only [Option.orElse, h2] at h
  case some => exact tryTextCmd_len_le _ _ _ _ (h2.trans (by simpa using h))
  rcases h3 : tryTextCmd (lit "mathbf") t with _ | v3 <;>
    simp only [Option.orElse, h3] at h
  case some => exact tryTextCmd_len_le _ _ _ _ (h3.trans (by simpa using h))
  rcases h4 : tryTextCmd (lit "mathit") t with _ | v4 <;>
    simp only [Option.orElse, h4] at h
  case some => exact tryTextCmd_len_le _ _ _ _ (h4.trans (by simpa using h))
  exact tryTextCmd_len_le _ _ _ _ h

lemma matchTextCmd_content_le (t c : Str) (n : ℕ)
    (h : matchTextCmd t = some (c, n)) : c.length ≤ n := by
  unfold matchTextCmd at h
  rcases h1 : tryTextCmd (lit "text") t with _ | v1 <;> rw [h1] at h
  case some => exact tryTextCmd_content_le _ _ _ _ (h1.trans (by simpa using h))
  rcases h2 : tryTextCmd (lit "mathrm") t with _ | v2 <;>
    simp only [Option.orElse, h2] at h
  case some => exact tryTextCmd_content_le _ _ _ _ (h2.trans (by simpa using h))
  rcases h3 : tryTextCmd (lit "mathbf") t with _ | v3 <;>
    simp only [Option.orElse, h3] at h
  case some => exact tryTextCmd_content_le _ _ _ _ (h3.trans (by simpa using h))
  rcases h4 : tryTextCmd (lit "mathit") t with _ | v4 <;>
    simp only [Option.orElse, h4] at h
  case some => exact tryTextCmd_content_le _ _ _ _ (h4.trans (by simpa using h))
  exact tryTextCmd_content_le _ _ _ _ h

lemma subTextCmdsGo_length_le :
    ∀ (f : ℕ) (s : Str), (subTextCmdsGo f s).length ≤ s.length := by
  intro f
  induction f with
  | zero => intro s; simp [subTextCmdsGo]
  | succ f ih =>
    intro s
    cases s with
    | nil => simp [subTextCmdsGo]
    | cons c t =>
      by_cases hc : c = '\\'
      · cases hm : matchTextCmd t with
        | some v =>
          obtain ⟨content, k⟩ := v
          have hcl := matchTextCmd_content_le t content k hm
          have hkl := matchTextCmd_len_le t content k hm
          have hrec := ih (t.drop k)
          simp only [subTextCmdsGo, if_pos hc, hm, List.length_append,
            List.length_drop, List.length_cons] at hrec ⊢
          omega
        | none =>
          have hrec := ih t
          simp only [subTextCmdsGo, if_pos hc, hm, List.length_cons]
          omega
      · have hrec := ih t
        simp only [subTextCmdsGo, if_neg hc, List.length_cons]
        omega

lemma subTextCmds_length_le (s : Str) :
    (subTextCmds s).length ≤ s.length :=
  subTextCmdsGo_length_le s.length s

lemma subLeftRightGo_length_le :
    ∀ (f : ℕ) (s : Str), (subLeftRightGo f s).length ≤ s.length := by
  intro f
  induction f with
  | zero => intro s; simp [subLeftRightGo]
  | succ f ih =>
    intro s
    cases s with
    | nil => simp [subLeftRightGo]
    | cons c t =>
      by_cases hc : c = '\\'
      · by_cases hL : (lit "left").isPrefixOf t && headLookahead (t.drop 4)
        · have hrec := ih (t.drop 4)
          simp only [subLeftRightGo, if_pos hc, if_pos hL, List.length_drop,
            List.length_cons] at hrec ⊢
          omega
        · by_cases hR : (lit "right").isPrefixOf t && headLookahead (t.drop 5)
          · have hrec := ih (t.drop 5)
            simp only [subLeftRightGo, if_pos hc, if_neg hL, if_pos hR,
              List.length_drop, List.length_cons] at hrec ⊢
            omega
          · have hrec := ih t
            simp only [subLeftRightGo, if_pos hc, if_neg hL, if_neg hR,
              List.length_cons]
            omega
      · have hrec := ih t
        simp only [subLeftRightGo, if_neg hc, List.length_cons]
        omega

lemma subLeftRight_length_le (s : Str) :
    (subLeftRight s).length ≤ s.length :=
  subLeftRightGo_length_le s.length s

lemma foldl_replace_length_le (pairs : List (Str × Str))
    (hp : ∀ p ∈ pairs, p.2.length ≤ p.1.length) :
    ∀ s : Str, (pairs.foldl (fun acc q => pyReplace q.1 q.2 acc) s).length ≤
      s.length := by
  induction pairs with
  | nil => intro s; simp
  | cons p ps ih =>
    intro s
    have h1 := pyReplace_length_le p.1 p.2 (hp p (by simp)) s
    have h2 := ih (fun q hq => hp q (by simp [hq])) (pyReplace p.1 p.2 s)
    simpa using le_trans h2 h1

lemma greekPairs_shrink : ∀ p ∈ greekPairs, p.2.length ≤ p.1.length := by
  decide

lemma symPairs_shrink : ∀ p ∈ symPairs, p.2.length ≤ p.1.length := by
  decide

/-- Preprocessing never lengthens the string, so the recursive arguments
of `_latex_to_rl` (brace contents of the preprocessed string) are strictly
shorter than the original argument. -/
lemma latexPre_length_le (expr : Str) :
    (latexPre expr).length ≤ expr.length := by
  unfold latexPre
  refine le_trans (foldl_replace_length_le symPairs symPairs_shrink _) ?_
  refine le_trans (foldl_replace_length_le greekPairs greekPairs_shrink _) ?_
  refine le_trans (subLeftRight_length_le _) ?_
  refine le_trans (subTextCmds_length_le _) ?_
  refine le_trans (pyStrip_length_le _) ?_
  refine le_trans (pyRstripChars_length_le _ _) ?_
  refine le_trans (pyLstripChars_length_le _ _) ?_
  exact pyStrip_length_le _

/-- Fuel-insensitivity of the fuelled `_latex_to_rl`: any fuel above the
argument's length computes the same result — the function's recursion
terminates within `expr.length` nested calls. -/
lemma latexRlF_step (g : ℕ) (e : Str) :
    latexRlF (g + 1) e =
      pyStrip (collapseSpaces
        (latexScan (latexRlF g) (latexPre e).length (latexPre e) 0)) := rfl

lemma latexRlF_stable :
    ∀ (n : ℕ) (expr : Str), expr.length ≤ n → ∀ f1 f2,
      expr.length < f1 → expr.length < f2 →
      latexRlF f1 expr = latexRlF f2 expr := by
  intro n
  induction n with
  | zero =>
    intro expr hlen f1 f2 h1 h2
    obtain ⟨g1, rfl⟩ : ∃ g1, f1 = g1 + 1 := ⟨f1 - 1, by omega⟩
    obtain ⟨g2, rfl⟩ : ∃ g2, f2 = g2 + 1 := ⟨f2 - 1, by omega⟩
    have hpre : (latexPre expr).length = 0 := by
      have := latexPre_length_le expr
      omega
    rw [latexRlF_step, latexRlF_step, hpre]
    rfl
  | succ n ih =>
    intro expr hlen f1 f2 h1 h2
    obtain ⟨g1, rfl⟩ : ∃ g1, f1 = g1 + 1 := ⟨f1 - 1, by omega⟩
    obtain ⟨g2, rfl⟩ : ∃ g2, f2 = g2 + 1 := ⟨f2 - 1, by omega⟩
    rw [latexRlF_step, latexRlF_step,
      latexScan_congr (latexRlF g1) (latexRlF g2) (latexPre expr) ?_]
    intro sub hsub
    have hs := latexPre_length_le expr
    exact ih sub (by omega) g1 g2 (by omega) (by omega)

/-- C10. Termination structure of the LaTeX converter: `_extract_braced`
never moves backwards and advances to at least `pos + 1` whenever `pos` is
in range; the content it returns to the recursive `_latex_to_rl` calls is
strictly shorter than the scanned string (preprocessing never lengthens
the argument); every iteration of the scan loop strictly advances the
index, so `s.length` loop steps suffice; and the fuelled recursion is
insensitive to any fuel above the argument's length — the converter
terminates on every input. -/
theorem C10_latex_to_rl_termination :
    (∀ (s : Str) (pos : ℕ), pos ≤ (extract_braced s pos).2 ∧
      (pos < s.length → pos + 1 ≤ (extract_braced s pos).2)) ∧
    (∀ (s : Str) (pos : ℕ), 1 ≤ pos → s ≠ [] →
      (extract_braced s pos).1.length < s.length) ∧
    (∀ expr : Str, (latexPre expr).length ≤ expr.length) ∧
    (∀ (latexRl : Str → Str) (s : Str) (i : ℕ), i < s.length →
      i < (scanStep latexRl s i).2) ∧
    (∀ (latexRl : Str → Str) (s : Str) (sf1 sf2 i : ℕ),
      s.length - i ≤ sf1 → s.length - i ≤ sf2 →
      latexScan latexRl sf1 s i = latexScan latexRl sf2 s i) ∧
    (∀ (expr : Str) (f1 f2 : ℕ), expr.length < f1 → expr.length < f2 →
      latexRlF f1 expr = latexRlF f2 expr) ∧
    (∀ expr : Str, latex_to_rl expr = latexRlF (expr.length + 1) expr) :=
  ⟨extract_braced_advance, extract_braced_shorter, latexPre_length_le,
   scanStep_advance,
   fun rl s sf1 sf2 i h1 h2 => latexScan_fuel_stable rl s sf1 sf2 i h1 h2,
   fun expr f1 f2 h1 h2 => latexRlF_stable expr.length expr le_rfl f1 f2 h1 h2,
   fun _ => rfl⟩

/-- C10 witness: the termination facts applied at a concrete extraction
and a concrete conversion (`\frac{a}{b}` at two different fuels). -/
theorem C10_latex_to_rl_termination_witness :
    2 + 1 ≤ (extract_braced (lit "x^{2}") 2).2 ∧
    (extract_braced (lit "x^{2}") 2).1.length < (lit "x^{2}").length ∧
    2 < (scanStep (latexRlF 9) (lit "x^{2}+y") 2).2 ∧
    latexRlF 14 (lit "\\frac{a}{b}") = latexRlF 99 (lit "\\frac{a}{b}") := by
  refine ⟨?_, ?_, ?_, ?_⟩
  · exact (C10_latex_to_rl_termination.1 (lit "x^{2}") 2).2 (by decide)
  · exact C10_latex_to_rl_termination.2.1 (lit "x^{2}") 2 (by decide) (by decide)
  · exact C10_latex_to_rl_termination.2.2.2.1 (latexRlF 9) (lit "x^{2}+y") 2
      (by decide)
  · exact C10_latex_to_rl_termination.2.2.2.2.2.1 (lit "\\frac{a}{b}") 14 99
      (by decide) (by decide)

/-!
## Well-formed markup (claim C3)

`escOK` is the well-formedness property the spec asserts for the math
converter's output: every `&` begins one of the entities `&amp;`, `&lt;`,
`&gt;`; every `<` opens one of the tags `<super>`, `</super>`, `<sub>`,
`</sub>` the converter generates; every `>` is the one closing such a
tag; all other characters are ordinary text.
-/

/-- One token is consumed per step, so `s.length` fuel always suffices. -/
def escOKGo : ℕ → Str → Bool
  | 0, s => s.isEmpty
  | f + 1, s =>
    match s with
    | [] => true
    | c :: t =>
      if c = '&' then
        ((lit "amp;").isPrefixOf t && escOKGo f (t.drop 4)) ||
        ((lit "lt;").isPrefixOf t && escOKGo f (t.drop 3)) ||
        ((lit "gt;").isPrefixOf t && escOKGo f (t.drop 3))
      else if c = '<' then
        ((lit "super>").isPrefixOf t && escOKGo f (t.drop 6)) ||
        ((lit "/super>").isPrefixOf t && escOKGo f (t.drop 7)) ||
        ((lit "sub>").isPrefixOf t && escOKGo f (t.drop 4)) ||
        ((lit "/sub>").isPrefixOf t && escOKGo f (t.drop 5))
      else if c = '>' then false
      else escOKGo f t

def escOK (s : Str) : Bool := escOKGo s.length s

lemma escOKGo_stable :
    ∀ (f1 : ℕ) (s : Str) (f2 : ℕ), s.length ≤ f1 → s.length ≤ f2 →
      escOKGo f1 s = escOKGo f2 s := by
  intro f1
  induction f1 with
  | zero =>
    intro s f2 h1 _
    have hs : s = [] := by
      cases s
      · rfl
      · simp at h1
    subst hs
    cases f2 <;> simp [escOKGo]
  | succ f1 ih =>
    intro s f2 h1 h2
    cases s with
    | nil => cases f2 <;> simp [escOKGo]
    | cons c t =>
      cases f2 with
      | zero => simp at h2
      | succ f2 =>
        have ht1 : t.length ≤ f1 := by simp at h1; omega
        have ht2 : t.length ≤ f2 := by simp at h2; omega
        simp only [escOKGo]
        rw [ih (t.drop 4) f2 (by simp [List.length_drop]; omega)
              (by simp [List.length_drop]; omega),
            ih (t.drop 3) f2 (by simp [List.length_drop]; omega)
              (by simp [List.length_drop]; omega),
            ih (t.drop 6) f2 (by simp [List.length_drop]; omega)
              (by simp [List.length_drop]; omega),
            ih (t.drop 7) f2 (by simp [List.length_drop]; omega)
              (by simp [List.length_drop]; omega),
            ih (t.drop 5) f2 (by simp [List.length_drop]; omega)
              (by simp [List.length_drop]; omega),
            ih t f2 ht1 ht2]

lemma escOK_cons (c : Char) (t : Str) :
    escOK (c :: t) =
      (if c = '&' then
        ((lit "amp;").isPrefixOf t && escOK (t.drop 4)) ||
        ((lit "lt;").isPrefixOf t && escOK (t.drop 3)) ||
        ((lit "gt;").isPrefixOf t && escOK (t.drop 3))
      else if c = '<' then
        ((lit "super>").isPrefixOf t && escOK (t.drop 6)) ||
        ((lit "/super>").isPrefixOf t && escOK (t.drop 7)) ||
        ((lit "sub>").isPrefixOf t && escOK (t.drop 4)) ||
        ((lit "/sub>").isPrefixOf t && escOK (t.drop 5))
      else if c = '>' then false
      else escOK t) := by
  show escOKGo (t.length + 1) (c :: t) = _
  simp only [escOKGo]
  rw [escOKGo_stable t.length (t.drop 4) (t.drop 4).length
        (by simp [List.length_drop]) le_rfl,
      escOKGo_stable t.length (t.drop 3) (t.drop 3).length
        (by simp [List.length_drop]) le_rfl,
      escOKGo_stable t.length (t.drop 6) (t.drop 6).length
        (by simp [List.length_drop]) le_rfl,
      escOKGo_stable t.length (t.drop 7) (t.drop 7).length
        (by simp [List.length_drop]) le_rfl,
      escOKGo_stable t.length (t.drop 5) (t.drop 5).length
        (by simp [List.length_drop]) le_rfl]
  rfl

lemma escOK_singleton (c : Char) (h1 : ¬ c = '&') (h2 : ¬ c = '<')
    (h3 : ¬ c = '>') : escOK [c] = true := by
  rw [escOK_cons, if_neg h1, if_neg h2, if_neg h3]
  rfl

lemma token_push (p t b : Str) (hp : p.isPrefixOf t = true) :
    p.isPrefixOf (t ++ b) = true ∧
      (t ++ b).drop p.length = t.drop p.length ++ b := by
  have hpre := List.isPrefixOf_iff_prefix.mp hp
  have hlen := List.IsPrefix.length_le hpre
  exact ⟨List.isPrefixOf_iff_prefix.mpr (hpre.trans (List.prefix_append t b)),
    List.drop_append_of_le_length hlen⟩

lemma escOK_append :
    ∀ (n : ℕ) (a : Str), a.length ≤ n → ∀ b : Str,
      escOK a = true → escOK b = true → escOK (a ++ b) = true := by
  intro n
  induction n with
  | zero =>
    intro a h b ha hb
    have hs : a = [] := by
      cases a
      · rfl
      · simp at h
    subst hs
    simpa using hb
  | succ n ih =>
    intro a h b ha hb
    cases a with
    | nil => simpa using hb
    | cons c t =>
      have ht : t.length ≤ n := by simp at h; omega
      rw [List.cons_append, escOK_cons]
      rw [escOK_cons] at ha
      by_cases hc1 : c = '&'
      · rw [if_pos hc1] at ha ⊢
        simp only [Bool.or_eq_true_iff, Bool.and_eq_true_iff] at ha ⊢
        rcases ha with (⟨hp, he⟩ | ⟨hp, he⟩) | ⟨hp, he⟩
        · refine Or.inl (Or.inl ⟨(token_push _ t b hp).1, ?_⟩)
          have hd : (t ++ b).drop 4 = t.drop 4 ++ b := by
            simpa using (token_push _ t b hp).2
          rw [hd]
          exact ih (t.drop 4) (by simp [List.length_drop]; omega) b he hb
        · refine Or.inl (Or.inr ⟨(token_push _ t b hp).1, ?_⟩)
          have hd : (t ++ b).drop 3 = t.drop 3 ++ b := by
            simpa using (token_push _ t b hp).2
          rw [hd]
          exact ih (t.drop 3) (by simp [List.length_drop]; omega) b he hb
        · refine Or.inr ⟨(token_push _ t b hp).1, ?_⟩
          have hd : (t ++ b).drop 3 = t.drop 3 ++ b := by
            simpa using (token_push _ t b hp).2
          rw [hd]
          exact ih (t.drop 3) (by simp [List.length_drop]; omega) b he hb
      · rw [if_neg hc1] at ha ⊢
        by_cases hc2 : c = '<'
        · rw [if_pos hc2] at ha ⊢
          simp only [Bool.or_eq_true_iff, Bool.and_eq_true_iff] at ha ⊢
          rcases ha with ((⟨hp, he⟩ | ⟨hp, he⟩) | ⟨hp, he⟩) | ⟨hp, he⟩
          · refine Or.inl (Or.inl (Or.inl ⟨(token_push _ t b hp).1, ?_⟩))
            have hd : (t ++ b).drop 6 = t.drop 6 ++ b := by
              simpa using (token_push _ t b hp).2
            rw [hd]
            exact ih (t.drop 6) (by simp [List.length_drop]; omega) b he hb
          · refine Or.inl (Or.inl (Or.inr ⟨(token_push _ t b hp).1, ?_⟩))
            have hd : (t ++ b).drop 7 = t.drop 7 ++ b := by
              simpa using (token_push _ t b hp).2
            rw [hd]
            exact ih (t.drop 7) (by simp [List.length_drop]; omega) b he hb
          · refine Or.inl (Or.inr ⟨(token_push _ t b hp).1, ?_⟩)
            have hd : (t ++ b).drop 4 = t.drop 4 ++ b := by
              simpa using (token_push _ t b hp).2
            rw [hd]
            exact ih (t.drop 4) (by simp [List.length_drop]; omega) b he hb
          · refine Or.inr ⟨(token_push _ t b hp).1, ?_⟩
            have hd : (t ++ b).drop 5 = t.drop 5 ++ b := by
              simpa using (token_push _ t b hp).2
            rw [hd]
            exact ih (t.drop 5) (by simp [List.length_drop]; omega) b he hb
        · rw [if_neg hc2] at ha ⊢
          by_cases hc3 : c = '>'
          · rw [if_pos hc3] at ha
            exact absurd ha (by simp)
          · rw [if_neg hc3] at ha ⊢
            exact ih t ht b ha hb

lemma escOK_append2 (a b : Str) (ha : escOK a = true) (hb : escOK b = true) :
    escOK (a ++ b) = true :=
  escOK_append a.length a le_rfl b ha hb

/-- A single-character `str.replace` maps each character independently. -/
lemma pyReplaceGo_singleton (a : Char) (rep : Str) :
    ∀ (f : ℕ) (s : Str), s.length ≤ f →
      pyReplaceGo [a] rep f s =
        s.flatMap (fun c => if c = a then rep else [c]) := by
  intro f
  induction f with
  | zero =>
    intro s h
    have hs : s = [] := by
      cases s
      · rfl
      · simp at h
    subst hs
    simp [pyReplaceGo]
  | succ f ih =>
    intro s h
    cases s with
    | nil => simp [pyReplaceGo]
    | cons c t =>
      have ht : t.length ≤ f := by simp at h; omega
      by_cases hp : List.isPrefixOf [a] (c :: t)
      · have hac : c = a := by
          have := List.isPrefixOf_iff_prefix.mp hp
          rcases this with ⟨r, hr⟩
          simpa using congrArg (fun l => l.head?) hr.symm
        simp only [pyReplaceGo, if_pos hp, List.length_cons, List.length_nil,
          List.drop_succ_cons, List.drop_zero, List.flatMap_cons, if_pos hac]
        rw [ih t ht]
      · have hac : ¬ c = a := by
          intro hh
          exact hp (by simp [List.isPrefixOf, hh])
        simp only [pyReplaceGo, if_neg hp, List.flatMap_cons, if_neg hac]
        rw [ih t ht]
        simp

lemma pyReplace_singleton (a : Char) (rep s : Str) :
    pyReplace [a] rep s = s.flatMap (fun c => if c = a then rep else [c]) := by
  unfold pyReplace
  rw [if_neg (by simp)]
  exact pyReplaceGo_singleton a rep s.length s le_rfl

/-- The per-character effect of the three chained escape replacements of
`escape3`. -/
def esc3char (c : Char) : Str :=
  if c = '&' then lit "&amp;"
  else if c = '<' then lit "&lt;"
  else if c = '>' then lit "&gt;" else [c]

lemma escape3_eq_flatMap (x : Str) : escape3 x = x.flatMap esc3char := by
  unfold escape3
  rw [show (lit "&" : Str) = ['&'] from rfl, show (lit "<" : Str) = ['<'] from rfl,
    show (lit ">" : Str) = ['>'] from rfl, pyReplace_singleton,
    pyReplace_singleton, pyReplace_singleton]
  induction x with
  | nil => rfl
  | cons c t ih =>
    rw [show (c :: t : Str) = [c] ++ t from rfl]
    rw [List.flatMap_append, List.flatMap_append, List.flatMap_append,
      List.flatMap_append, ih]
    congr 1
    by_cases h1 : c = '&'
    · subst h1; rfl
    · by_cases h2 : c = '<'
      · subst h2; rfl
      · by_cases h3 : c = '>'
        · subst h3; rfl
        · simp [esc3char, h1, h2, h3]

lemma esc3char_escOK (c : Char) : escOK (esc3char c) = true := by
  by_cases h1 : c = '&'
  · subst h1; decide
  · by_cases h2 : c = '<'
    · subst h2; decide
    · by_cases h3 : c = '>'
      · subst h3; decide
      · rw [show esc3char c = [c] from by simp [esc3char, h1, h2, h3]]
        exact escOK_singleton c h1 h2 h3

/-- `escape3` output is always well-formed markup, whatever its input:
afterwards every `&` begins an `&amp;`, `&lt;` or `&gt;` entity and no
`<` or `>` remains outside them. -/
lemma escape3_escOK (x : Str) : escOK (escape3 x) = true := by
  rw [escape3_eq_flatMap]
  induction x with
  | nil => rfl
  | cons c t ih =>
    rw [List.flatMap_cons]
    exact escOK_append2 (esc3char c) (t.flatMap esc3char) (esc3char_escOK c) ih

/-!
Characters of the converter's intermediate strings: preprocessing and
brace extraction never introduce characters that were not already in the
input or in one of the replacement tables. Instantiated at `[`, this
shows the `\sqrt` root branch is unreachable for `[`-free inputs.
-/

lemma not_mem_sublist {c : Char} {l l' : Str} (hs : List.Sublist l' l)
    (h : c ∉ l) : c ∉ l' := fun hc => h (List.Sublist.mem hc hs)

lemma not_mem_pyStrip {c : Char} {s : Str} (h : c ∉ s) : c ∉ pyStrip s := by
  unfold pyStrip pyRstrip pyLstrip
  intro hc
  simp only [List.mem_reverse] at hc
  have h1 : c ∉ s.dropWhile isPySpace :=
    not_mem_sublist (List.dropWhile_sublist _) h
  have h2 : c ∉ (s.dropWhile isPySpace).reverse := by simpa using h1
  exact not_mem_sublist (List.dropWhile_sublist _) h2 (by simpa using hc)

lemma not_mem_pyLstripChars {c : Char} {cs : List Char} {s : Str}
    (h : c ∉ s) : c ∉ pyLstripChars cs s :=
  not_mem_sublist (List.dropWhile_sublist _) h

lemma not_mem_pyRstripChars {c : Char} {cs : List Char} {s : Str}
    (h : c ∉ s) : c ∉ pyRstripChars cs s := by
  unfold pyRstripChars
  intro hc
  simp only [List.mem_reverse] at hc
  exact not_mem_sublist (List.dropWhile_sublist _) (by simpa using h) hc

lemma tryTextCmd_content_sublist (cmd t c : Str) (n : ℕ)
    (h : tryTextCmd cmd t = some (c, n)) : List.Sublist c t := by
  unfold tryTextCmd at h
  by_cases hg : cmd.isPrefixOf t && ((t.drop cmd.length).head? = some '{' : Bool)
  · rw [if_pos hg] at h
    dsimp only at h
    by_cases hl : (((t.drop cmd.length).tail).takeWhile (· ≠ '}')).length <
        ((t.drop cmd.length).tail).length
    · rw [if_pos hl] at h
      cases h
      exact ((List.takeWhile_sublist _).trans
        (List.tail_sublist _)).trans (List.drop_sublist _ _)
    · rw [if_neg hl] at h
      cases h
  · rw [if_neg hg] at h
    cases h

lemma matchTextCmd_content_sublist (t c : Str) (n : ℕ)
    (h : matchTextCmd t = some (c, n)) : List.Sublist c t := by
  unfold matchTextCmd at h
  rcases h1 : tryTextCmd (lit "text") t with _ | v1 <;> rw [h1] at h
  case some => exact tryTextCmd_content_sublist _ _ _ _ (h1.trans (by simpa using h))
  rcases h2 : tryTextCmd (lit "mathrm") t with _ | v2 <;>
    simp only [Option.orElse, h2] at h
  case some => exact tryTextCmd_content_sublist _ _ _ _ (h2.trans (by simpa using h))
  rcases h3 : tryTextCmd (lit "mathbf") t with _ | v3 <;>
    simp only [Option.orElse, h3] at h
  case some => exact tryTextCmd_content_sublist _ _ _ _ (h3.trans (by simpa using h))
  rcases h4 : tryTextCmd (lit "mathit") t with _ | v4 <;>
    simp only [Option.orElse, h4] at h
  case some => exact tryTextCmd_content_sublist _ _ _ _ (h4.trans (by simpa using h))
  exact tryTextCmd_content_sublist _ _ _ _ h

lemma not_mem_subTextCmdsGo {c : Char} :
    ∀ (f : ℕ) (s : Str), c ∉ s → c ∉ subTextCmdsGo f s := by
  intro f
  induction f with
  | zero => intro s h; simpa [subTextCmdsGo] using h
  | succ f ih =>
    intro s h
    cases s with
    | nil => simp [subTextCmdsGo]
    | cons d t =>
      have hdt : c ∉ t := fun hc => h (by simp [hc])
      have hd : ¬ c = d := fun hc => h (by simp [hc])
      by_cases hc : d = '\\'
      · cases hm : matchTextCmd t with
        | some v =>
          obtain ⟨content, k⟩ := v
          simp only [subTextCmdsGo, if_pos hc, hm, List.mem_append]
          push_neg
          exact ⟨not_mem_sublist (matchTextCmd_content_sublist t content k hm) hdt,
            ih (t.drop k) (not_mem_sublist (List.drop_sublist _ _) hdt)⟩
        | none =>
          simp only [subTextCmdsGo, if_pos hc, hm, List.mem_cons]
          push_neg
          exact ⟨hd, ih t hdt⟩
      · simp only [subTextCmdsGo, if_neg hc, List.mem_cons]
        push_neg
        exact ⟨hd, ih t hdt⟩

lemma not_mem_subLeftRightGo {c : Char} :
    ∀ (f : ℕ) (s : Str), c ∉ s → c ∉ subLeftRightGo f s := by
  intro f
  induction f with
  | zero => intro s h; simpa [subLeftRightGo] using h
  | succ f ih =>
    intro s h
    cases s with
    | nil => simp [subLeftRightGo]
    | cons d t =>
      have hdt : c ∉ t := fun hc => h (by simp [hc])
      have hd : ¬ c = d := fun hc => h (by simp [hc])
      by_cases hc : d = '\\'
      · by_cases hL : (lit "left").isPrefixOf t && headLookahead (t.drop 4)
        · simp only [subLeftRightGo, if_pos hc, if_pos hL]
          exact ih (t.drop 4) (not_mem_sublist (List.drop_sublist _ _) hdt)
        · by_cases hR : (lit "right").isPrefixOf t && headLookahead (t.drop 5)
          · simp only [subLeftRightGo, if_pos hc, if_neg hL, if_pos hR]
            exact ih (t.drop 5) (not_mem_sublist (List.drop_sublist _ _) hdt)
          · simp only [subLeftRightGo, if_pos hc, if_neg hL, if_neg hR,
              List.mem_cons]
            push_neg
            exact ⟨hd, ih t hdt⟩
      · simp only [subLeftRightGo, if_neg hc, List.mem_cons]
        push_neg
        exact ⟨hd, ih t hdt⟩

lemma not_mem_pyReplaceGo {c : Char} {old new : Str} (hnew : c ∉ new) :
    ∀ (f : ℕ) (s : Str), c ∉ s → c ∉ pyReplaceGo old new f s := by
  intro f
  induction f with
  | zero => intro s h; simpa [pyReplaceGo] using h
  | succ f ih =>
    intro s h
    cases s with
    | nil => simp [pyReplaceGo]
    | cons d t =>
      have hdt : c ∉ t := fun hc => h (by simp [hc])
      have hd : ¬ c = d := fun hc => h (by simp [hc])
      by_cases hp : old.isPrefixOf (d :: t)
      · simp only [pyReplaceGo, if_pos hp, List.mem_append]
        push_neg
        exact ⟨hnew, ih _ (not_mem_sublist (List.drop_sublist _ _) h)⟩
      · simp only [pyReplaceGo, if_neg hp, List.mem_cons]
        push_neg
        exact ⟨hd, ih t hdt⟩

lemma not_mem_pyReplace {c : Char} {old new s : Str} (hnew : c ∉ new)
    (h : c ∉ s) : c ∉ pyReplace old new s := by
  unfold pyReplace
  by_cases he : old.isEmpty
  · simpa [he] using h
  · simpa [he] using not_mem_pyReplaceGo hnew s.length s h

lemma not_mem_foldl_replace {c : Char} (pairs : List (Str × Str))
    (hp : ∀ p ∈ pairs, c ∉ p.2) :
    ∀ s : Str, c ∉ s →
      c ∉ pairs.foldl (fun acc q => pyReplace q.1 q.2 acc) s := by
  induction pairs with
  | nil => intro s h; simpa using h
  | cons p ps ih =>
    intro s h
    simp only [List.foldl_cons]
    exact ih (fun q hq => hp q (by simp [hq])) _
      (not_mem_pyReplace (hp p (by simp)) h)

lemma bracket_not_mem_greek : ∀ p ∈ greekPairs, '[' ∉ p.2 := by decide

lemma bracket_not_mem_sym : ∀ p ∈ symPairs, '[' ∉ p.2 := by decide

lemma not_mem_latexPre {expr : Str} (h : '[' ∉ expr) : '[' ∉ latexPre expr := by
  unfold latexPre
  exact not_mem_foldl_replace symPairs bracket_not_mem_sym _
    (not_mem_foldl_replace greekPairs bracket_not_mem_greek _
      (not_mem_subLeftRightGo _ _
        (not_mem_subTextCmdsGo _ _
          (not_mem_pyStrip (not_mem_pyRstripChars (not_mem_pyLstripChars
            (not_mem_pyStrip h)))))))

lemma getD_mem {s : Str} {i : ℕ} (h : i < s.length) (d : Char) :
    s.getD i d ∈ s := by
  rw [List.getD_eq_getElem s d h]
  exact List.getElem_mem h

lemma not_mem_ebLoopGo {c : Char} {s : Str} {pos : ℕ} (h : c ∉ s) :
    ∀ (k : ℕ) (depth : ℤ) (i : ℕ), c ∉ (ebLoopGo s pos k depth i).1 := by
  intro k
  induction k with
  | zero =>
    intro depth i
    exact not_mem_sublist (List.drop_sublist _ _) h
  | succ k ih =>
    intro depth i
    unfold ebLoopGo
    by_cases hi : i < s.length
    · rw [if_pos hi]
      by_cases h0 : (if s.getD i ' ' = '{' then depth + 1
          else if s.getD i ' ' = '}' then depth - 1 else depth) = 0
      · simp only [h0, if_pos]
        exact not_mem_sublist ((List.take_sublist _ _).trans
          (List.drop_sublist _ _)) h
      · simp only [if_neg h0]
        exact ih _ (i + 1)
    · rw [if_neg hi]
      exact not_mem_sublist (List.drop_sublist _ _) h

lemma not_mem_extract_braced {c : Char} {s : Str} {pos : ℕ} (h : c ∉ s) :
    c ∉ (extract_braced s pos).1 := by
  unfold extract_braced
  by_cases hg : pos ≥ s.length ∨ s.getD pos ' ' ≠ '{'
  · rw [if_pos hg]
    by_cases hp : pos < s.length
    · rw [if_pos hp]
      intro hc
      have : c = s.getD pos ' ' := by simpa using hc
      exact h (this ▸ getD_mem hp ' ')
    · rw [if_neg hp]
      simp
  · rw [if_neg hg]
    exact not_mem_ebLoopGo h _ _ _

/-!
Space removal (`re.sub(r'  +', ' ', ...)`, `str.strip()`) preserves
well-formedness: entities and tags contain no whitespace, so deleting
whitespace never breaks one apart.
-/

lemma collapseSpacesGo_stable :
    ∀ (f1 : ℕ) (s : Str) (f2 : ℕ), s.length ≤ f1 → s.length ≤ f2 →
      collapseSpacesGo f1 s = collapseSpacesGo f2 s := by
  intro f1
  induction f1 with
  | zero =>
    intro s f2 h1 _
    have hs : s = [] := by
      cases s
      · rfl
      · simp at h1
    subst hs
    cases f2 <;> simp [collapseSpacesGo]
  | succ f1 ih =>
    intro s f2 h1 h2
    cases s with
    | nil => cases f2 <;> simp [collapseSpacesGo]
    | cons c t =>
      cases f2 with
      | zero => simp at h2
      | succ f2 =>
        have ht1 : t.length ≤ f1 := by simp at h1; omega
        have ht2 : t.length ≤ f2 := by simp at h2; omega
        simp only [collapseSpacesGo]
        by_cases hc : c = ' '
        · rw [if_pos hc, if_pos hc, ih (t.dropWhile (· = ' ')) f2
            (le_trans (length_dropWhile_le _ t) ht1)
            (le_trans (length_dropWhile_le _ t) ht2)]
        · rw [if_neg hc, if_neg hc, ih t f2 ht1 ht2]

lemma collapseSpaces_cons (c : Char) (t : Str) :
    collapseSpaces (c :: t) =
      if c = ' ' then c :: collapseSpaces (t.dropWhile (· = ' '))
      else c :: collapseSpaces t := by
  show collapseSpacesGo (t.length + 1) (c :: t) = _
  simp only [collapseSpacesGo]
  by_cases hc : c = ' '
  · rw [if_pos hc, if_pos hc,
      collapseSpacesGo_stable t.length (t.dropWhile (· = ' '))
        (t.dropWhile (· = ' ')).length (length_dropWhile_le _ t) le_rfl]
    rfl
  · rw [if_neg hc, if_neg hc]
    rfl

lemma collapseSpaces_nospace (p : Str) (hp : ∀ x ∈ p, ¬ x = ' ') :
    ∀ r : Str, collapseSpaces (p ++ r) = p ++ collapseSpaces r := by
  induction p with
  | nil => intro r; simp
  | cons c q ih =>
    intro r
    rw [List.cons_append, collapseSpaces_cons, if_neg (hp c (by simp)),
      ih (fun x hx => hp x (by simp [hx])) r, List.cons_append]

lemma escOK_dropWhile (p : Char → Bool)
    (hp : ∀ c, p c = true → ¬ c = '&' ∧ ¬ c = '<' ∧ ¬ c = '>') :
    ∀ s : Str, escOK s = true → escOK (s.dropWhile p) = true := by
  intro s
  induction s with
  | nil => intro h; simpa using h
  | cons c t ih =>
    intro h
    by_cases hc : p c
    · rw [List.dropWhile_cons_of_pos hc]
      obtain ⟨h1, h2, h3⟩ := hp c hc
      rw [escOK_cons, if_neg h1, if_neg h2, if_neg h3] at h
      exact ih h
    · rw [List.dropWhile_cons_of_neg hc]
      exact h

lemma escOK_collapseSpaces :
    ∀ (n : ℕ) (s : Str), s.length ≤ n → escOK s = true →
      escOK (collapseSpaces s) = true := by
  intro n
  induction n with
  | zero =>
    intro s h hs
    have : s = [] := by
      cases s
      · rfl
      · simp at h
    subst this
    simpa using hs
  | succ n ih =>
    intro s h hs
    cases s with
    | nil => simpa using hs
    | cons c t =>
      have ht : t.length ≤ n := by simp at h; omega
      rw [escOK_cons] at hs
      by_cases hc1 : c = '&'
      · subst hc1
        rw [if_pos rfl] at hs
        simp only [Bool.or_eq_true_iff, Bool.and_eq_true_iff] at hs
        rcases hs with (⟨hp, he⟩ | ⟨hp, he⟩) | ⟨hp, he⟩
        · obtain ⟨t', rfl⟩ : ∃ t', t = lit "amp;" ++ t' := by
            obtain ⟨r, hr⟩ := List.isPrefixOf_iff_prefix.mp hp
            exact ⟨r, hr.symm⟩
          have hlit : (lit "amp;").length = 4 := rfl
          have hdrop : (lit "amp;" ++ t').drop 4 = t' := by
            rw [show (4 : ℕ) = (lit "amp;").length from rfl]
            exact List.drop_left _ _
          rw [hdrop] at he
          rw [show ('&' :: (lit "amp;" ++ t') : Str) = lit "&amp;" ++ t' from rfl,
            collapseSpaces_nospace (lit "&amp;") (by decide) t']
          refine escOK_append2 _ _ (by decide) ?_
          refine ih t' ?_ he
          simp [List.length_append, hlit] at ht
          omega
        · obtain ⟨t', rfl⟩ : ∃ t', t = lit "lt;" ++ t' := by
            obtain ⟨r, hr⟩ := List.isPrefixOf_iff_prefix.mp hp
            exact ⟨r, hr.symm⟩
          have hlit : (lit "lt;").length = 3 := rfl
          have hdrop : (lit "lt;" ++ t').drop 3 = t' := by
            rw [show (3 : ℕ) = (lit "lt;").length from rfl]
            exact List.drop_left _ _
          rw [hdrop] at he
          rw [show ('&' :: (lit "lt;" ++ t') : Str) = lit "&lt;" ++ t' from rfl,
            collapseSpaces_nospace (lit "&lt;") (by decide) t']
          refine escOK_append2 _ _ (by decide) ?_
          refine ih t' ?_ he
          simp [List.length_append, hlit] at ht
          omega
        · obtain ⟨t', rfl⟩ : ∃ t', t = lit "gt;" ++ t' := by
            obtain ⟨r, hr⟩ := List.isPrefixOf_iff_prefix.mp hp
            exact ⟨r, hr.symm⟩
          have hlit : (lit "gt;").length = 3 := rfl
          have hdrop : (lit "gt;" ++ t').drop 3 = t' := by
            rw [show (3 : ℕ) = (lit "gt;").length from rfl]
            exact List.drop_left _ _
          rw [hdrop] at he
          rw [show ('&' :: (lit "gt;" ++ t') : Str) = lit "&gt;" ++ t' from rfl,
            collapseSpaces_nospace (lit "&gt;") (by decide) t']
          refine escOK_append2 _ _ (by decide) ?_
          refine ih t' ?_ he
          simp [List.length_append, hlit] at ht
          omega
      · by_cases hc2 : c = '<'
        · subst hc2
          rw [if_neg hc1, if_pos rfl] at hs
          simp only [Bool.or_eq_true_iff, Bool.and_eq_true_iff] at hs
          rcases hs with ((⟨hp, he⟩ | ⟨hp, he⟩) | ⟨hp, he⟩) | ⟨hp, he⟩
          · obtain ⟨t', rfl⟩ : ∃ t', t = lit "super>" ++ t' := by
              obtain ⟨r, hr⟩ := List.isPrefixOf_iff_prefix.mp hp
              exact ⟨r, hr.symm⟩
            have hlit : (lit "super>").length = 6 := rfl
            have hdrop : (lit "super>" ++ t').drop 6 = t' := by
              rw [show (6 : ℕ) = (lit "super>").length from rfl]
              exact List.drop_left _ _
            rw [hdrop] at he
            rw [show ('<' :: (lit "super>" ++ t') : Str) = lit "<super>" ++ t' from rfl,
              collapseSpaces_nospace (lit "<super>") (by decide) t']
            refine escOK_append2 _ _ (by decide) ?_
            refine ih t' ?_ he
            simp [List.length_append, hlit] at ht
            omega
          · obtain ⟨t', rfl⟩ : ∃ t', t = lit "/super>" ++ t' := by
              obtain ⟨r, hr⟩ := List.isPrefixOf_iff_prefix.mp hp
              exact ⟨r, hr.symm⟩
            have hlit : (lit "/super>").length = 7 := rfl
            have hdrop : (lit "/super>" ++ t').drop 7 = t' := by
              rw [show (7 : ℕ) = (lit "/super>").length from rfl]
              exact List.drop_left _ _
            rw [hdrop] at he
            rw [show ('<' :: (lit "/super>" ++ t') : Str) = lit "</super>" ++ t' from rfl,
              collapseSpaces_nospace (lit "</super>") (by decide) t']
            refine escOK_append2 _ _ (by decide) ?_
            refine ih t' ?_ he
            simp [List.length_append, hlit] at ht
            omega
          · obtain ⟨t', rfl⟩ : ∃ t', t = lit "sub>" ++ t' := by
              obtain ⟨r, hr⟩ := List.isPrefixOf_iff_prefix.mp hp
              exact ⟨r, hr.symm⟩
            have hlit : (lit "sub>").length = 4 := rfl
            have hdrop : (lit "sub>" ++ t').drop 4 = t' := by
              rw [show (4 : ℕ) = (lit "sub>").length from rfl]
              exact List.drop_left _ _
            rw [hdrop] at he
            rw [show ('<' :: (lit "sub>" ++ t') : Str) = lit "<sub>" ++ t' from rfl,
              collapseSpaces_nospace (lit "<sub>") (by decide) t']
            refine escOK_append2 _ _ (by decide) ?_
            refine ih t' ?_ he
            simp [List.length_append, hlit] at ht
            omega
          · obtain ⟨t', rfl⟩ : ∃ t', t = lit "/sub>" ++ t' := by
              obtain ⟨r, hr⟩ := List.isPrefixOf_iff_prefix.mp hp
              exact ⟨r, hr.symm⟩
            have hlit : (lit "/sub>").length = 5 := rfl
            have hdrop : (lit "/sub>" ++ t').drop 5 = t' := by
              rw [show (5 : ℕ) = (lit "/sub>").length from rfl]
              exact List.drop_left _ _
            rw [hdrop] at he
            rw [show ('<' :: (lit "/sub>" ++ t') : Str) = lit "</sub>" ++ t' from rfl,
              collapseSpaces_nospace (lit "</sub>") (by decide) t']
            refine escOK_append2 _ _ (by decide) ?_
            refine ih t' ?_ he
            simp [List.length_append, hlit] at ht
            omega
        · by_cases hc3 : c = '>'
          · rw [if_neg hc1, if_neg hc2, if_pos hc3] at hs
            exact absurd hs (by simp)
          · rw [if_neg hc1, if_neg hc2, if_neg hc3] at hs
            by_cases hsp : c = ' '
            · rw [collapseSpaces_cons, if_pos hsp, escOK_cons,
                if_neg hc1, if_neg hc2, if_neg hc3]
              refine ih (t.dropWhile (· = ' ')) ?_ ?_
              · exact le_trans (length_dropWhile_le _ t) ht
              · refine escOK_dropWhile _ ?_ t hs
                intro d hd
                have : d = ' ' := by simpa using hd
                subst this
                refine ⟨by decide, by decide, by decide⟩
            · rw [collapseSpaces_cons, if_neg hsp, escOK_cons,
                if_neg hc1, if_neg hc2, if_neg hc3]
              exact ih t ht hs

lemma isPrefixOf_append_spaces (p : Str)
    (hno : ∀ x ∈ p, isPySpace x = false) :
    ∀ (t sp : Str), (∀ x ∈ sp, isPySpace x = true) →
      p.isPrefixOf (t ++ sp) = true → p.isPrefixOf t = true := by
  induction p with
  | nil => intro t sp _ _; simp [List.isPrefixOf]
  | cons a q ih =>
    intro t sp hsp h
    cases t with
    | nil =>
      exfalso
      cases sp with
      | nil => simp [List.isPrefixOf] at h
      | cons b r =>
        simp only [List.nil_append, List.isPrefixOf, Bool.and_eq_true_iff,
          beq_iff_eq] at h
        have hb := hsp b (by simp)
        have ha := hno a (by simp)
        rw [h.1] at ha
        rw [ha] at hb
        cases hb
    | cons b r =>
      rw [List.cons_append] at h
      simp only [List.isPrefixOf, Bool.and_eq_true_iff, beq_iff_eq] at h ⊢
      exact ⟨h.1, ih (fun x hx => hno x (by simp [hx])) r sp hsp h.2⟩

lemma escOK_append_spaces :
    ∀ (n : ℕ) (t sp : Str), t.length ≤ n →
      (∀ x ∈ sp, isPySpace x = true) →
      escOK (t ++ sp) = true → escOK t = true := by
  intro n
  induction n with
  | zero =>
    intro t sp h _ _
    have : t = [] := by
      cases t
      · rfl
      · simp at h
    subst this
    rfl
  | succ n ih =>
    intro t sp h hsp hok
    cases t with
    | nil => rfl
    | cons c t =>
      have ht : t.length ≤ n := by simp at h; omega
      rw [List.cons_append, escOK_cons] at hok
      rw [escOK_cons]
      by_cases hc1 : c = '&'
      · rw [if_pos hc1] at hok ⊢
        simp only [Bool.or_eq_true_iff, Bool.and_eq_true_iff] at hok ⊢
        rcases hok with (⟨hp, he⟩ | ⟨hp, he⟩) | ⟨hp, he⟩
        · have hpt : (lit "amp;").isPrefixOf t = true :=
            isPrefixOf_append_spaces _ (by decide) t sp hsp hp
          have hlen : 4 ≤ t.length := by
            have h1 := List.IsPrefix.length_le (List.isPrefixOf_iff_prefix.mp hpt)
            have h2 : (lit "amp;").length = 4 := rfl
            omega
          have hd : (t ++ sp).drop 4 = t.drop 4 ++ sp :=
            List.drop_append_of_le_length hlen
          rw [hd] at he
          exact Or.inl (Or.inl ⟨hpt, ih (t.drop 4) sp
            (by simp [List.length_drop]; omega) hsp he⟩)
        · have hpt : (lit "lt;").isPrefixOf t = true :=
            isPrefixOf_append_spaces _ (by decide) t sp hsp hp
          have hlen : 3 ≤ t.length := by
            have h1 := List.IsPrefix.length_le (List.isPrefixOf_iff_prefix.mp hpt)
            have h2 : (lit "lt;").length = 3 := rfl
            omega
          have hd : (t ++ sp).drop 3 = t.drop 3 ++ sp :=
            List.drop_append_of_le_length hlen
          rw [hd] at he
          exact Or.inl (Or.inr ⟨hpt, ih (t.drop 3) sp
            (by simp [List.length_drop]; omega) hsp he⟩)
        · have hpt : (lit "gt;").isPrefixOf t = true :=
            isPrefixOf_append_spaces _ (by decide) t sp hsp hp
          have hlen : 3 ≤ t.length := by
            have h1 := List.IsPrefix.length_le (List.isPrefixOf_iff_prefix.mp hpt)
            have h2 : (lit "gt;").length = 3 := rfl
            omega
          have hd : (t ++ sp).drop 3 = t.drop 3 ++ sp :=
            List.drop_append_of_le_length hlen
          rw [hd] at he
          exact Or.inr ⟨hpt, ih (t.drop 3) sp
            (by simp [List.length_drop]; omega) hsp he⟩
      · rw [if_neg hc1] at hok ⊢
        by_cases hc2 : c = '<'
        · rw [if_pos hc2] at hok ⊢
          simp only [Bool.or_eq_true_iff, Bool.and_eq_true_iff] at hok ⊢
          rcases hok with ((⟨hp, he⟩ | ⟨hp, he⟩) | ⟨hp, he⟩) | ⟨hp, he⟩
          · have hpt : (lit "super>").isPrefixOf t = true :=
              isPrefixOf_append_spaces _ (by decide) t sp hsp hp
            have hlen : 6 ≤ t.length := by
              have h1 := List.IsPrefix.length_le (List.isPrefixOf_iff_prefix.mp hpt)
              have h2 : (lit "super>").length = 6 := rfl
              omega
            have hd : (t ++ sp).drop 6 = t.drop 6 ++ sp :=
              List.drop_append_of_le_length hlen
            rw [hd] at he
            exact Or.inl (Or.inl (Or.inl ⟨hpt, ih (t.drop 6) sp
              (by simp [List.length_drop]; omega) hsp he⟩))
          · have hpt : (lit "/super>").isPrefixOf t = true :=
              isPrefixOf_append_spaces _ (by decide) t sp hsp hp
            have hlen : 7 ≤ t.length := by
              have h1 := List.IsPrefix.length_le (List.isPrefixOf_iff_prefix.mp hpt)
              have h2 : (lit "/super>").length = 7 := rfl
              omega
            have hd : (t ++ sp).drop 7 = t.drop 7 ++ sp :=
              List.drop_append_of_le_length hlen
            rw [hd] at he
            exact Or.inl (Or.inl (Or.inr ⟨hpt, ih (t.drop 7) sp
              (by simp [List.length_drop]; omega) hsp he⟩))
          · have hpt : (lit "sub>").isPrefixOf t = true :=
              isPrefixOf_append_spaces _ (by decide) t sp hsp hp
            have hlen : 4 ≤ t.length := by
              have h1 := List.IsPrefix.length_le (List.isPrefixOf_iff_prefix.mp hpt)
              have h2 : (lit "sub>").length = 4 := rfl
              omega
            have hd : (t ++ sp).drop 4 = t.drop 4 ++ sp :=
              List.drop_append_of_le_length hlen
            rw [hd] at he
            exact Or.inl (Or.inr ⟨hpt, ih (t.drop 4) sp
              (by simp [List.length_drop]; omega) hsp he⟩)
          · have hpt : (lit "/sub>").isPrefixOf t = true :=
              isPrefixOf_append_spaces _ (by decide) t sp hsp hp
            have hlen : 5 ≤ t.length := by
              have h1 := List.IsPrefix.length_le (List.isPrefixOf_iff_prefix.mp hpt)
              have h2 : (lit "/sub>").length = 5 := rfl
              omega
            have hd : (t ++ sp).drop 5 = t.drop 5 ++ sp :=
              List.drop_append_of_le_length hlen
            rw [hd] at he
            exact Or.inr ⟨hpt, ih (t.drop 5) sp
              (by simp [List.length_drop]; omega) hsp he⟩
        · rw [if_neg hc2] at hok ⊢
          by_cases hc3 : c = '>'
          · rw [if_pos hc3] at hok
            exact absurd hok (by simp)
          · rw [if_neg hc3] at hok ⊢
            exact ih t sp ht hsp hok

lemma escOK_pyLstrip (s : Str) (h : escOK s = true) :
    escOK (pyLstrip s) = true := by
  refine escOK_dropWhile isPySpace ?_ s h
  intro c hc
  refine ⟨?_, ?_, ?_⟩ <;> intro he <;> subst he <;> simp [isPySpace] at hc

lemma escOK_pyRstrip (s : Str) (h : escOK s = true) :
    escOK (pyRstrip s) = true := by
  have hdecomp : s = pyRstrip s ++ (s.reverse.takeWhile isPySpace).reverse := by
    calc s = s.reverse.reverse := (List.reverse_reverse s).symm
    _ = (s.reverse.takeWhile isPySpace ++ s.reverse.dropWhile isPySpace).reverse := by
          rw [List.takeWhile_append_dropWhile]
    _ = (s.reverse.dropWhile isPySpace).reverse ++
          (s.reverse.takeWhile isPySpace).reverse := by
          rw [List.reverse_append]
  rw [hdecomp] at h
  refine escOK_append_spaces (pyRstrip s).length (pyRstrip s) _ le_rfl ?_ h
  intro x hx
  rw [List.mem_reverse] at hx
  exact List.mem_takeWhile_imp hx

lemma escOK_pyStrip (s : Str) (h : escOK s = true) :
    escOK (pyStrip s) = true :=
  escOK_pyRstrip _ (escOK_pyLstrip s h)

/-- Every piece the scan loop emits is well-formed markup, provided the
recursive conversions are: plain `&`, `<`, `>` are escaped, `^`/`_`
arguments pass through `escape3`, and for `[`-free strings the `\sqrt`
root branch (the only verbatim splice) is unreachable. -/
lemma scanStep_piece_escOK (latexRl : Str → Str) (s : Str) (i : ℕ)
    (Hrl : ∀ x : Str, '[' ∉ x → escOK (latexRl x) = true)
    (hs : '[' ∉ s) : escOK (scanStep latexRl s i).1 = true := by
  unfold scanStep
  by_cases h1 : (s.drop i).take 5 = lit "\\frac"
  · rw [if_pos h1]
    dsimp only
    refine escOK_append2 _ _ ?_ ?_
    · refine escOK_append2 _ _ ?_ ?_
      · refine escOK_append2 _ _ ?_ ?_
        · refine escOK_append2 _ _ (by decide) ?_
          exact Hrl _ (not_mem_extract_braced hs)
        · decide
      · exact Hrl _ (not_mem_extract_braced hs)
    · decide
  · rw [if_neg h1]
    by_cases h2 : (s.drop i).take 5 = lit "\\sqrt"
    · rw [if_pos h2]
      dsimp only
      have hc : ¬ (i + 5 < s.length ∧ s.getD (i + 5) ' ' = '[') := by
        rintro ⟨hlt, heq⟩
        exact hs (heq ▸ getD_mem hlt ' ')
      rw [if_neg hc]
      dsimp only
      refine escOK_append2 _ _ ?_ (by decide)
      refine escOK_append2 _ _ (by decide) ?_
      exact Hrl _ (not_mem_extract_braced hs)
    · rw [if_neg h2]
      by_cases h3 : s.getD i ' ' = '^'
      · rw [if_pos h3]
        dsimp only
        refine escOK_append2 _ _ ?_ (by decide)
        refine escOK_append2 _ _ (by decide) ?_
        exact escape3_escOK _
      · rw [if_neg h3]
        by_cases h4 : s.getD i ' ' = '_'
        · rw [if_pos h4]
          dsimp only
          refine escOK_append2 _ _ ?_ (by decide)
          refine escOK_append2 _ _ (by decide) ?_
          exact escape3_escOK _
        · rw [if_neg h4]
          cases hfind : decoCmds.find? (fun cmd => cmd.isPrefixOf (s.drop i)) with
          | some cmd =>
            dsimp only
            exact Hrl _ (not_mem_extract_braced hs)
          | none =>
            dsimp only
            by_cases h5 : s.getD i ' ' = '\\'
            · rw [if_pos h5]
              dsimp only
              decide
            · rw [if_neg h5]
              dsimp only
              by_cases hA : s.getD i ' ' = '&'
              · rw [if_pos hA]
                decide
              · rw [if_neg hA]
                by_cases hB : s.getD i ' ' = '<'
                · rw [if_pos hB]
                  decide
                · rw [if_neg hB]
                  by_cases hC : s.getD i ' ' = '>'
                  · rw [if_pos hC]
                    decide
                  · rw [if_neg hC]
                    exact escOK_singleton _ hA hB hC

lemma latexScan_escOK (latexRl : Str → Str) (s : Str)
    (Hrl : ∀ x : Str, '[' ∉ x → escOK (latexRl x) = true)
    (hs : '[' ∉ s) :
    ∀ (sf : ℕ) (i : ℕ), escOK (latexScan latexRl sf s i) = true := by
  intro sf
  induction sf with
  | zero => intro i; rfl
  | succ sf ih =>
    intro i
    unfold latexScan
    by_cases hi : i < s.length
    · rw [if_pos hi]
      dsimp only
      exact escOK_append2 _ _ (scanStep_piece_escOK latexRl s i Hrl hs) (ih _)
    · rw [if_neg hi]
      rfl

/-- For `[`-free expressions every fuelling of the converter produces
well-formed markup. -/
lemma latexRlF_escOK :
    ∀ (g : ℕ) (expr : Str), '[' ∉ expr → escOK (latexRlF g expr) = true := by
  intro g
  induction g with
  | zero => intro expr _; rfl
  | succ g ih =>
    intro expr hb
    rw [latexRlF_step]
    refine escOK_pyStrip _ ?_
    refine escOK_collapseSpaces (latexScan (latexRlF g) (latexPre expr).length
      (latexPre expr) 0).length _ le_rfl ?_
    exact latexScan_escOK (latexRlF g) (latexPre expr) ih (not_mem_latexPre hb) _ _

/-!
## `_process` (src/app.py:210-234)

The paragraph-level pipeline around the converter: literal un-escapes,
`_MATH_RE` substitution, the tag-aware XML-escape pass and the bold /
italic markup substitutions.
-/

/-- The second alternative `\$[^$\n]+\$` of `_MATH_RE` at the current
position: `$`, a maximal nonempty run without `$` or newline, then `$`
(the greedy run cannot backtrack, since a shorter run is not followed by
`$`). -/
def mathAlt2 (s : Str) : Option ℕ :=
  if s.head? = some '$' then
    let run := s.tail.takeWhile (fun c => !(c = '$' || c = '\n'))
    if 1 ≤ run.length ∧ (s.tail.drop run.length).head? = some '$' then
      some (run.length + 2)
    else none
  else none

/-- `_MATH_RE = (\$\$[^$]+\$\$|\$[^$\n]+\$)` tried at the current
position: the `$$...$$` alternative first, then `$...$`. -/
def mathMatchLen (s : Str) : Option ℕ :=
  if (lit "$$").isPrefixOf s then
    let run := (s.drop 2).takeWhile (· ≠ '$')
    if 1 ≤ run.length ∧ (lit "$$").isPrefixOf ((s.drop 2).drop run.length) then
      some (run.length + 4)
    else mathAlt2 s
  else mathAlt2 s

/-- `_MATH_RE.sub(_repl, text)` (src/app.py:217-219): replace every
leftmost non-overlapping math region by `_latex_to_rl` of the whole
match. Fuelled by the text length (every step consumes ≥ 1 character). -/
def mathSubGo : ℕ → Str → Str
  | 0, s => s
  | f + 1, s =>
    match s with
    | [] => []
    | c :: t =>
      match mathMatchLen (c :: t) with
      | some n => latex_to_rl ((c :: t).take n) ++ mathSubGo f ((c :: t).drop n)
      | none => c :: mathSubGo f t

def mathSub (s : Str) : Str := mathSubGo s.length s

/-- The tag names of `tag_re`, in the alternation order of the pattern. -/
def tagNames : List Str :=
  [lit "super", lit "sub", lit "b", lit "i", lit "font"]

/-- Match of `</?(?:super|sub|b|i|font)[^>]*>` at the current position
(no tag name is a prefix of an earlier one, and the greedy `[^>]*` must
reach a `>`, so the first-fit scan is exact). -/
def tagMatchLen (s : Str) : Option ℕ :=
  if s.head? = some '<' then
    let slash : ℕ := if s.tail.head? = some '/' then 1 else 0
    let t1 := s.tail.drop slash
    match tagNames.find? (fun nm => nm.isPrefixOf t1) with
    | some nm =>
      let rest := t1.drop nm.length
      let run := rest.takeWhile (· ≠ '>')
      if run.length < rest.length then
        some (1 + slash + nm.length + run.length + 1)
      else none
    | none => none
  else none

/-- Match of `(amp|lt|gt|quot|#\d+);` just after an original `&`: the
entity-fix pass `re.sub(r'&amp;(amp|lt|gt|quot|#\d+);', r'&\1;', ...)`
keeps exactly the `&` characters followed by such a marker verbatim. -/
def entMarkerLen (t : Str) : Option ℕ :=
  if (lit "amp;").isPrefixOf t then some 4
  else if (lit "lt;").isPrefixOf t then some 3
  else if (lit "gt;").isPrefixOf t then some 3
  else if (lit "quot;").isPrefixOf t then some 5
  else if t.head? = some '#' then
    let ds := t.tail.takeWhile (fun c => '0' ≤ c && c ≤ '9')
    if 1 ≤ ds.length ∧ (t.tail.drop ds.length).head? = some ';' then
      some (1 + ds.length + 1)
    else none
  else none

/-- The escape pass of `_process` (src/app.py:221-231): split at the
generated tags, keep tag parts verbatim, and in the text parts replace
`&` by `&amp;`, revert the double escape of pre-existing entities, and
replace `<` by `&lt;` (`>` is left alone). Neither a tag pattern nor an
entity marker can span a part boundary (a marker has no `<`, a tag
starts with one), so split-escape-join is one left-to-right scan. -/
def processTagsGo : ℕ → Str → Str
  | 0, s => s
  | f + 1, s =>
    match s with
    | [] => []
    | c :: t =>
      match tagMatchLen (c :: t) with
      | some n => (c :: t).take n ++ processTagsGo f ((c :: t).drop n)
      | none =>
        if c = '&' then
          match entMarkerLen t with
          | some k => c :: (t.take k ++ processTagsGo f (t.drop k))
          | none => lit "&amp;" ++ processTagsGo f t
        else if c = '<' then lit "&lt;" ++ processTagsGo f t
        else c :: processTagsGo f t

def processTags (s : Str) : Str := processTagsGo s.length s

/-- Lazy body of `\*\*(.+?)\*\*` / `\*(.+?)\*`: the least `k ≥ 1` such
that the `k` body characters contain no newline and the closing
delimiter follows. -/
def lazyBody (close : Str) (u : Str) : Option ℕ :=
  (List.range' 1 u.length).find?
    (fun k => (u.take k).all (fun c => !(c = '\n')) && close.isPrefixOf (u.drop k))

/-- `re.sub(r'\*\*(.+?)\*\*', r'<b>\1</b>', out)` (src/app.py:233). -/
def boldSubGo : ℕ → Str → Str
  | 0, s => s
  | f + 1, s =>
    match s with
    | [] => []
    | c :: t =>
      if (lit "**").isPrefixOf (c :: t) then
        match lazyBody (lit "**") ((c :: t).drop 2) with
        | some k =>
          lit "<b>" ++ ((c :: t).drop 2).take k ++ lit "</b>" ++
            boldSubGo f (((c :: t).drop 2).drop (k + 2))
        | none => c :: boldSubGo f t
      else c :: boldSubGo f t

def boldSub (s : Str) : Str := boldSubGo s.length s

/-- `re.sub(r'\*(.+?)\*', r'<i>\1</i>', out)` (src/app.py:234). -/
def italSubGo : ℕ → Str → Str
  | 0, s => s
  | f + 1, s =>
    match s with
    | [] => []
    | c :: t =>
      if c = '*' then
        match lazyBody (lit "*") t with
        | some k =>
          lit "<i>" ++ t.take k ++ lit "</i>" ++ italSubGo f (t.drop (k + 1))
        | none => c :: italSubGo f t
      else c :: italSubGo f t

def italSub (s : Str) : Str := italSubGo s.length s

/-- `_process(text)` (src/app.py:210-234). -/
def processText (text : Str) : Str :=
  let t1 := pyReplace (lit "\\_") (lit "_") text
  let t2 := pyReplace (lit "\\-") (lit "-") t1
  let t3 := pyReplace (lit "\\%") (lit "%") t2
  let converted := mathSub t3
  let out := processTags converted
  italSub (boldSub out)

/-- C3 (amended). For every expression free of `[` (the character that
enables the `\sqrt[...]{...}` root branch, the converter's only verbatim
splice), `_latex_to_rl` does not raise and produces well-formed markup:
every `&` begins `&amp;`/`&lt;`/`&gt;`, every `<` and `>` belongs to a
generated `<super>`/`<sub>` tag — at every recursion fuel. Unrecognized
`\command` sequences become a single space rather than crashing, and the
full `_process` pipeline renders a plain math paragraph as expected. The
original "escaped exactly once" claim is refuted separately. -/
theorem C3_latex_escaping_amended :
    (∀ expr : Str, '[' ∉ expr → escOK (latex_to_rl expr) = true) ∧
    (∀ (g : ℕ) (expr : Str), '[' ∉ expr → escOK (latexRlF g expr) = true) ∧
    latex_to_rl (lit "a \\unknowncmd b") = lit "a b" ∧
    processText (lit "$x^\x7b2\x7d$ and $a_\x7bn\x7d$") =
      lit "x<super>2</super> and a<sub>n</sub>" :=
  ⟨fun expr h => latexRlF_escOK (expr.length + 1) expr h, latexRlF_escOK,
    by set_option maxRecDepth 8000 in decide,
    by set_option maxRecDepth 8000 in decide⟩

/-- C3 witness: the amended safety theorem applied at the `[`-free
expression `$x^{2+y}$`. -/
theorem C3_latex_escaping_amended_witness :
    '[' ∉ lit "$x^\x7b2+y\x7d$" ∧
    escOK (latex_to_rl (lit "$x^\x7b2+y\x7d$")) = true :=
  ⟨by decide, C3_latex_escaping_amended.1 (lit "$x^\x7b2+y\x7d$") (by decide)⟩

/-- C3 counterexample: the three XML-significant characters are NOT
escaped exactly once. The `^` argument of `$x^{a<b}$` is escaped twice —
`_latex_to_rl` escapes the recursive conversion again, and `_process`'s
entity-fix pass keeps the double escape `&amp;lt;` — and the `\sqrt`
root argument of `$\sqrt[a>b]{2}$` is spliced verbatim, leaking a bare
`>` that no later pass escapes. -/
theorem C3_latex_escaping_counterexample :
    processText (lit "$x^\x7ba<b\x7d$") = lit "x<super>a&amp;lt;b</super>" ∧
    strContains (lit "&amp;lt;") (lit "x<super>a&amp;lt;b</super>") = true ∧
    processText (lit "$\\sqrt[a>b]\x7b2\x7d$") = lit "a>b√(2)" ∧
    strContains (lit ">") (lit "a>b√(2)") = true ∧
    strContains (lit "&gt;") (lit "a>b√(2)") = false ∧
    escOK (lit "a>b√(2)") = false := by
  refine ⟨?_, by decide, ?_, by decide, by decide, by decide⟩ <;>
    set_option maxRecDepth 8000 in decide

/-!
## Line-type detectors of the layout engine (src/app.py:404-461, 562-563)

Lines come from `text.split('\n')`, so they never contain a newline.
`[A-Z]` under `re.IGNORECASE` is transcribed as an ASCII letter of either
case.
-/

def mSp : M := mCls isPySpace

def isLetterCh (c : Char) : Bool :=
  ('A' ≤ c && c ≤ 'Z') || ('a' ≤ c && c ≤ 'z')

def mLet : M := mCls isLetterCh

def isDigitCh (c : Char) : Bool := '0' ≤ c && c ≤ '9'

def mDig : M := mCls isDigitCh

def mWrd : M := mCls (fun c => isLetterCh c || isDigitCh c || c = '_')

/-- `[A-Z]{2,4}` (case-folded). -/
def mLet24 : M := mSeqs [mLet, mLet, mOpt mLet, mOpt mLet]

def letterAD (c : Char) : Bool :=
  pyLowerChar c = 'a' || pyLowerChar c = 'b' ||
  pyLowerChar c = 'c' || pyLowerChar c = 'd'

/-- `_is_table_row(s)`: `'|' in s and s.strip().startswith('|')`. -/
def is_table_row (line : Str) : Bool :=
  strContains (lit "|") line && (lit "|").isPrefixOf (pyStrip line)

/-- `_is_divider`: `^\|[\s\-:|]+\|` on the stripped line. -/
def dividerPat : M :=
  mSeqs [mChar '|',
    mMany1 (mCls (fun c => isPySpace c || c = '-' || c = ':' || c = '|')),
    mChar '|']

def is_divider (line : Str) : Bool := reMatch dividerPat (pyStrip line)

/-- `_is_hrule`: strip, then `len(s) > 3 and all(c in '-=_' for c in s)`. -/
def is_hrule (line : Str) : Bool :=
  let s := pyStrip line
  decide (3 < s.length) && s.all (fun c => c = '-' || c = '=' || c = '_')

/-- `_HDR_SKIP`: `^(School|Subject|Class|Board|Total\s*Marks|Time\s*Allowed|Date)\s*[:/]`, `re.I`. -/
def hdrSkipPat : M :=
  mSeqs [mAlts [mStrCI "School", mStrCI "Subject", mStrCI "Class",
      mStrCI "Board", mSeqs [mStrCI "Total", mMany mSp, mStrCI "Marks"],
      mSeqs [mStrCI "Time", mMany mSp, mStrCI "Allowed"], mStrCI "Date"],
    mMany mSp, mCls (fun c => c = ':' || c = '/')]

/-- `_FIG_JUNK` (src/app.py:432-461): the 25 alternatives in source
order, under `re.IGNORECASE`. -/
def figJunkPat : M :=
  mAlts
    [mSeqs [mStrCI "Figure", mMany mSp, mChar ':'],
     mSeqs [mStrCI "Triangle", mMany1 mSp, mLet24, mEnd],
     mSeqs [mStrCI "Trapezium", mMany1 mSp, mLet24, mEnd],
     mSeqs [mStrCI "Right", mOpt (mCls (fun c => isPySpace c || c = '-')),
       mStrCI "angle", mOpt (mStrCI "d"), mMany1 mSp,
       mAlt (mStrCI "Triangle") (mStrCI "Iso")],
     mSeqs [mStrCI "Right", mMany1 mSp, mStrCI "Angle", mMany1 mSp,
       mStrCI "Triangle", mEnd],
     mSeqs [mStrCI "Altitude",
       mOpt (mSeqs [mMany1 mSp, mStrCI "from", mMany1 mSp, mMany1 mWrd,
         mOpt (mSeqs [mMany1 mSp, mStrCI "to", mMany1 mSp, mMany1 mWrd])]),
       mEnd],
     mSeqs [mStrCI "Angle", mMany1 mSp, mLet, mMany mSp, mOpt (mChar '='),
       mMany mSp, mMany1 mDig, mOpt (mChar '°'), mEnd],
     mSeqs [mStrCI "Angle", mMany1 mSp, mLet, mMany1 mSp, mMany1 mDig,
       mOpt (mChar '°'), mEnd],
     mSeqs [mChar '∠', mLet, mMany mSp, mChar '=', mMany mSp, mMany1 mDig,
       mOpt (mChar '°'), mEnd],
     mSeqs [mMany1 mLet, mMany1 mSp, mStrCI "is", mMany1 mSp,
       mAlts [mStrCI "altitude", mStrCI "median", mStrCI "midpoint",
         mStrCI "perpendicular"],
       mMany1 mSp, mStrCI "to", mMany1 mSp, mMany1 mLet],
     mSeqs [mStrCI "Side", mMany1 mSp, mLet, mLet, mEnd],
     mSeqs [mStrCI "Parallel", mMany1 mSp, mLet, mLet, mEnd],
     mSeqs [mStrCI "Diagonal", mOpt (mStrCI "s"), mMany1 mSp, mLet, mLet,
       mMany1 mSp, mStrCI "and", mMany1 mSp, mLet, mLet],
     mSeqs [mLet, mLet, mMany1 mSp, mStrCI "Parallel", mMany1 mSp,
       mStrCI "to", mMany1 mSp, mLet, mLet, mEnd],
     mSeqs [mMany1 mLet, mMany1 mSp, mStrCI "on", mMany1 mSp, mLet, mLet,
       mEnd],
     mSeqs [mMany1 mLet, mMany1 mSp, mStrCI "Parallel", mMany1 mSp,
       mStrCI "to", mMany1 mSp, mMany1 mLet, mEnd],
     mSeqs [mStrCI "Right", mMany1 mSp,
       mAlt (mSeqs [mStrCI "angle", mOpt (mStrCI "s")])
         (mSeqs [mStrCI "angle", mMany1 mSp, mStrCI "at", mMany1 mSp,
           mStrCI "vertex"])],
     mSeqs [mStrCI "Perpendicular", mEnd],
     mSeqs [mStrCI "Distance", mMany1 mSp, mStrCI "from", mMany1 mSp, mLet,
       mMany1 mSp, mStrCI "to", mMany1 mSp, mMany1 mLet],
     mSeqs [mAtLeast (mSeqs [mMany1 mDig, mOpt (mChar '°'), mMany mSp]) 3,
       mEnd],
     mAtLeast (mAlt (mStr "140\"")
       (mSeqs [mStr "140", mMany mSp, mOpt (mChar '"'), mMany mSp])) 2,
     mSeqs [mCls (fun c => c = 'θ' || c = 'Θ'), mMany mSp, mChar '=',
       mMany mSp, mMany1 mDig, mOpt (mChar '°'), mMany mSp, mEnd],
     mSeqs [mCls (fun c => c = 'α' || c = 'Α'), mMany mSp, mChar '=',
       mMany mSp, mMany1 mDig, mOpt (mChar '°'), mMany mSp, mEnd],
     mSeqs [mLet, mStrCI "M", mMany mSp, mStrCI "is", mMany1 mSp,
       mStrCI "altitude"],
     mAtLeast (mSeqs [mStrCI "Angle", mMany1 mSp, mLet, mMany mSp,
       mOpt (mChar '\n')]) 2]

/-- `re.match(r'^Figure\s*:\s*(.+)', s, re.I)` as a guard. -/
def figLabelPat : M :=
  mSeqs [mStrCI "Figure", mMany mSp, mChar ':', mMany mSp,
    mMany1 (mCls (· ≠ '\n'))]

/-- The diagram-marker guard: `s.startswith('[DIAGRAM:') or s.lower().startswith('[draw')`. -/
def diagGuard (s : Str) : Bool :=
  pyStartsWith (lit "[DIAGRAM:") s || pyStartsWith (lit "[draw") (pyLower s)

/-- `_is_general_instr`: `^(GENERAL INSTRUCTIONS|General Instructions|Instructions)\s*$`. -/
def generalInstrPat : M :=
  mSeqs [mAlts [mStr "GENERAL INSTRUCTIONS", mStr "General Instructions",
    mStr "Instructions"], mMany mSp, mEnd]

def is_general_instr (s : Str) : Bool := reMatch generalInstrPat (pyStrip s)

/-- `_is_sec_hdr`: `^(SECTION|Section|PART|Part)\s+[A-Da-d](\s|[-:]|$)` or
`^(GENERAL INSTRUCTIONS|General Instructions|Instructions|Note:|NOTE:)\s*$`,
on the stripped line. -/
def secHdr1Pat : M :=
  mSeqs [mAlts [mStr "SECTION", mStr "Section", mStr "PART", mStr "Part"],
    mMany1 mSp, mCls letterAD,
    mAlts [mCls isPySpace, mCls (fun c => c = '-' || c = ':'), mEnd]]

def secHdr2Pat : M :=
  mSeqs [mAlts [mStr "GENERAL INSTRUCTIONS", mStr "General Instructions",
    mStr "Instructions", mStr "Note:", mStr "NOTE:"], mMany mSp, mEnd]

def is_sec_hdr (line : Str) : Bool :=
  let s := pyStrip line
  reMatch secHdr1Pat s || reMatch secHdr2Pat s

/-- `^\d+\.\s+` (the line pattern of `_is_instr_line`; the `in_instr`
conjunct lives in the classifier). -/
def instrLinePat : M := mSeqs [mMany1 mDig, mChar '.', mMany1 mSp]

def openBr (c : Char) : Bool := c = '(' || c = '['

def closeBrDot (c : Char) : Bool := c = ')' || c = ']' || c = '.'

/-- `opt_m = re.match(r'^\s*[\(\[]\s*([a-dA-D])\s*[\)\]\.]?\s+(.+)', s)`,
returning `(letter, group 2)`. The optional closing bracket is greedy; if
taking it starves `\s+`, the engine backtracks and the bracket becomes
the first body character (fed from the `\s*` run before it). `(.+)` is
greedy, so the body is the remainder; when the remainder after `\s+` is
empty, `\s+` gives one space back as the body. -/
def optParse (s : Str) : Option (Char × Str) :=
  let u1 := s.dropWhile isPySpace
  if (u1.head?.map openBr).getD false then
    let u2 := u1.tail.dropWhile isPySpace
    if (u2.head?.map letterAD).getD false then
      let L := u2.headD ' '
      let u3 := u2.tail
      let m := (u3.takeWhile isPySpace).length
      let u4 := u3.drop m
      if (u4.head?.map closeBrDot).getD false then
        let v := u4.tail
        let m2 := (v.takeWhile isPySpace).length
        let rest := v.drop m2
        if 1 ≤ m2 ∧ rest ≠ [] then some (L, rest)
        else if 2 ≤ m2 then some (L, [' '])
        else if 1 ≤ m then some (L, u4)
        else none
      else
        if 1 ≤ m ∧ u4 ≠ [] then some (L, u4)
        else if 2 ≤ m then some (L, [' '])
        else none
    else none
  else none

/-- `^(Q\.?\s*)?\d+[\.)\]]` — the shared head of the question-number
patterns; returns the suffix after the closing punctuation. -/
def qNumClose (s : Str) : Option Str :=
  let u :=
    if s.head? = some 'Q' then
      let u1 := s.tail
      (if u1.head? = some '.' then u1.tail else u1).dropWhile isPySpace
    else s
  let digits := u.takeWhile isDigitCh
  if digits.isEmpty then none
  else
    let u3 := u.drop digits.length
    if (u3.head?.map closeBrDot).getD false then some u3.tail else none

/-- `re.match(r'^(Q\.?\s*)?\d+[\.)\]]\s', s)` — the exclusion guard of
the option branches. -/
def qnumPrefix (s : Str) : Bool :=
  match qNumClose s with
  | some u4 => (u4.head?.map isPySpace).getD false
  | none => false

/-- `q_m = re.match(r'^(Q\.?\s*)?(\d+)[\.)\]]\s+(.+)', s)` as a guard. -/
def qMatch (s : Str) : Bool :=
  match qNumClose s with
  | some u4 =>
    let m := (u4.takeWhile isPySpace).length
    decide (1 ≤ m) && (!(u4.drop m).isEmpty || decide (2 ≤ m))
  | none => false

/-- `sub_m = re.match(r'^\s*[\(\[]\s*([a-z])\s*[\)\]]\s+(.+)', s)` as a
guard (closing bracket mandatory, lower-case letter only). -/
def subMatch (s : Str) : Bool :=
  let u1 := s.dropWhile isPySpace
  if (u1.head?.map openBr).getD false then
    let u2 := u1.tail.dropWhile isPySpace
    if (u2.head?.map (fun c => 'a' ≤ c && c ≤ 'z')).getD false then
      let u3 := u2.tail
      let m := (u3.takeWhile isPySpace).length
      let u4 := u3.drop m
      if (u4.head?.map (fun c => c = ')' || c = ']')).getD false then
        let v := u4.tail
        let m2 := (v.takeWhile isPySpace).length
        decide (1 ≤ m2) && (!(v.drop m2).isEmpty || decide (2 ≤ m2))
      else false
    else false
  else false

/-- The lookahead `(?=\s*[\(\[][a-dA-D][\)\]\.]|$)` of the multi-option
pattern. -/
def multiLookOk (v : Str) : Bool :=
  (match v.dropWhile isPySpace with
   | c1 :: c2 :: c3 :: _ => openBr c1 && letterAD c2 && closeBrDot c3
   | _ => false) || v.isEmpty || decide (v = ['\n'])

/-- One route (with or without the optional closing bracket) of the
multi-option pattern after `[\(\[][a-dA-D]`: greedy `\s+` (largest run
first), then the lazy `([^(\[]+?)` body (smallest first) up to the
lookahead. Returns the consumed length after the letter. -/
def multiTry (u : Str) (useClose : Bool) : Option ℕ :=
  if useClose && !((u.head?.map closeBrDot).getD false) then none
  else
    let off : ℕ := if useClose then 1 else 0
    let w := u.drop off
    let jmax := (w.takeWhile isPySpace).length
    ((List.range jmax).map (fun d => jmax - d)).findSome? (fun j =>
      (List.range' 1 w.length).findSome? (fun k =>
        if decide (((w.drop j).take k).length = k) &&
            ((w.drop j).take k).all (fun c => !openBr c) &&
            multiLookOk (w.drop (j + k))
        then some (off + j + k) else none))

/-- `re.findall(r'[\(\[]([a-dA-D])[\)\]\.]?\s+([^(\[]+?)(?=\s*[\(\[][a-dA-D][\)\]\.]|$)', s)`
— one match attempt at the current position. -/
def multiMatchAt (s : Str) : Option ℕ :=
  if (s.head?.map openBr).getD false &&
      (s.tail.head?.map letterAD).getD false then
    let u := s.tail.tail
    match multiTry u true with
    | some n => some (2 + n)
    | none =>
      match multiTry u false with
      | some n => some (2 + n)
      | none => none
  else none

/-- The number of `findall` matches (leftmost, non-overlapping). -/
def multiCountGo : ℕ → Str → ℕ
  | 0, _ => 0
  | f + 1, s =>
    match s with
    | [] => 0
    | c :: t =>
      match multiMatchAt (c :: t) with
      | some n => 1 + multiCountGo f ((c :: t).drop n)
      | none => multiCountGo f t

def multiCount (s : Str) : ℕ := multiCountGo s.length s

/-!
## The classification chain of `create_exam_pdf`'s main loop
(src/app.py:565-754): one branch fires per line, by sequential
early-return checks in source order.
-/

inductive LineClass where
  | table | blank | hdrSkip | figJunk | figLabel | hrule | diagram
  | generalInstr | secHdr | instrLine | mcqOption | multiOpt | qStem
  | subPart | plain
deriving DecidableEq

/-- The branch guards of the loop body, in source order (the final
catch-all is literally `true`). `line` is the line after the `\-`/`\_`
un-escapes; `s` is its stripped form. -/
def lineGuards (inInstr : Bool) (line : Str) : List Bool :=
  let s := pyStrip line
  [is_table_row line,
   s.isEmpty,
   reMatch hdrSkipPat s,
   reMatch figJunkPat s,
   reMatch figLabelPat s,
   is_hrule line,
   diagGuard s,
   is_general_instr s,
   is_sec_hdr line && !is_general_instr s,
   inInstr && reMatch instrLinePat (pyStrip s),
   (optParse s).isSome && !qnumPrefix s,
   decide (2 ≤ multiCount s) && !qnumPrefix s,
   qMatch s && !inInstr,
   subMatch s && !inInstr,
   true]

def lineClasses : List LineClass :=
  [.table, .blank, .hdrSkip, .figJunk, .figLabel, .hrule, .diagram,
   .generalInstr, .secHdr, .instrLine, .mcqOption, .multiOpt, .qStem,
   .subPart, .plain]

/-- The classification a line receives from the loop's sequential
early-return checks. -/
def classify (inInstr : Bool) (line : Str) : LineClass :=
  let s := pyStrip line
  if is_table_row line then .table
  else if s.isEmpty then .blank
  else if reMatch hdrSkipPat s then .hdrSkip
  else if reMatch figJunkPat s then .figJunk
  else if reMatch figLabelPat s then .figLabel
  else if is_hrule line then .hrule
  else if diagGuard s then .diagram
  else if is_general_instr s then .generalInstr
  else if is_sec_hdr line && !is_general_instr s then .secHdr
  else if inInstr && reMatch instrLinePat (pyStrip s) then .instrLine
  else if (optParse s).isSome && !qnumPrefix s then .mcqOption
  else if decide (2 ≤ multiCount s) && !qnumPrefix s then .multiOpt
  else if qMatch s && !inInstr then .qStem
  else if subMatch s && !inInstr then .subPart
  else .plain

/-!
## Option-grouping state machine (claims C6/C2)

The loop state that the claims are about: the accumulated table rows,
the `in_table` / `in_instr` flags and the pending MCQ options.
`stepLine` processes one raw line exactly as the loop body does, and
returns the option groups flushed during that line (each group is the
`pending_opts` list passed to `_opts_table`).
-/

structure LayoutState where
  tblRows : List (List Str) := []
  inTable : Bool := false
  pending : List (Char × Str) := []
  inInstr : Bool := false
deriving DecidableEq

/-- `line = re.sub(r'\\_', '_', re.sub(r'\\-', '-', raw.rstrip()))`. -/
def lineOf (raw : Str) : Str :=
  pyReplace (lit "\\_") (lit "_") (pyReplace (lit "\\-") (lit "-") (pyRstrip raw))

/-- `flush_opts()`: emit the pending options as one group if nonempty. -/
def flushOpts (st : LayoutState) :
    LayoutState × List (List (Char × Str)) :=
  if st.pending.isEmpty then (st, [])
  else ({ st with pending := [] }, [st.pending])

/-- The table cells `[c.strip() for c in line.split('|') if c.strip()]`. -/
def cellsOf (line : Str) : List Str :=
  ((line.splitOn '|').map pyStrip).filter (fun c => !c.isEmpty)

/-- One iteration of the loop body (src/app.py:565-754), restricted to
the state and events the layout claims are about. A non-table line first
flushes an open table (`elif in_table`), then acts per its class. -/
def stepLine (st : LayoutState) (raw : Str) :
    LayoutState × List (List (Char × Str)) :=
  let line := lineOf raw
  let s := pyStrip line
  match classify st.inInstr line with
  | .table =>
    if is_divider line then (st, [])
    else
      let f := flushOpts st
      let cells := cellsOf line
      if cells.isEmpty then (f.1, f.2)
      else ({ f.1 with tblRows := f.1.tblRows ++ [cells], inTable := true }, f.2)
  | cls =>
    let st0 := if st.inTable then { st with tblRows := [], inTable := false } else st
    match cls with
    | .table => (st0, [])
    | .blank => flushOpts st0
    | .hdrSkip => (st0, [])
    | .figJunk => (st0, [])
    | .figLabel => flushOpts st0
    | .hrule => flushOpts st0
    | .diagram => flushOpts st0
    | .generalInstr =>
      let f := flushOpts st0
      ({ f.1 with inInstr := true }, f.2)
    | .secHdr =>
      let f := flushOpts st0
      ({ f.1 with inInstr := false }, f.2)
    | .instrLine => (st0, [])
    | .mcqOption =>
      match optParse s with
      | some lv =>
        let p := st0.pending ++ [(pyLowerChar lv.1, processText lv.2)]
        if 4 ≤ p.length then ({ st0 with pending := [], inInstr := false }, [p])
        else ({ st0 with pending := p, inInstr := false }, [])
      | none => (st0, [])
    | .multiOpt =>
      let f := flushOpts st0
      ({ f.1 with inInstr := false }, f.2)
    | .qStem =>
      let f := flushOpts st0
      ({ f.1 with inInstr := false }, f.2)
    | .subPart => flushOpts st0
    | .plain => flushOpts st0

/-- The loop over all lines, collecting the flushed option groups. -/
def runLines : LayoutState → List Str → LayoutState × List (List (Char × Str))
  | st, [] => (st, [])
  | st, l :: ls =>
    ((runLines (stepLine st l).1 ls).1,
      (stepLine st l).2 ++ (runLines (stepLine st l).1 ls).2)

/-- The whole-document run: the loop over all lines followed by the
final `flush_opts()` (src/app.py:755). -/
def runDoc (lines : List Str) : List (List (Char × Str)) :=
  (runLines {} lines).2 ++ (flushOpts (runLines {} lines).1).2

lemma getD_findIdx_lt :
    ∀ (l : List Bool) (i : ℕ), i < l.findIdx id → l.getD i true = false := by
  intro l
  induction l with
  | nil => intro i h; simp [List.findIdx_nil] at h
  | cons b t ih =>
    intro i h
    rw [List.findIdx_cons] at h
    cases hb : id b with
    | true =>
      rw [hb] at h
      simp at h
    | false =>
      rw [hb] at h
      simp only [cond_false] at h
      cases i with
      | zero =>
        have hbf : b = false := by simpa [id] using hb
        simp [hbf]
      | succ i =>
        simpa using ih i (by omega)

/-- The classification function equals the class of the first guard that
holds, in source order — the sequential early-return semantics. -/
lemma classify_spec (inInstr : Bool) (line : Str) :
    classify inInstr line =
      lineClasses.getD ((lineGuards inInstr line).findIdx id)
        LineClass.plain := by
  cases g1 : is_table_row line with
  | true => simp [classify, lineGuards, lineClasses, List.findIdx_cons, List.getD_cons_zero, List.getD_cons_succ, g1]
  | false =>
    cases g2 : (pyStrip line).isEmpty with
    | true => simp [classify, lineGuards, lineClasses, List.findIdx_cons, List.getD_cons_zero, List.getD_cons_succ, g1, g2]
    | false =>
      cases g3 : reMatch hdrSkipPat (pyStrip line) with
      | true => simp [classify, lineGuards, lineClasses, List.findIdx_cons, List.getD_cons_zero, List.getD_cons_succ, g1, g2, g3]
      | false =>
        cases g4 : reMatch figJunkPat (pyStrip line) with
        | true => simp [classify, lineGuards, lineClasses, List.findIdx_cons, List.getD_cons_zero, List.getD_cons_succ, g1, g2, g3, g4]
        | false =>
          cases g5 : reMatch figLabelPat (pyStrip line) with
          | true => simp [classify, lineGuards, lineClasses, List.findIdx_cons, List.getD_cons_zero, List.getD_cons_succ, g1, g2, g3, g4, g5]
          | false =>
            cases g6 : is_hrule line with
            | true => simp [classify, lineGuards, lineClasses, List.findIdx_cons, List.getD_cons_zero, List.getD_cons_succ, g1, g2, g3, g4, g5, g6]
            | false =>
              cases g7 : diagGuard (pyStrip line) with
              | true => simp [classify, lineGuards, lineClasses, List.findIdx_cons, List.getD_cons_zero, List.getD_cons_succ, g1, g2, g3, g4, g5, g6, g7]
              | false =>
                cases g8 : is_general_instr (pyStrip line) with
                | true => simp [classify, lineGuards, lineClasses, List.findIdx_cons, List.getD_cons_zero, List.getD_cons_succ, g1, g2, g3, g4, g5, g6, g7, g8]
                | false =>
                  cases g9 : is_sec_hdr line && !is_general_instr (pyStrip line) with
                  | true =>
                    simp only [Bool.and_eq_true_iff, Bool.not_eq_true', decide_eq_true_iff] at g9
                    simp [classify, lineGuards, lineClasses, List.findIdx_cons, List.getD_cons_zero, List.getD_cons_succ, g1, g2, g3, g4, g5, g6, g7, g8, g9.1, g9.2]
                  | false =>
                    have g9s : is_sec_hdr line = false := by revert g9; simp [g8]
                    cases g10 : inInstr && reMatch instrLinePat (pyStrip (pyStrip line)) with
                    | true =>
                      simp only [Bool.and_eq_true_iff, Bool.not_eq_true', decide_eq_true_iff] at g10
                      simp [classify, lineGuards, lineClasses, List.findIdx_cons, List.getD_cons_zero, List.getD_cons_succ, g1, g2, g3, g4, g5, g6, g7, g8, g9, g9s, g10.1, g10.2]
                    | false =>
                      have g10p : ¬(inInstr = true ∧ reMatch instrLinePat (pyStrip (pyStrip line)) = true) := by revert g10; simp
                      cases g11 : (optParse (pyStrip line)).isSome && !qnumPrefix (pyStrip line) with
                      | true =>
                        simp only [Bool.and_eq_true_iff, Bool.not_eq_true', decide_eq_true_iff] at g11
                        simp [classify, lineGuards, lineClasses, List.findIdx_cons, List.getD_cons_zero, List.getD_cons_succ, g1, g2, g3, g4, g5, g6, g7, g8, g9, g9s, g10, g10p, g11.1, g11.2]
                      | false =>
                        have g11p : ¬((optParse (pyStrip line)).isSome = true ∧ qnumPrefix (pyStrip line) = false) := by revert g11; simp
                        cases g12 : decide (2 ≤ multiCount (pyStrip line)) && !qnumPrefix (pyStrip line) with
                        | true =>
                          simp only [Bool.and_eq_true_iff, Bool.not_eq_true', decide_eq_true_iff] at g12
                          have h11s : (optParse (pyStrip line)).isSome = false := by
                            revert g11
                            simp [g12.2]
                          simp [classify, lineGuards, lineClasses, List.findIdx_cons, List.getD_cons_zero, List.getD_cons_succ, g1, g2, g3, g4, g5, g6, g7, g8, g9, g9s, g10, g10p, g11, g11p, g12.1, g12.2, h11s]
                        | false =>
                          have g12p : ¬(2 ≤ multiCount (pyStrip line) ∧ qnumPrefix (pyStrip line) = false) := by revert g12; simp
                          cases g13 : qMatch (pyStrip line) && !inInstr with
                          | true =>
                            simp only [Bool.and_eq_true_iff, Bool.not_eq_true', decide_eq_true_iff] at g13
                            simp [classify, lineGuards, lineClasses, List.findIdx_cons, List.getD_cons_zero, List.getD_cons_succ, g1, g2, g3, g4, g5, g6, g7, g8, g9, g9s, g10, g10p, g11, g11p, g12, g12p, g13.1, g13.2]
                          | false =>
                            have g13p : ¬(qMatch (pyStrip line) = true ∧ inInstr = false) := by revert g13; simp
                            cases g14 : subMatch (pyStrip line) && !inInstr with
                            | true =>
                              simp only [Bool.and_eq_true_iff, Bool.not_eq_true', decide_eq_true_iff] at g14
                              have h13s : qMatch (pyStrip line) = false := by
                                revert g13
                                simp [g14.2]
                              simp [h13s, classify, lineGuards, lineClasses, List.findIdx_cons, List.getD_cons_zero, List.getD_cons_succ, g1, g2, g3, g4, g5, g6, g7, g8, g9, g9s, g10, g10p, g11, g11p, g12, g12p, g13, g13p, g14.1, g14.2]
                            | false =>
                              have g14p : ¬(subMatch (pyStrip line) = true ∧ inInstr = false) := by revert g14; simp
                              simp [classify, lineGuards, lineClasses, List.findIdx_cons, List.getD_cons_zero, List.getD_cons_succ, g1, g2, g3, g4, g5, g6, g7, g8, g9, g9s, g10, g10p, g11, g11p, g12, g12p, g13, g13p, g14, g14p]

lemma lineGuards_findIdx_le (inInstr : Bool) (line : Str) :
    (lineGuards inInstr line).findIdx id ≤ 14 := by
  have h : (lineGuards inInstr line).findIdx id <
      (lineGuards inInstr line).length :=
    List.findIdx_lt_length_of_exists ⟨true, by simp [lineGuards], rfl⟩
  have hl : (lineGuards inInstr line).length = 15 := by simp [lineGuards]
  omega

lemma lineClasses_idx_secHdr (n : ℕ) (hle : n ≤ 14)
    (h : lineClasses.getD n LineClass.plain = LineClass.secHdr) : n = 8 := by
  interval_cases n <;> simp [lineClasses] at h ⊢

lemma lineClasses_idx_mcq (n : ℕ) (hle : n ≤ 14)
    (h : lineClasses.getD n LineClass.plain = LineClass.mcqOption) : n = 10 := by
  interval_cases n <;> simp [lineClasses] at h ⊢

lemma lineClasses_idx_qStem (n : ℕ) (hle : n ≤ 14)
    (h : lineClasses.getD n LineClass.plain = LineClass.qStem) : n = 12 := by
  interval_cases n <;> simp [lineClasses] at h ⊢

lemma lineClasses_idx_plain (n : ℕ) (hle : n ≤ 14)
    (h : lineClasses.getD n LineClass.plain = LineClass.plain) : n = 14 := by
  interval_cases n <;> simp [lineClasses] at h ⊢

/-- C2. Line classification is a total function implemented as
sequential early-return checks: the classifier always equals the class
of the first guard that holds (the final catch-all guard is literally
`true`, so exactly one branch fires — never zero, never two), and the
claimed priorities hold: a table row beats everything, a line classified
as section header is not a diagram placeholder or table row, an MCQ
option is none of those, a question stem (the branch that renders
fill-in-the-blank stems) is not an MCQ option, and a plain line matched
no earlier guard at all. -/
theorem C2_line_classification_total :
    (∀ (inInstr : Bool) (line : Str),
      (lineGuards inInstr line).getLastD false = true ∧
      classify inInstr line =
        lineClasses.getD ((lineGuards inInstr line).findIdx id)
          LineClass.plain) ∧
    (∀ (inInstr : Bool) (line : Str), is_table_row line = true →
      classify inInstr line = LineClass.table) ∧
    (∀ (inInstr : Bool) (line : Str),
      classify inInstr line = LineClass.secHdr →
      diagGuard (pyStrip line) = false ∧ is_table_row line = false) ∧
    (∀ (inInstr : Bool) (line : Str),
      classify inInstr line = LineClass.mcqOption →
      (is_sec_hdr line && !is_general_instr (pyStrip line)) = false ∧
      diagGuard (pyStrip line) = false ∧ is_table_row line = false) ∧
    (∀ (inInstr : Bool) (line : Str),
      classify inInstr line = LineClass.qStem →
      ((optParse (pyStrip line)).isSome && !qnumPrefix (pyStrip line)) = false) ∧
    (∀ (inInstr : Bool) (line : Str),
      classify inInstr line = LineClass.plain →
      ∀ i < 14, (lineGuards inInstr line).getD i true = false) := by
  refine ⟨fun inInstr line => ⟨by simp [lineGuards], classify_spec inInstr line⟩,
    ?_, ?_, ?_, ?_, ?_⟩
  · intro inInstr line h
    simp [classify, h]
  · intro inInstr line h
    rw [classify_spec] at h
    have hle := lineGuards_findIdx_le inInstr line
    have h8 : (lineGuards inInstr line).findIdx id = 8 :=
      lineClasses_idx_secHdr _ hle h
    constructor
    · have := getD_findIdx_lt (lineGuards inInstr line) 6 (by omega)
      simpa [lineGuards] using this
    · have := getD_findIdx_lt (lineGuards inInstr line) 0 (by omega)
      simpa [lineGuards] using this
  · intro inInstr line h
    rw [classify_spec] at h
    have hle := lineGuards_findIdx_le inInstr line
    have h10 : (lineGuards inInstr line).findIdx id = 10 :=
      lineClasses_idx_mcq _ hle h
    refine ⟨?_, ?_, ?_⟩
    · have := getD_findIdx_lt (lineGuards inInstr line) 8 (by omega)
      simpa [lineGuards] using this
    · have := getD_findIdx_lt (lineGuards inInstr line) 6 (by omega)
      simpa [lineGuards] using this
    · have := getD_findIdx_lt (lineGuards inInstr line) 0 (by omega)
      simpa [lineGuards] using this
  · intro inInstr line h
    rw [classify_spec] at h
    have hle := lineGuards_findIdx_le inInstr line
    have h12 : (lineGuards inInstr line).findIdx id = 12 :=
      lineClasses_idx_qStem _ hle h
    have := getD_findIdx_lt (lineGuards inInstr line) 10 (by omega)
    simpa [lineGuards] using this
  · intro inInstr line h
    rw [classify_spec] at h
    have hle := lineGuards_findIdx_le inInstr line
    have h14 : (lineGuards inInstr line).findIdx id = 14 :=
      lineClasses_idx_plain _ hle h
    intro i hi
    exact getD_findIdx_lt (lineGuards inInstr line) i (by omega)

/-- C2 witness: the priority conjuncts applied at a concrete table-row
line that would also match the MCQ-option pattern — the table branch
wins. -/
theorem C2_line_classification_total_witness :
    is_table_row (lit "| (a) x | (b) y |") = true ∧
    classify false (lit "| (a) x | (b) y |") = LineClass.table ∧
    classify false (lit "Q. 3) What is an atom?  [2 Marks]") =
      LineClass.qStem ∧
    ((optParse (pyStrip (lit "Q. 3) What is an atom?  [2 Marks]"))).isSome &&
      !qnumPrefix (pyStrip (lit "Q. 3) What is an atom?  [2 Marks]"))) = false :=
  ⟨by decide,
   C2_line_classification_total.2.1 false (lit "| (a) x | (b) y |") (by decide),
   by decide,
   C2_line_classification_total.2.2.2.2.1 false
     (lit "Q. 3) What is an atom?  [2 Marks]") (by decide)⟩

/-- A step from an empty pending list never emits a group: `flush_opts`
is a no-op on empty pending, and an option line only flushes at the
fourth accumulated option. -/
lemma stepLine_pending_empty (st : LayoutState) (l : Str)
    (h : st.pending = []) : (stepLine st l).2 = [] := by
  obtain ⟨tb, it, pe, ii⟩ := st
  dsimp only at h
  subst h
  simp only [stepLine]
  rcases hc : classify ii (lineOf l) <;> try dsimp only
  all_goals cases it <;> try simp [flushOpts]
  case mcqOption.false =>
    rcases ho : optParse (pyStrip (lineOf l)) with _ | lv <;> simp [ho]
  case mcqOption.true =>
    rcases ho : optParse (pyStrip (lineOf l)) with _ | lv <;> simp [ho]
  case table.false =>
    by_cases hd : is_divider (lineOf l) <;>
      by_cases he : cellsOf (lineOf l) = [] <;> simp [hd, he, flushOpts]
  case table.true =>
    by_cases hd : is_divider (lineOf l) <;>
      by_cases he : cellsOf (lineOf l) = [] <;> simp [hd, he, flushOpts]

/-- The effect of one MCQ-option line on the pending options, the
emitted groups and the instruction flag. -/
lemma stepLine_opt (st : LayoutState) (l : Str) (c : Char) (v : Str)
    (hc : classify st.inInstr (lineOf l) = LineClass.mcqOption)
    (ho : optParse (pyStrip (lineOf l)) = some (c, v)) :
    (stepLine st l).1.pending =
      (if 4 ≤ st.pending.length + 1 then []
       else st.pending ++ [(pyLowerChar c, processText v)]) ∧
    (stepLine st l).2 =
      (if 4 ≤ st.pending.length + 1 then
        [st.pending ++ [(pyLowerChar c, processText v)]] else []) ∧
    (stepLine st l).1.inInstr = false := by
  obtain ⟨tb, it, pe, ii⟩ := st
  dsimp only at hc ⊢
  simp only [stepLine]
  rw [hc]
  try dsimp only
  rw [ho]
  try dsimp only
  cases it <;>
    by_cases h4 : 4 ≤ pe.length + 1 <;>
    simp [h4, List.length_append]

/-- C6 (amended). A step from empty pending never emits a group, and a
block of four consecutive MCQ-option lines starting from empty pending
is grouped into exactly one four-option group, flushed at the fourth
line; whatever the fifth line is, it can never join that group (the
pending list is empty again when it is processed). The original claim's
other half — that any non-option line flushes the pending options — is
refuted separately: several branches skip their line without flushing. -/
theorem C6_mcq_grouping_amended :
    (∀ (st : LayoutState) (l : Str), st.pending = [] →
      (stepLine st l).2 = []) ∧
    (∀ (st : LayoutState) (l1 l2 l3 l4 : Str) (c1 c2 c3 c4 : Char)
        (v1 v2 v3 v4 : Str),
      st.pending = [] →
      (∀ b : Bool, classify b (lineOf l1) = LineClass.mcqOption) →
      optParse (pyStrip (lineOf l1)) = some (c1, v1) →
      (∀ b : Bool, classify b (lineOf l2) = LineClass.mcqOption) →
      optParse (pyStrip (lineOf l2)) = some (c2, v2) →
      (∀ b : Bool, classify b (lineOf l3) = LineClass.mcqOption) →
      optParse (pyStrip (lineOf l3)) = some (c3, v3) →
      (∀ b : Bool, classify b (lineOf l4) = LineClass.mcqOption) →
      optParse (pyStrip (lineOf l4)) = some (c4, v4) →
      (runLines st [l1, l2, l3, l4]).2 =
        [[(pyLowerChar c1, processText v1), (pyLowerChar c2, processText v2),
          (pyLowerChar c3, processText v3), (pyLowerChar c4, processText v4)]] ∧
      (runLines st [l1, l2, l3, l4]).1.pending = [] ∧
      ∀ l5 : Str, (runLines st [l1, l2, l3, l4, l5]).2 =
        [[(pyLowerChar c1, processText v1), (pyLowerChar c2, processText v2),
          (pyLowerChar c3, processText v3), (pyLowerChar c4, processText v4)]]) := by
  refine ⟨stepLine_pending_empty, ?_⟩
  intro st l1 l2 l3 l4 c1 c2 c3 c4 v1 v2 v3 v4 hp hc1 ho1 hc2 ho2 hc3 ho3 hc4 ho4
  have e1 := stepLine_opt st l1 c1 v1 (hc1 _) ho1
  rw [hp] at e1
  norm_num at e1
  have e2 := stepLine_opt (stepLine st l1).1 l2 c2 v2 (hc2 _) ho2
  rw [e1.1] at e2
  norm_num at e2
  have e3 := stepLine_opt (stepLine (stepLine st l1).1 l2).1 l3 c3 v3 (hc3 _) ho3
  rw [e2.1] at e3
  norm_num at e3
  have e4 := stepLine_opt
    (stepLine (stepLine (stepLine st l1).1 l2).1 l3).1 l4 c4 v4 (hc4 _) ho4
  rw [e3.1] at e4
  norm_num at e4
  refine ⟨?_, ?_, ?_⟩
  · simp only [runLines, e1.2.1, e2.2.1, e3.2.1, e4.2.1]
    simp
  · simp only [runLines]
    exact e4.1
  · intro l5
    have e5 := stepLine_pending_empty
      (stepLine (stepLine (stepLine (stepLine st l1).1 l2).1 l3).1 l4).1 l5 e4.1
    simp only [runLines, e1.2.1, e2.2.1, e3.2.1, e4.2.1, e5]
    simp

/-- The C6 counterexample lines: an option line, a header-skip line
(`Subject: ...`), then three more option lines. -/
def c6Lines : List Str :=
  [lit "(a) one", lit "Subject: Math", lit "(b) two", lit "(c) three",
   lit "(d) four"]

/-- C6 counterexample: the layout engine does NOT flush the pending
options when a non-option line appears — the header-skip branch drops
its line without flushing, so options from both sides of
`"Subject: Math"` are merged into a single four-option group. -/
theorem C6_mcq_grouping_counterexample :
    runDoc c6Lines =
      [[('a', lit "one"), ('b', lit "two"), ('c', lit "three"),
        ('d', lit "four")]] ∧
    classify false (lineOf (lit "Subject: Math")) = LineClass.hdrSkip ∧
    ¬ classify false (lineOf (lit "Subject: Math")) = LineClass.mcqOption := by
  refine ⟨?_, by decide, by decide⟩
  set_option maxRecDepth 8000 in decide

/-- C6 witness: the amended grouping theorem applied to a concrete
four-option block and a fifth lettered line. -/
theorem C6_mcq_grouping_amended_witness :
    (runLines {} [lit "(A) p", lit "(B) q", lit "(C) r", lit "(D) s"]).2 =
      [[('a', processText (lit "p")), ('b', processText (lit "q")),
        ('c', processText (lit "r")), ('d', processText (lit "s"))]] ∧
    (runLines {} [lit "(A) p", lit "(B) q", lit "(C) r", lit "(D) s",
        lit "(a) extra"]).2 =
      [[('a', processText (lit "p")), ('b', processText (lit "q")),
        ('c', processText (lit "r")), ('d', processText (lit "s"))]] := by
  have h := C6_mcq_grouping_amended.2 {} (lit "(A) p") (lit "(B) q")
    (lit "(C) r") (lit "(D) s") 'A' 'B' 'C' 'D' (lit "p") (lit "q")
    (lit "r") (lit "s") rfl
    (by decide) (by decide) (by decide) (by decide)
    (by decide) (by decide) (by decide) (by decide)
  exact ⟨h.1, h.2.2 (lit "(a) extra")⟩

/-- C9 (amended). A line is a horizontal rule iff, after stripping
whitespace, it has MORE THAN THREE characters, all drawn from `-`, `=`
and `_` (the source tests `len(s) > 3`, i.e. at least four characters,
not "at least three"); in particular `"==="` is not an hrule and is
classified as plain text, while `"===="` is an hrule. -/
theorem C9_hrule_amended :
    (∀ line : Str, is_hrule line = true ↔
      3 < (pyStrip line).length ∧
      ∀ c ∈ pyStrip line, c = '-' ∨ c = '=' ∨ c = '_') ∧
    is_hrule (lit "===") = false ∧
    is_hrule (lit "====") = true ∧
    (∀ flag : Bool, classify flag (lineOf (lit "====")) = LineClass.hrule) ∧
    (∀ flag : Bool, classify flag (lineOf (lit "===")) = LineClass.plain) := by
  refine ⟨?_, by decide, by decide, by decide, by decide⟩
  intro line
  simp [is_hrule, List.all_eq_true, Bool.or_eq_true_iff,
    decide_eq_true_iff, or_assoc]

/-- C9 counterexample: `"==="` strips to three rule characters yet is
not a horizontal rule — the source requires strictly more than three —
and it falls through the classifier to plain text. -/
theorem C9_hrule_counterexample :
    is_hrule (lit "===") = false ∧
    (pyStrip (lit "===")).length = 3 ∧
    (∀ c ∈ pyStrip (lit "==="), c = '=') ∧
    classify false (lineOf (lit "===")) = LineClass.plain := by
  decide

end QPG
